import Mathlib

/-! Intel Processor Trace feature.

Shallow embedding of `UefiCpuPkg/Library/CpuCommonFeaturesLib/ProcTrace.c`
(`ProcTraceGetConfigData`, `ProcTraceSupport`, `ProcTraceInitialize`) for an X64
build: `UINTN` and `UINT64` are 64 bits wide, `UINT32` is 32 bits wide.

* Machine integers are natural numbers; the places where the C arithmetic can wrap
  or truncate carry an explicit `% 2 ^ 32` or `% 2 ^ 64`.
* The external services (`AsmReadMsr64`, `AllocatePool`,
  `AllocateAlignedReservedPages`) are oracles collected in `Firmware`.
* `CPU_REGISTER_TABLE_WRITE64` appends to the list of submitted register writes;
  nothing is written to a register during the call.
* The two pool arrays (`ThreadMemRegionTable`, `TopaMemArray`) live inside the
  configuration record; a pointer is `none` (NULL) or `some` array.
-/

namespace ProcTrace

/-! ## Constants declared outside the translated file -/

/-- Modelled from the spec: `BIT0` (MdePkg `Base.h`, not part of the translated file) is the
trace-enable bit, bit 0 of `IA32_RTIT_CTL` (source comment: "MSR_IA32_RTIT_CTL[0]"). -/
def BIT0 : Nat := 0x00000001

/-- Modelled from the spec: `BIT2` (MdePkg `Base.h`), one of the three always-on control bits. -/
def BIT2 : Nat := 0x00000004

/-- Modelled from the spec: `BIT3` (MdePkg `Base.h`), one of the three always-on control bits. -/
def BIT3 : Nat := 0x00000008

/-- Modelled from the spec: `BIT8` (MdePkg `Base.h`) is the scheme-select bit
(source comment: "MSR IA32_RTIT_CTL (0x570) ToPA (Bit 8)"). -/
def BIT8 : Nat := 0x00000100

/-- Modelled from the spec: `BIT13` (MdePkg `Base.h`), one of the three always-on control bits. -/
def BIT13 : Nat := 0x00002000

/-- Modelled from the spec: the register index `MSR_IA32_RTIT_CTL` is declared outside the
translated file; the source comments give it as 570h. -/
def MSR_IA32_RTIT_CTL : Nat := 0x570

/-- Modelled from the spec: the register index `MSR_IA32_RTIT_STATUS` is declared outside the
translated file; the source comments give it as 571h. -/
def MSR_IA32_RTIT_STATUS : Nat := 0x571

/-- Modelled from the spec: the register index `MSR_IA32_RTIT_OUTPUT_BASE` is declared outside
the translated file; the source comments give it as 0x560. -/
def MSR_IA32_RTIT_OUTPUT_BASE : Nat := 0x560

/-- Modelled from the spec: the register index `MSR_IA32_RTIT_OUTPUT_MASK_PTRS` is declared
outside the translated file; the source comments give it as 561h. -/
def MSR_IA32_RTIT_OUTPUT_MASK_PTRS : Nat := 0x561

/-- Modelled from the spec: the macro `EFI_SIZE_TO_PAGES` is declared outside the translated
file; it converts a byte count to a count of 4 KiB pages, rounding up. -/
def EFI_SIZE_TO_PAGES (Size : Nat) : Nat :=
  (Size >>> 12) + (if Size &&& 0xFFF ≠ 0 then 1 else 0)

/-- The value of `(UINT64) ~b` for a constant `b` of C type `int` (the `BITn` constants):
the 32-bit complement is negative and is sign-extended to 64 bits. -/
def NOT64 (b : Nat) : Nat := 2 ^ 64 - (b + 1)

/-- The `sizeof (UINTN *)` of an X64 build. -/
def SIZEOF_UINTN_PTR : Nat := 8

/-- The `sizeof (PROC_TRACE_TOPA_TABLE)`: two `UINT64` entries. -/
def SIZEOF_PROC_TRACE_TOPA_TABLE : Nat := 16

/-! ## Data model -/

/-- Processor trace buffer size selection: `EnumProcTraceMemDisable`, the value after
`Enum128M = 15`. -/
def EnumProcTraceMemDisable : Nat := 16

/-- Processor trace output scheme selection: `OutputSchemeSingleRange`. -/
def OutputSchemeSingleRange : Nat := 0

/-- Processor trace output scheme selection: `OutputSchemeToPA`. -/
def OutputSchemeToPA : Nat := 1

/-- Processor trace output scheme selection: `OutputSchemeInvalid`. -/
def OutputSchemeInvalid : Nat := 2

/-- The two return values used by `ProcTraceInitialize`. -/
inductive RETURN_STATUS
  | RETURN_SUCCESS
  | RETURN_OUT_OF_RESOURCES
deriving DecidableEq, Repr

/-- Per-processor capability record. -/
structure PROC_TRACE_PROCESSOR_DATA where
  ProcTraceSupported : Bool
  TopaSupported : Bool
  SingleRangeSupported : Bool
deriving DecidableEq, Repr

/-- A `UINTN` array obtained from `AllocatePool`. A cell is `none` until it is stored to
(pool memory is not initialised); `Freed` records a `FreePool` of the array. -/
structure PoolArray where
  Cells : List (Option Nat)
  Freed : Bool
deriving DecidableEq, Repr

/-- The configuration buffer `PROC_TRACE_DATA`. The flat `ProcessorData` allocation is an
indexed map from CPU index to capability record. -/
structure PROC_TRACE_DATA where
  NumberOfProcessors : Nat
  ProcTraceOutputScheme : Nat
  ProcTraceMemSize : Nat
  ThreadMemRegionTable : Option PoolArray
  AllocatedThreads : Nat
  TopaMemArray : Option PoolArray
  TopaMemArrayCount : Nat
  ProcessorData : Nat → PROC_TRACE_PROCESSOR_DATA

/-- The two-entry table `PROC_TRACE_TOPA_TABLE`. -/
structure PROC_TRACE_TOPA_TABLE where
  TopaEntry0 : Nat
  TopaEntry1 : Nat
deriving DecidableEq, Repr

/-- One `CPU_REGISTER_TABLE_WRITE64 (ProcessorNumber, Msr, Index, Value)` submission. -/
structure CPU_REGISTER_TABLE_ENTRY where
  ProcessorNumber : Nat
  Index : Nat
  Value : Nat
deriving DecidableEq, Repr

/-- An allocation request made by the code. -/
inductive AllocRequest
  | pool (Size : Nat)
  | pages (Pages : Nat) (Alignment : Nat)
deriving DecidableEq, Repr

/-- The external services as seen by one call of `ProcTraceInitialize`.

* `Msr k Index` is the value returned by the `k`-th `AsmReadMsr64` of the call when it
  reads register `Index`;
* `Pool k Size` tells whether the `k`-th `AllocatePool` of the call succeeds;
* `Pages k Pages Alignment` is the address returned by the `k`-th
  `AllocateAlignedReservedPages` of the call (`0` is the failure value);
* `Wild i` is the word found when index `i` is read through an array pointer that is NULL,
  freed, or whose cell `i` was never stored to (C leaves such a read undefined; the
  embedding leaves its value unconstrained and records the event). -/
structure Firmware where
  Msr : Nat → Nat → Nat
  Pool : Nat → Nat → Bool
  Pages : Nat → Nat → Nat → Nat
  Wild : Nat → Nat

/-- The state threaded through one call. -/
structure Exec where
  Data : PROC_TRACE_DATA
  Writes : List CPU_REGISTER_TABLE_ENTRY
  MsrReads : Nat
  Requests : List AllocRequest
  PoolCalls : Nat
  PageCalls : Nat
  TopaTable : Option (Nat × PROC_TRACE_TOPA_TABLE)
  InvalidRead : Bool

/-- What a call leaves behind: the returned status and the final state. -/
structure Outcome where
  Status : RETURN_STATUS
  Final : Exec

/-- Either the function has returned, or control falls through with a value. -/
inductive Step (α : Type)
  | ret (Status : RETURN_STATUS) (x : Exec)
  | next (v : α) (x : Exec)

/-! ## External primitives -/

/-- The read `AsmReadMsr64 (Index)`: a 64-bit value. -/
def AsmReadMsr64 (fw : Firmware) (Index : Nat) (x : Exec) : Nat × Exec :=
  (fw.Msr x.MsrReads Index % 2 ^ 64, { x with MsrReads := x.MsrReads + 1 })

/-- The submission `CPU_REGISTER_TABLE_WRITE64 (ProcessorNumber, Msr, Index, Value)`. -/
def CPU_REGISTER_TABLE_WRITE64 (ProcessorNumber Index Value : Nat) (x : Exec) : Exec :=
  { x with Writes := x.Writes ++ [⟨ProcessorNumber, Index, Value⟩] }

/-- The request `AllocatePool (Size)`: `true` when a non-NULL pointer is returned. -/
def AllocatePool (fw : Firmware) (Size : Nat) (x : Exec) : Bool × Exec :=
  (fw.Pool x.PoolCalls Size,
   { x with Requests := x.Requests ++ [AllocRequest.pool Size], PoolCalls := x.PoolCalls + 1 })

/-- The request `(UINTN) AllocateAlignedReservedPages (Pages, Alignment)`. -/
def AllocateAlignedReservedPages (fw : Firmware) (Pages Alignment : Nat) (x : Exec) :
    Nat × Exec :=
  (fw.Pages x.PageCalls Pages Alignment % 2 ^ 64,
   { x with Requests := x.Requests ++ [AllocRequest.pages Pages Alignment],
            PageCalls := x.PageCalls + 1 })

/-- A fresh pool array of `Size` bytes: `Size / sizeof (UINTN)` cells, none stored to. -/
def PoolArray.fresh (Size : Nat) : PoolArray :=
  ⟨List.replicate (Size / SIZEOF_UINTN_PTR) none, false⟩

/-- The store `Array[Index] = Value`. -/
def PoolArray.store (a : PoolArray) (Index Value : Nat) : PoolArray :=
  { a with Cells := a.Cells.set Index (some Value) }

/-- The array after `FreePool`. -/
def PoolArray.free (a : PoolArray) : PoolArray :=
  { a with Freed := true }

/-- The read `Array[Index]` with its validity: `none` when the pointer is NULL, the array was
freed, the index is outside the array or the cell was never stored to. -/
def PoolArray.read (t : Option PoolArray) (Index : Nat) : Option Nat :=
  match t with
  | none => none
  | some a => if a.Freed then none else a.Cells.getD Index none

/-- The C read `Array[Index]`: the stored value when there is one, otherwise an unconstrained
word, with the event recorded in `InvalidRead`. A read that finds no entry is undefined
behaviour in the source, which may fault there; what is said of a call describes the source
only as long as `InvalidRead` stays `false`. -/
def fetch (fw : Firmware) (t : Option PoolArray) (Index : Nat) (x : Exec) : Nat × Exec :=
  match PoolArray.read t Index with
  | some v => (v, x)
  | none => (fw.Wild Index % 2 ^ 64, { x with InvalidRead := true })

/-! ## `ProcTraceGetConfigData` -/

/-- `ProcTraceGetConfigData`: a zeroed buffer with the processor count (truncated to
`UINT32`) and the two PCD values filled in. The allocation is assumed to succeed, as the
`ASSERT` of the source does. -/
def ProcTraceGetConfigData (NumberOfProcessors PcdCpuProcTraceMemSize
    PcdCpuProcTraceOutputScheme : Nat) : PROC_TRACE_DATA :=
  { NumberOfProcessors := NumberOfProcessors % 2 ^ 32
    ProcTraceOutputScheme := PcdCpuProcTraceOutputScheme % 2 ^ 8
    ProcTraceMemSize := PcdCpuProcTraceMemSize % 2 ^ 32
    ThreadMemRegionTable := none
    AllocatedThreads := 0
    TopaMemArray := none
    TopaMemArrayCount := 0
    ProcessorData := fun _ => ⟨false, false, false⟩ }

/-! ## `ProcTraceSupport` -/

/-- The three CPUID bit-fields read by `ProcTraceSupport`:
`Ebx.Bits.IntelProcessorTrace` of leaf `CPUID_STRUCTURED_EXTENDED_FEATURE_FLAGS`, and
`Ecx.Bits.RTIT`, `Ecx.Bits.SingleRangeOutput` of leaf `CPUID_INTEL_PROCESSOR_TRACE`. -/
structure CpuidBits where
  IntelProcessorTrace : Nat
  RTIT : Nat
  SingleRangeOutput : Nat
deriving DecidableEq, Repr

/-- The store `ProcessorData[ProcessorNumber] = r`. -/
def setProcessorData (d : PROC_TRACE_DATA) (ProcessorNumber : Nat)
    (r : PROC_TRACE_PROCESSOR_DATA) : PROC_TRACE_DATA :=
  { d with ProcessorData := fun i => if i = ProcessorNumber then r else d.ProcessorData i }

/-- `ProcTraceSupport`: the returned boolean and the configuration buffer after the call. -/
def ProcTraceSupport (ProcessorNumber : Nat) (Cpuid : CpuidBits) (d : PROC_TRACE_DATA) :
    Bool × PROC_TRACE_DATA :=
  if d.ProcTraceMemSize ≥ EnumProcTraceMemDisable ∨
      d.ProcTraceOutputScheme ≥ OutputSchemeInvalid then
    (false, d)
  else
    let d1 := setProcessorData d ProcessorNumber
      { d.ProcessorData ProcessorNumber with
        ProcTraceSupported := decide (Cpuid.IntelProcessorTrace = 1) }
    if !(d1.ProcessorData ProcessorNumber).ProcTraceSupported then
      (false, d1)
    else
      let d2 := setProcessorData d1 ProcessorNumber
        { d1.ProcessorData ProcessorNumber with
          TopaSupported := decide (Cpuid.RTIT = 1) }
      let d3 := setProcessorData d2 ProcessorNumber
        { d2.ProcessorData ProcessorNumber with
          SingleRangeSupported := decide (Cpuid.SingleRangeOutput = 1) }
      if (d3.ProcessorData ProcessorNumber).TopaSupported ∨
          (d3.ProcessorData ProcessorNumber).SingleRangeSupported then
        (true, d3)
      else
        (false, d3)

/-! ## `ProcTraceInitialize` -/

/-- The assignment `MemRegionSize = (UINT32) (1 << (ProcTraceMemSize + 12))`. Exact for
`ProcTraceMemSize ≤ 19`; for larger values the C shift is undefined. `ProcTraceSupport` lets
through size classes below 16 only. -/
def MemRegionSize (d : PROC_TRACE_DATA) : Nat :=
  (1 <<< (d.ProcTraceMemSize + 12)) % 2 ^ 32

/-- The state at function entry: nothing read, written or requested yet. -/
def Exec.start (d : PROC_TRACE_DATA) : Exec :=
  ⟨d, [], 0, [], 0, 0, none, false⟩

/-- The block "Clear MSR_IA32_RTIT_CTL[0] and IA32_RTIT_STS only if
MSR_IA32_RTIT_CTL[0]==1b". -/
def resetStep (fw : Firmware) (ProcessorNumber : Nat) (x : Exec) : Exec :=
  let r := AsmReadMsr64 fw MSR_IA32_RTIT_CTL x
  if r.1 &&& BIT0 ≠ 0 then
    let x1 := CPU_REGISTER_TABLE_WRITE64 ProcessorNumber MSR_IA32_RTIT_CTL
      (r.1 &&& NOT64 BIT0) r.2
    let s := AsmReadMsr64 fw MSR_IA32_RTIT_STATUS x1
    CPU_REGISTER_TABLE_WRITE64 ProcessorNumber MSR_IA32_RTIT_STATUS (s.1 &&& 0x0) s.2
  else
    r.2

/-- The store `ThreadMemRegionTable[Index] = AlignedAddress` followed by the loop increment
`AllocatedThreads++`. -/
def regionNext (Index AlignedAddress : Nat) (x : Exec) : Exec :=
  { x with Data := { x.Data with
      ThreadMemRegionTable := x.Data.ThreadMemRegionTable.map (fun t => t.store Index AlignedAddress)
      AllocatedThreads := x.Data.AllocatedThreads + 1 } }

/-- The statement `FreePool ((VOID *) ThreadMemRegionTable)`; the assignment
`ThreadMemRegionTable = NULL` that follows it changes the local variable only, so the
field of the configuration buffer keeps pointing to the freed array. -/
def regionFree (x : Exec) : Exec :=
  { x with Data := { x.Data with
      ThreadMemRegionTable := x.Data.ThreadMemRegionTable.map PoolArray.free } }

/-- The loop `for (Index = 0; Index < NumberOfProcessors; Index++, AllocatedThreads++)` of
the first invocation, from `Index` on. The first argument bounds the number of iterations
(`NumberOfProcessors` at the call site, which the loop can never exceed). The boolean
is `true` when the function returns `RETURN_OUT_OF_RESOURCES` from inside the loop. -/
def regionLoop (fw : Firmware) (Size : Nat) : Nat → Nat → Exec → Bool × Exec
  | 0, _, x => (false, x)
  | fuel + 1, Index, x =>
    if Index < x.Data.NumberOfProcessors then
      let a := AllocateAlignedReservedPages fw (EFI_SIZE_TO_PAGES Size) Size x
      if a.1 = 0 then
        if Index = 0 then
          (true, regionFree a.2)
        else
          (false, a.2)
      else
        regionLoop fw Size fuel (Index + 1) (regionNext Index a.1 a.2)
    else
      (false, x)

/-- The assignment `ProcTraceData->ThreadMemRegionTable = ThreadMemRegionTable` after a
successful `AllocatePool (Size)`. -/
def regionPublish (Size : Nat) (x : Exec) : Exec :=
  { x with Data := { x.Data with ThreadMemRegionTable := some (PoolArray.fresh Size) } }

/-- The part of the function that supplies `MemRegionBaseAddr`: the allocation pass of the
first invocation, or the table lookup of a later one. -/
def regionStep (fw : Firmware) (ProcessorNumber : Nat) (FirstIn : Bool) (Size : Nat)
    (x : Exec) : Step Nat :=
  if FirstIn then
    let a := AllocatePool fw (x.Data.NumberOfProcessors * SIZEOF_UINTN_PTR) x
    if !a.1 then
      Step.ret RETURN_STATUS.RETURN_OUT_OF_RESOURCES a.2
    else
      let x1 := regionPublish (x.Data.NumberOfProcessors * SIZEOF_UINTN_PTR) a.2
      let l := regionLoop fw Size x1.Data.NumberOfProcessors 0 x1
      if l.1 then
        Step.ret RETURN_STATUS.RETURN_OUT_OF_RESOURCES l.2
      else
        let m := fetch fw l.2.Data.ThreadMemRegionTable 0 l.2
        Step.next m.1 m.2
  else
    if ProcessorNumber < x.Data.AllocatedThreads then
      let m := fetch fw x.Data.ThreadMemRegionTable ProcessorNumber x
      Step.next m.1 m.2
    else
      Step.ret RETURN_STATUS.RETURN_SUCCESS x

/-- The value `(UINT64) MemRegionSize - 1` written to the output-mask register. -/
def regionMask (Size : Nat) : Nat :=
  (Size + (2 ^ 64 - 1)) % 2 ^ 64

/-- The block "Single Range output scheme". -/
def singleRangeStep (fw : Firmware) (ProcessorNumber Size MemRegionBaseAddr : Nat)
    (x : Exec) : Exec :=
  let r := AsmReadMsr64 fw MSR_IA32_RTIT_CTL x
  let x1 := CPU_REGISTER_TABLE_WRITE64 ProcessorNumber MSR_IA32_RTIT_CTL
    (r.1 &&& NOT64 BIT8) r.2
  let x2 := CPU_REGISTER_TABLE_WRITE64 ProcessorNumber MSR_IA32_RTIT_OUTPUT_BASE
    MemRegionBaseAddr x1
  CPU_REGISTER_TABLE_WRITE64 ProcessorNumber MSR_IA32_RTIT_OUTPUT_MASK_PTRS
    (regionMask Size) x2

/-- The store `TopaMemArray[Index] = AlignedAddress`. -/
def topaNext (Index AlignedAddress : Nat) (x : Exec) : Exec :=
  { x with Data := { x.Data with
      TopaMemArray := x.Data.TopaMemArray.map (fun t => t.store Index AlignedAddress) } }

/-- The statement `if (Index < AllocatedThreads) { AllocatedThreads = Index; }`. -/
def topaTruncate (Index : Nat) (x : Exec) : Exec :=
  if Index < x.Data.AllocatedThreads then
    { x with Data := { x.Data with AllocatedThreads := Index } }
  else
    x

/-- The statement `FreePool ((VOID *) TopaMemArray)`; as for the region table, the
assignment `TopaMemArray = NULL` that follows changes the local variable only. -/
def topaFree (x : Exec) : Exec :=
  { x with Data := { x.Data with TopaMemArray := x.Data.TopaMemArray.map PoolArray.free } }

/-- The loop `for (Index = 0; Index < AllocatedThreads; Index++)` of the first invocation in
the ToPA block, from `Index` on; first argument and boolean as in `regionLoop`. -/
def topaLoop (fw : Firmware) : Nat → Nat → Exec → Bool × Exec
  | 0, _, x => (false, x)
  | fuel + 1, Index, x =>
    if Index < x.Data.AllocatedThreads then
      let a := AllocateAlignedReservedPages fw
        (EFI_SIZE_TO_PAGES SIZEOF_PROC_TRACE_TOPA_TABLE) 0x1000 x
      if a.1 = 0 then
        if Index = 0 then
          (true, topaFree (topaTruncate Index a.2))
        else
          (false, topaTruncate Index a.2)
      else
        topaLoop fw fuel (Index + 1) (topaNext Index a.1 a.2)
    else
      (false, x)

/-- The assignment `ProcTraceData->TopaMemArray = TopaMemArray` after a successful
`AllocatePool (Size)`. -/
def topaPublish (Size : Nat) (x : Exec) : Exec :=
  { x with Data := { x.Data with TopaMemArray := some (PoolArray.fresh Size) } }

/-- The part of the ToPA block that supplies `TopaTableBaseAddr`: the allocation pass of the
first invocation, or the array lookup of a later one. -/
def topaStep (fw : Firmware) (ProcessorNumber : Nat) (FirstIn : Bool) (x : Exec) : Step Nat :=
  if FirstIn then
    let a := AllocatePool fw (x.Data.AllocatedThreads * SIZEOF_UINTN_PTR) x
    if !a.1 then
      Step.ret RETURN_STATUS.RETURN_OUT_OF_RESOURCES a.2
    else
      let x1 := topaPublish (x.Data.AllocatedThreads * SIZEOF_UINTN_PTR) a.2
      let l := topaLoop fw x1.Data.AllocatedThreads 0 x1
      if l.1 then
        Step.ret RETURN_STATUS.RETURN_OUT_OF_RESOURCES l.2
      else
        let m := fetch fw l.2.Data.TopaMemArray 0 l.2
        Step.next m.1 m.2
  else
    if ProcessorNumber < x.Data.AllocatedThreads then
      let m := fetch fw x.Data.TopaMemArray ProcessorNumber x
      Step.next m.1 m.2
    else
      Step.ret RETURN_STATUS.RETURN_SUCCESS x

/-- The value stored to `TopaTable->TopaEntry[0]`. -/
def TopaEntry0 (MemRegionBaseAddr ProcTraceMemSize : Nat) : Nat :=
  (MemRegionBaseAddr ||| ((ProcTraceMemSize <<< 6) % 2 ^ 32)) &&& NOT64 BIT0

/-- The value stored to `TopaTable->TopaEntry[1]`. -/
def TopaEntry1 (TopaTableBaseAddr : Nat) : Nat :=
  TopaTableBaseAddr ||| BIT0

/-- The rest of the ToPA block: the two table entries are stored at `TopaTableBaseAddr` and
the three register writes are submitted. The table is taken to be memory of its own, apart
from the configuration buffer and the two pool arrays: the store is recorded in `TopaTable`
and leaves `Data` alone. This describes the source only when `TopaTableBaseAddr` was read
from an entry of `TopaMemArray`. -/
def topaProgram (fw : Firmware) (ProcessorNumber TopaTableBaseAddr MemRegionBaseAddr : Nat)
    (x : Exec) : Exec :=
  let x1 : Exec := { x with TopaTable := some (TopaTableBaseAddr,
    ⟨TopaEntry0 MemRegionBaseAddr x.Data.ProcTraceMemSize, TopaEntry1 TopaTableBaseAddr⟩) }
  let x2 := CPU_REGISTER_TABLE_WRITE64 ProcessorNumber MSR_IA32_RTIT_OUTPUT_BASE
    TopaTableBaseAddr x1
  let x3 := CPU_REGISTER_TABLE_WRITE64 ProcessorNumber MSR_IA32_RTIT_OUTPUT_MASK_PTRS 0x7F x2
  let r := AsmReadMsr64 fw MSR_IA32_RTIT_CTL x3
  CPU_REGISTER_TABLE_WRITE64 ProcessorNumber MSR_IA32_RTIT_CTL (r.1 ||| BIT8) r.2

/-- The block "Enable the Processor Trace feature from MSR IA32_RTIT_CTL (570h)". -/
def armStep (fw : Firmware) (ProcessorNumber : Nat) (State : Bool) (x : Exec) : Exec :=
  let r := AsmReadMsr64 fw MSR_IA32_RTIT_CTL x
  let v := r.1 ||| (BIT0 + BIT2 + BIT3 + BIT13)
  CPU_REGISTER_TABLE_WRITE64 ProcessorNumber MSR_IA32_RTIT_CTL
    (if !State then v &&& NOT64 BIT0 else v) r.2

/-- `ProcTraceInitialize (ProcessorNumber, CpuInfo, ConfigData, State)`; `CpuInfo` is not
used by the function. -/
def ProcTraceInitialize (fw : Firmware) (ProcessorNumber : Nat) (d : PROC_TRACE_DATA)
    (State : Bool) : Outcome :=
  let FirstIn := d.ThreadMemRegionTable.isNone
  let Size := MemRegionSize d
  let x0 := resetStep fw ProcessorNumber (Exec.start d)
  match regionStep fw ProcessorNumber FirstIn Size x0 with
  | Step.ret s x => ⟨s, x⟩
  | Step.next MemRegionBaseAddr x1 =>
    let x2 :=
      if (x1.Data.ProcessorData ProcessorNumber).SingleRangeSupported = true ∧
          x1.Data.ProcTraceOutputScheme = OutputSchemeSingleRange then
        singleRangeStep fw ProcessorNumber Size MemRegionBaseAddr x1
      else
        x1
    if (x2.Data.ProcessorData ProcessorNumber).TopaSupported = true ∧
        x2.Data.ProcTraceOutputScheme = OutputSchemeToPA then
      match topaStep fw ProcessorNumber FirstIn x2 with
      | Step.ret s x => ⟨s, x⟩
      | Step.next TopaTableBaseAddr x3 =>
        ⟨RETURN_STATUS.RETURN_SUCCESS, armStep fw ProcessorNumber State
          (topaProgram fw ProcessorNumber TopaTableBaseAddr MemRegionBaseAddr x3)⟩
    else
      ⟨RETURN_STATUS.RETURN_SUCCESS, armStep fw ProcessorNumber State x2⟩

/-! ## Observers used to state properties of a call -/

/-- The state in which a call leaves the part of the function that supplies
`MemRegionBaseAddr` (whether the function returned there or went on). -/
def afterRegionStep (fw : Firmware) (ProcessorNumber : Nat) (d : PROC_TRACE_DATA) : Exec :=
  match regionStep fw ProcessorNumber d.ThreadMemRegionTable.isNone (MemRegionSize d)
      (resetStep fw ProcessorNumber (Exec.start d)) with
  | Step.ret _ x => x
  | Step.next _ x => x

/-- The region available to a call: the `MemRegionBaseAddr` with which the call goes on to
the output-scheme blocks, `none` when the function returns before them. -/
def regionOf (fw : Firmware) (ProcessorNumber : Nat) (d : PROC_TRACE_DATA) : Option Nat :=
  match regionStep fw ProcessorNumber d.ThreadMemRegionTable.isNone (MemRegionSize d)
      (resetStep fw ProcessorNumber (Exec.start d)) with
  | Step.ret _ _ => none
  | Step.next MemRegionBaseAddr _ => some MemRegionBaseAddr

/-- The routing table available to a call that enters the ToPA block: the
`TopaTableBaseAddr` with which the block goes on to store the table entries, `none` when the
function returns before that. -/
def topaTableOf (fw : Firmware) (ProcessorNumber : Nat) (d : PROC_TRACE_DATA) : Option Nat :=
  match topaStep fw ProcessorNumber d.ThreadMemRegionTable.isNone
      (afterRegionStep fw ProcessorNumber d) with
  | Step.ret _ _ => none
  | Step.next TopaTableBaseAddr _ => some TopaTableBaseAddr

/-- The value returned by the `k`-th `AsmReadMsr64` of a call when it reads `Index`. -/
def msrRead (fw : Firmware) (k Index : Nat) : Nat :=
  fw.Msr k Index % 2 ^ 64

/-- The number of `AsmReadMsr64` calls made by the reset block: one, or two when bit 0 of
the control register was set. -/
def resetReads (fw : Firmware) : Nat :=
  if msrRead fw 0 MSR_IA32_RTIT_CTL &&& BIT0 ≠ 0 then 2 else 1

/-- The register writes submitted by the reset block. -/
def resetWrites (fw : Firmware) (ProcessorNumber : Nat) : List CPU_REGISTER_TABLE_ENTRY :=
  if msrRead fw 0 MSR_IA32_RTIT_CTL &&& BIT0 ≠ 0 then
    [⟨ProcessorNumber, MSR_IA32_RTIT_CTL, msrRead fw 0 MSR_IA32_RTIT_CTL &&& NOT64 BIT0⟩,
     ⟨ProcessorNumber, MSR_IA32_RTIT_STATUS, 0⟩]
  else
    []

/-- The address returned by the `k`-th `AllocateAlignedReservedPages` of a call. -/
def pageAddr (fw : Firmware) (k Pages Alignment : Nat) : Nat :=
  fw.Pages k Pages Alignment % 2 ^ 64

/-- The state `y` differs from `x` at most in the region table, the allocated count and the
page requests made. -/
def RegionFrame (x y : Exec) : Prop :=
  y.Writes = x.Writes ∧ y.MsrReads = x.MsrReads ∧ y.PoolCalls = x.PoolCalls ∧
  y.TopaTable = x.TopaTable ∧ y.InvalidRead = x.InvalidRead ∧
  y.Data.NumberOfProcessors = x.Data.NumberOfProcessors ∧
  y.Data.ProcTraceOutputScheme = x.Data.ProcTraceOutputScheme ∧
  y.Data.ProcTraceMemSize = x.Data.ProcTraceMemSize ∧
  y.Data.TopaMemArray = x.Data.TopaMemArray ∧
  y.Data.TopaMemArrayCount = x.Data.TopaMemArrayCount ∧
  y.Data.ProcessorData = x.Data.ProcessorData

/-- The state `y` differs from `x` at most in the ToPA array, the allocated count and the
page requests made. -/
def TopaFrame (x y : Exec) : Prop :=
  y.Writes = x.Writes ∧ y.MsrReads = x.MsrReads ∧ y.PoolCalls = x.PoolCalls ∧
  y.TopaTable = x.TopaTable ∧ y.InvalidRead = x.InvalidRead ∧
  y.Data.NumberOfProcessors = x.Data.NumberOfProcessors ∧
  y.Data.ProcTraceOutputScheme = x.Data.ProcTraceOutputScheme ∧
  y.Data.ProcTraceMemSize = x.Data.ProcTraceMemSize ∧
  y.Data.ThreadMemRegionTable = x.Data.ThreadMemRegionTable ∧
  y.Data.TopaMemArrayCount = x.Data.TopaMemArrayCount ∧
  y.Data.ProcessorData = x.Data.ProcessorData

/-- The value obtained by the C read `Array[Index]` (see `fetch`). -/
def fetchValue (fw : Firmware) (t : Option PoolArray) (Index : Nat) : Nat :=
  match PoolArray.read t Index with
  | some v => v
  | none => fw.Wild Index % 2 ^ 64

/-- The value of the final arming write when the last read of `IA32_RTIT_CTL` returned `r`. -/
def armValue (r : Nat) (State : Bool) : Nat :=
  if !State then (r ||| (BIT0 + BIT2 + BIT3 + BIT13)) &&& NOT64 BIT0
  else r ||| (BIT0 + BIT2 + BIT3 + BIT13)

/-- The writes submitted by the output-scheme blocks of a call that is not the first
invocation and whose `ProcessorNumber` is below `AllocatedThreads`, when the read of
`IA32_RTIT_CTL` made by the block returns `c`. -/
def laterSchemeWrites (fw : Firmware) (ProcessorNumber : Nat) (d : PROC_TRACE_DATA)
    (c : Nat) : List CPU_REGISTER_TABLE_ENTRY :=
  if (d.ProcessorData ProcessorNumber).SingleRangeSupported = true ∧
      d.ProcTraceOutputScheme = OutputSchemeSingleRange then
    [⟨ProcessorNumber, MSR_IA32_RTIT_CTL, c &&& NOT64 BIT8⟩,
     ⟨ProcessorNumber, MSR_IA32_RTIT_OUTPUT_BASE,
      fetchValue fw d.ThreadMemRegionTable ProcessorNumber⟩,
     ⟨ProcessorNumber, MSR_IA32_RTIT_OUTPUT_MASK_PTRS, regionMask (MemRegionSize d)⟩]
  else if (d.ProcessorData ProcessorNumber).TopaSupported = true ∧
      d.ProcTraceOutputScheme = OutputSchemeToPA then
    [⟨ProcessorNumber, MSR_IA32_RTIT_OUTPUT_BASE,
      fetchValue fw d.TopaMemArray ProcessorNumber⟩,
     ⟨ProcessorNumber, MSR_IA32_RTIT_OUTPUT_MASK_PTRS, 0x7F⟩,
     ⟨ProcessorNumber, MSR_IA32_RTIT_CTL, c ||| BIT8⟩]
  else
    []

/-- All the writes of a call that is not the first invocation and whose `ProcessorNumber`
is below `AllocatedThreads`, when every read of `IA32_RTIT_CTL` returns `c`. -/
def laterWrites (fw : Firmware) (p : Nat) (d : PROC_TRACE_DATA) (State : Bool) (c : Nat) :
    List CPU_REGISTER_TABLE_ENTRY :=
  (if c &&& BIT0 ≠ 0 then
    [⟨p, MSR_IA32_RTIT_CTL, c &&& NOT64 BIT0⟩, ⟨p, MSR_IA32_RTIT_STATUS, 0⟩]
  else []) ++ laterSchemeWrites fw p d c ++ [⟨p, MSR_IA32_RTIT_CTL, armValue c State⟩]

/-! ## Concrete platforms used as examples -/

/-- A platform whose control register reads `ctl` (every other register reads 0), whose pool
requests succeed and whose first `okPages` page requests succeed, at distinct
256 MiB-aligned addresses; the later page requests fail. -/
def demoFirmware (ctl okPages : Nat) : Firmware :=
  { Msr := fun _ Index => if Index = MSR_IA32_RTIT_CTL then ctl else 0
    Pool := fun _ _ => true
    Pages := fun k _ _ => if k < okPages then 0x10000000 * (k + 1) else 0
    Wild := fun _ => 0 }

/-- The configuration buffer of a platform of `N` processors after the capability check has
run on each of them, processor `i` reporting the CPUID bits `Cpuid i`. -/
def demoConfig (N MemSize Scheme : Nat) (Cpuid : Nat → CpuidBits) : PROC_TRACE_DATA :=
  (List.range N).foldl (fun d i => (ProcTraceSupport i (Cpuid i) d).2)
    (ProcTraceGetConfigData N MemSize Scheme)

/-- CPUID bits of a processor that supports tracing and both output schemes. -/
def fullCpuid : CpuidBits := ⟨1, 1, 1⟩

/-- Four processors, size class `Enum4K`, scheme ToPA, every processor fully capable. -/
def fourCpuConfig : PROC_TRACE_DATA :=
  demoConfig 4 0 OutputSchemeToPA (fun _ => fullCpuid)

/-- The configuration of `fourCpuConfig` after processor 0 has made the first invocation on
a platform where every allocation succeeds. -/
def fourCpuAfterFirst : PROC_TRACE_DATA :=
  (ProcTraceInitialize (demoFirmware 0 8) 0 fourCpuConfig true).Final.Data

/-- Two processors, size class `Enum4K`, scheme single-range, every processor fully
capable. -/
def twoCpuConfig : PROC_TRACE_DATA :=
  demoConfig 2 0 OutputSchemeSingleRange (fun _ => fullCpuid)

/-- The configuration of `twoCpuConfig` after processor 0 has made the first invocation on a
platform where only the first region allocation succeeds: one region is allocated. -/
def twoCpuOneRegion : PROC_TRACE_DATA :=
  (ProcTraceInitialize (demoFirmware 0 1) 0 twoCpuConfig true).Final.Data

/-! ## Deferred register writes -/

/-- A register file: the value held by each model-specific register. -/
abbrev RegisterFile := Nat → Nat

/-- One submitted write taking effect. -/
def applyWrite (regs : RegisterFile) (w : CPU_REGISTER_TABLE_ENTRY) : RegisterFile :=
  fun Index => if Index = w.Index then w.Value else regs Index

/-- The submitted writes taking effect in submission order. -/
def applyWrites (regs : RegisterFile) (ws : List CPU_REGISTER_TABLE_ENTRY) : RegisterFile :=
  ws.foldl applyWrite regs

/-- The services seen by a call made while the registers hold `regs`: every read during the
call returns the value from before the call. -/
def deferred (fw : Firmware) (regs : RegisterFile) : Firmware :=
  { fw with Msr := fun _ Index => regs Index }

/-- One call followed by its submitted writes taking effect: the register file and the
configuration buffer afterwards. -/
def callAndApply (fw : Firmware) (ProcessorNumber : Nat) (State : Bool)
    (s : RegisterFile × PROC_TRACE_DATA) : RegisterFile × PROC_TRACE_DATA :=
  let r := ProcTraceInitialize (deferred fw s.1) ProcessorNumber s.2 State
  (applyWrites s.1 r.Final.Writes, r.Final.Data)

/-- A register file whose control register holds `ctl` and whose status register holds
`status`; the other registers hold 0. -/
def demoRegisters (ctl status : Nat) : RegisterFile :=
  fun Index =>
    if Index = MSR_IA32_RTIT_CTL then ctl
    else if Index = MSR_IA32_RTIT_STATUS then status
    else 0

/-- Two calls in a row, each followed by its submitted writes taking effect. -/
def callTwiceAndApply (fw : Firmware) (ProcessorNumber : Nat) (State : Bool)
    (s : RegisterFile × PROC_TRACE_DATA) : RegisterFile × PROC_TRACE_DATA :=
  callAndApply fw ProcessorNumber State (callAndApply fw ProcessorNumber State s)

/-- A platform like `demoFirmware` whose page requests all succeed except request number
`failAt`. -/
def demoFirmwareFailAt (ctl failAt : Nat) : Firmware :=
  { Msr := fun _ Index => if Index = MSR_IA32_RTIT_CTL then ctl else 0
    Pool := fun _ _ => true
    Pages := fun k _ _ => if k = failAt then 0 else 0x10000000 * (k + 1)
    Wild := fun _ => 0 }

/-- The configuration of `twoCpuConfig` after processor 1 (not processor 0) has made the
first invocation on a platform where every allocation succeeds. -/
def twoCpuAfterFirstByCpu1 : PROC_TRACE_DATA :=
  (ProcTraceInitialize (demoFirmware 0 2) 1 twoCpuConfig true).Final.Data

/-! ## Calls in sequence, and a platform of unequal processors -/

/-- A sequence of calls, each given by its services, its `ProcessorNumber` and its `State`,
made one after the other on the same configuration buffer: the buffer afterwards. -/
def callSequence (calls : List (Firmware × Nat × Bool)) (d : PROC_TRACE_DATA) :
    PROC_TRACE_DATA :=
  calls.foldl (fun e c => (ProcTraceInitialize c.1 c.2.1 e c.2.2).Final.Data) d

/-- CPUID bits of a processor that supports tracing with single-range output only. -/
def singleOnlyCpuid : CpuidBits := ⟨1, 0, 1⟩

/-- Two processors, size class `Enum4K`, scheme ToPA; processor 0 supports single-range
output only, processor 1 is fully capable. -/
def mixedConfig : PROC_TRACE_DATA :=
  demoConfig 2 0 OutputSchemeToPA (fun i => if i = 0 then singleOnlyCpuid else fullCpuid)

/-- The configuration of `mixedConfig` after processor 0 has made the first invocation on a
platform where every allocation succeeds. -/
def mixedAfterFirst : PROC_TRACE_DATA :=
  (ProcTraceInitialize (demoFirmware 0 8) 0 mixedConfig true).Final.Data

/-! # Lemmas -/

/-! ## Bit-level facts -/

theorem testBit_of_lt_two_pow {c n i : Nat} (hc : c < 2 ^ n) (hi : n ≤ i) :
    c.testBit i = false :=
  Nat.testBit_lt_two_pow (Nat.lt_of_lt_of_le hc (Nat.pow_le_pow_right (by decide) hi))

/-- Masking with `(UINT64) ~b` clears exactly the bits of `b`. -/
theorem testBit_and_NOT64 (c b i : Nat) (hc : c < 2 ^ 64) (hb : b < 2 ^ 64) :
    (c &&& NOT64 b).testBit i = (c.testBit i && !b.testBit i) := by
  unfold NOT64
  rw [Nat.testBit_and, Nat.testBit_two_pow_sub_succ hb]
  by_cases hi : i < 64
  · simp [hi]
  · simp [testBit_of_lt_two_pow hc (Nat.le_of_not_lt hi)]

theorem and_NOT64_lt (c b : Nat) (hc : c < 2 ^ 64) : c &&& NOT64 b < 2 ^ 64 :=
  Nat.lt_of_le_of_lt Nat.and_le_left hc

/-- Clearing bit 0 of an even 64-bit value changes nothing. -/
theorem and_NOT64_BIT0_of_even (v : Nat) (hv : v < 2 ^ 64) (he : v % 2 = 0) :
    v &&& NOT64 BIT0 = v := by
  apply Nat.eq_of_testBit_eq
  intro i
  rw [testBit_and_NOT64 v BIT0 i hv (by decide)]
  cases i with
  | zero => simp [Nat.testBit_zero, he]
  | succ j =>
    have : BIT0.testBit (j + 1) = false := by
      simp [BIT0, Nat.testBit_succ]
    simp [this]

/-- Or-ing a multiple of `2 ^ 12` with a value below `2 ^ 12` adds them. -/
theorem or_eq_add_of_page_aligned (R b : Nat) (hR : R % 4096 = 0) (hb : b < 4096) :
    R ||| b = R + b := by
  have h := Nat.mul_add_lt_is_or (i := 12) (b := b) (by simpa using hb) (R / 4096)
  have hR' : 2 ^ 12 * (R / 4096) = R := by omega
  rw [hR'] at h
  exact h.symm

theorem page_aligned_of_region_aligned (R sc : Nat) (hR : R % (4096 <<< sc) = 0) :
    R % 4096 = 0 := by
  rw [Nat.shiftLeft_eq] at hR
  have h1 : 4096 * 2 ^ sc ∣ R := Nat.dvd_of_mod_eq_zero hR
  exact Nat.mod_eq_zero_of_dvd (Nat.dvd_trans (Nat.dvd_mul_right _ _) h1)

theorem shiftLeft_six_lt (sc : Nat) (hsc : sc ≤ 15) : sc <<< 6 < 4096 := by
  rw [Nat.shiftLeft_eq]; omega

theorem TopaEntry0_eq (R sc : Nat) (hsc : sc ≤ 15) (hR : R % 4096 = 0) (hR64 : R < 2 ^ 64) :
    TopaEntry0 R sc = R + sc * 64 := by
  have h6 : sc <<< 6 = sc * 64 := by rw [Nat.shiftLeft_eq]
  have hlt : sc * 64 < 4096 := by omega
  unfold TopaEntry0
  rw [h6, Nat.mod_eq_of_lt (by omega), or_eq_add_of_page_aligned R _ hR hlt]
  exact and_NOT64_BIT0_of_even _ (by omega) (by omega)

theorem TopaEntry1_eq (T : Nat) (hT : T % 4096 = 0) : TopaEntry1 T = T + 1 := by
  unfold TopaEntry1 BIT0
  exact or_eq_add_of_page_aligned T 1 hT (by decide)

theorem MemRegionSize_eq (d : PROC_TRACE_DATA) (hsc : d.ProcTraceMemSize ≤ 15) :
    MemRegionSize d = 4096 <<< d.ProcTraceMemSize := by
  unfold MemRegionSize
  rw [Nat.shiftLeft_eq, Nat.shiftLeft_eq, Nat.one_mul, Nat.pow_add]
  have : 2 ^ d.ProcTraceMemSize ≤ 2 ^ 15 := Nat.pow_le_pow_right (by decide) hsc
  rw [Nat.mod_eq_of_lt (by omega)]
  omega



/-! ## The reset block -/

section Reset
variable (fw : Firmware) (p : Nat) (x : Exec) (d : PROC_TRACE_DATA)

@[simp] theorem resetStep_Data : (resetStep fw p x).Data = x.Data := by
  unfold resetStep; dsimp only; split <;> rfl

@[simp] theorem resetStep_Requests : (resetStep fw p x).Requests = x.Requests := by
  unfold resetStep; dsimp only; split <;> rfl

@[simp] theorem resetStep_PoolCalls : (resetStep fw p x).PoolCalls = x.PoolCalls := by
  unfold resetStep; dsimp only; split <;> rfl

@[simp] theorem resetStep_PageCalls : (resetStep fw p x).PageCalls = x.PageCalls := by
  unfold resetStep; dsimp only; split <;> rfl

@[simp] theorem resetStep_TopaTable : (resetStep fw p x).TopaTable = x.TopaTable := by
  unfold resetStep; dsimp only; split <;> rfl

@[simp] theorem resetStep_InvalidRead : (resetStep fw p x).InvalidRead = x.InvalidRead := by
  unfold resetStep; dsimp only; split <;> rfl

theorem resetStep_start_Writes :
    (resetStep fw p (Exec.start d)).Writes = resetWrites fw p := by
  unfold resetStep resetWrites msrRead; dsimp only
  split <;> rename_i h <;> simp only [AsmReadMsr64, Exec.start] at h
  · rw [if_pos h]
    simp [CPU_REGISTER_TABLE_WRITE64, AsmReadMsr64, Exec.start]
  · rw [if_neg h]
    rfl

theorem resetStep_start_MsrReads :
    (resetStep fw p (Exec.start d)).MsrReads = resetReads fw := by
  unfold resetStep resetReads msrRead; dsimp only
  split <;> rename_i h <;> simp only [AsmReadMsr64, Exec.start] at h
  · rw [if_pos h]
    rfl
  · rw [if_neg h]
    rfl

end Reset


@[simp] theorem Exec.start_Data (d : PROC_TRACE_DATA) : (Exec.start d).Data = d := rfl

theorem regionStep_later_skip (fw : Firmware) (p S : Nat) (x : Exec)
    (h : ¬ p < x.Data.AllocatedThreads) :
    regionStep fw p false S x = Step.ret RETURN_STATUS.RETURN_SUCCESS x := by
  simp [regionStep, h]

theorem regionStep_later_fetch (fw : Firmware) (p S : Nat) (x : Exec)
    (h : p < x.Data.AllocatedThreads) :
    regionStep fw p false S x =
      Step.next (fetch fw x.Data.ThreadMemRegionTable p x).1
        (fetch fw x.Data.ThreadMemRegionTable p x).2 := by
  simp [regionStep, h]

theorem ProcTraceInitialize_of_ret (fw : Firmware) (p : Nat) (d : PROC_TRACE_DATA)
    (State : Bool) (s : RETURN_STATUS) (x : Exec)
    (h : regionStep fw p d.ThreadMemRegionTable.isNone (MemRegionSize d)
      (resetStep fw p (Exec.start d)) = Step.ret s x) :
    ProcTraceInitialize fw p d State = ⟨s, x⟩ := by
  simp only [ProcTraceInitialize, h]

theorem store_getD (t : PoolArray) (Index v i : Nat) (h : Index < t.Cells.length) :
    (t.store Index v).Cells.getD i none = if i = Index then some v else t.Cells.getD i none := by
  unfold PoolArray.store
  simp only [List.getD_eq_getElem?_getD, List.getElem?_set]
  by_cases hi : Index = i
  · subst hi; simp [h]
  · have hi' : ¬ i = Index := fun e => hi e.symm
    simp [hi, hi']

theorem regionLoop_run (fw : Firmware) (S : Nat) (k : Nat) (hk : 0 < k) :
    ∀ (fuel Index : Nat) (x : Exec) (t : PoolArray),
      x.PageCalls = Index → Index ≤ k → k ≤ x.Data.NumberOfProcessors →
      x.Data.NumberOfProcessors ≤ Index + fuel →
      x.Data.ThreadMemRegionTable = some t → k ≤ t.Cells.length →
      (∀ j, Index ≤ j → j < k → pageAddr fw j (EFI_SIZE_TO_PAGES S) S ≠ 0) →
      (k < x.Data.NumberOfProcessors → pageAddr fw k (EFI_SIZE_TO_PAGES S) S = 0) →
      (regionLoop fw S fuel Index x).1 = false ∧
      (regionLoop fw S fuel Index x).2.Data.AllocatedThreads =
        x.Data.AllocatedThreads + (k - Index) ∧
      (regionLoop fw S fuel Index x).2.PageCalls =
        (if k < x.Data.NumberOfProcessors then k + 1 else k) ∧
      (regionLoop fw S fuel Index x).2.Requests = x.Requests ++
        List.replicate ((if k < x.Data.NumberOfProcessors then k + 1 else k) - Index)
          (AllocRequest.pages (EFI_SIZE_TO_PAGES S) S) ∧
      ∃ t', (regionLoop fw S fuel Index x).2.Data.ThreadMemRegionTable = some t' ∧
        t'.Freed = t.Freed ∧ t'.Cells.length = t.Cells.length ∧
        ∀ i, t'.Cells.getD i none =
          if Index ≤ i ∧ i < k then some (pageAddr fw i (EFI_SIZE_TO_PAGES S) S)
          else t.Cells.getD i none := by
  intro fuel
  induction fuel with
  | zero =>
    intro Index x t hP hIk hkN hfuel ht hlen hok hfail
    have hkI : k = Index := by omega
    have hN : ¬ k < x.Data.NumberOfProcessors := by omega
    subst hkI
    simp only [regionLoop, hN, if_false, Nat.sub_self, List.replicate_zero, List.append_nil,
      Nat.add_zero, true_and]
    refine ⟨hP, t, ht, rfl, rfl, ?_⟩
    intro i
    have : ¬ (k ≤ i ∧ i < k) := by omega
    simp [this]
  | succ n ih =>
    intro Index x t hP hIk hkN hfuel ht hlen hok hfail
    unfold regionLoop
    dsimp only
    by_cases hIN : Index < x.Data.NumberOfProcessors
    · rw [if_pos hIN]
      have ha : (AllocateAlignedReservedPages fw (EFI_SIZE_TO_PAGES S) S x).1 =
          pageAddr fw Index (EFI_SIZE_TO_PAGES S) S := by
        simp [AllocateAlignedReservedPages, pageAddr, hP]
      by_cases hIk' : Index = k
      · subst hIk'
        have hkN' : Index < x.Data.NumberOfProcessors := hIN
        have h0 := hfail hkN'
        rw [ha, if_pos h0, if_neg (by omega)]
        simp only [if_pos hkN']
        refine ⟨trivial, by simp [AllocateAlignedReservedPages], by simp [AllocateAlignedReservedPages, hP],
          by simp [AllocateAlignedReservedPages], t, by simpa [AllocateAlignedReservedPages] using ht,
          rfl, rfl, ?_⟩
        intro i
        have : ¬ (Index ≤ i ∧ i < Index) := by omega
        simp [this]
      · have hlt : Index < k := by omega
        have hne := hok Index (Nat.le_refl _) hlt
        rw [ha, if_neg hne]
        have hI := ih (Index + 1)
          (regionNext Index (pageAddr fw Index (EFI_SIZE_TO_PAGES S) S)
            (AllocateAlignedReservedPages fw (EFI_SIZE_TO_PAGES S) S x).2)
          (t.store Index (pageAddr fw Index (EFI_SIZE_TO_PAGES S) S))
          (by simp [regionNext, AllocateAlignedReservedPages, hP])
          (by omega)
          (by simpa [regionNext, AllocateAlignedReservedPages] using hkN)
          (by simp [regionNext, AllocateAlignedReservedPages]; omega)
          (by simp [regionNext, AllocateAlignedReservedPages, ht])
          (by simpa [PoolArray.store] using hlen)
          (fun j h1 h2 => hok j (by omega) h2)
          (by simpa [regionNext, AllocateAlignedReservedPages] using hfail)
        obtain ⟨h1, h2, h3, h4, t', h5, h6, h7, h8⟩ := hI
        refine ⟨h1, ?_, ?_, ?_, t', h5, ?_, ?_, ?_⟩
        · rw [h2]; simp [regionNext, AllocateAlignedReservedPages]; omega
        · rw [h3]; simp [regionNext, AllocateAlignedReservedPages]
        · rw [h4]
          simp only [regionNext, AllocateAlignedReservedPages, List.append_assoc]
          congr 1
          have : ((if k < x.Data.NumberOfProcessors then k + 1 else k) - Index) =
              ((if k < x.Data.NumberOfProcessors then k + 1 else k) - (Index + 1)) + 1 := by
            split <;> omega
          rw [this, List.replicate_succ]
          simp
        · rw [h6]; rfl
        · rw [h7]; simp [PoolArray.store]
        · intro i
          rw [h8 i, store_getD t Index _ i (by omega)]
          by_cases hiI : i = Index
          · subst hiI
            have : ¬ (i + 1 ≤ i ∧ i < k) := by omega
            simp [this, hlt]
          · by_cases hc : Index + 1 ≤ i ∧ i < k
            · have : Index ≤ i ∧ i < k := by omega
              simp [hc, this]
            · have : ¬ (Index ≤ i ∧ i < k) := by omega
              simp [hc, this, hiI]
    · rw [if_neg hIN]
      have hkI : k = Index := by omega
      have hN : ¬ k < x.Data.NumberOfProcessors := by omega
      subst hkI
      simp only [hN, if_false, Nat.sub_self, List.replicate_zero, List.append_nil,
        Nat.add_zero, true_and]
      refine ⟨hP, t, ht, rfl, rfl, ?_⟩
      intro i
      have : ¬ (k ≤ i ∧ i < k) := by omega
      simp [this]




/-! ## Frame facts of the straight-line blocks -/

section Blocks
variable (fw : Firmware) (p S R T : Nat) (State : Bool) (x : Exec)

@[simp] theorem singleRangeStep_Data : (singleRangeStep fw p S R x).Data = x.Data := rfl
@[simp] theorem singleRangeStep_Requests :
    (singleRangeStep fw p S R x).Requests = x.Requests := rfl
@[simp] theorem singleRangeStep_TopaTable :
    (singleRangeStep fw p S R x).TopaTable = x.TopaTable := rfl
@[simp] theorem singleRangeStep_InvalidRead :
    (singleRangeStep fw p S R x).InvalidRead = x.InvalidRead := rfl
@[simp] theorem singleRangeStep_PageCalls :
    (singleRangeStep fw p S R x).PageCalls = x.PageCalls := rfl
@[simp] theorem singleRangeStep_PoolCalls :
    (singleRangeStep fw p S R x).PoolCalls = x.PoolCalls := rfl

theorem singleRangeStep_Writes : (singleRangeStep fw p S R x).Writes = x.Writes ++
    [⟨p, MSR_IA32_RTIT_CTL, msrRead fw x.MsrReads MSR_IA32_RTIT_CTL &&& NOT64 BIT8⟩,
     ⟨p, MSR_IA32_RTIT_OUTPUT_BASE, R⟩,
     ⟨p, MSR_IA32_RTIT_OUTPUT_MASK_PTRS, regionMask S⟩] := by
  simp [singleRangeStep, CPU_REGISTER_TABLE_WRITE64, AsmReadMsr64, msrRead]

@[simp] theorem singleRangeStep_MsrReads :
    (singleRangeStep fw p S R x).MsrReads = x.MsrReads + 1 := rfl

@[simp] theorem topaProgram_Data : (topaProgram fw p T R x).Data = x.Data := rfl
@[simp] theorem topaProgram_Requests : (topaProgram fw p T R x).Requests = x.Requests := rfl
@[simp] theorem topaProgram_InvalidRead :
    (topaProgram fw p T R x).InvalidRead = x.InvalidRead := rfl
@[simp] theorem topaProgram_MsrReads : (topaProgram fw p T R x).MsrReads = x.MsrReads + 1 := rfl
@[simp] theorem topaProgram_TopaTable : (topaProgram fw p T R x).TopaTable =
    some (T, ⟨TopaEntry0 R x.Data.ProcTraceMemSize, TopaEntry1 T⟩) := rfl

theorem topaProgram_Writes : (topaProgram fw p T R x).Writes = x.Writes ++
    [⟨p, MSR_IA32_RTIT_OUTPUT_BASE, T⟩,
     ⟨p, MSR_IA32_RTIT_OUTPUT_MASK_PTRS, 0x7F⟩,
     ⟨p, MSR_IA32_RTIT_CTL, msrRead fw x.MsrReads MSR_IA32_RTIT_CTL ||| BIT8⟩] := by
  simp [topaProgram, CPU_REGISTER_TABLE_WRITE64, AsmReadMsr64, msrRead]

@[simp] theorem armStep_Data : (armStep fw p State x).Data = x.Data := rfl
@[simp] theorem armStep_Requests : (armStep fw p State x).Requests = x.Requests := rfl
@[simp] theorem armStep_TopaTable : (armStep fw p State x).TopaTable = x.TopaTable := rfl
@[simp] theorem armStep_InvalidRead : (armStep fw p State x).InvalidRead = x.InvalidRead := rfl

theorem armStep_Writes : (armStep fw p State x).Writes = x.Writes ++
    [⟨p, MSR_IA32_RTIT_CTL,
      if !State then
        (msrRead fw x.MsrReads MSR_IA32_RTIT_CTL ||| (BIT0 + BIT2 + BIT3 + BIT13)) &&& NOT64 BIT0
      else msrRead fw x.MsrReads MSR_IA32_RTIT_CTL ||| (BIT0 + BIT2 + BIT3 + BIT13)⟩] := rfl

end Blocks

/-! ## Frame facts of the allocation passes -/

theorem RegionFrame_refl (x : Exec) : RegionFrame x x := by simp [RegionFrame]

theorem RegionFrame_trans {x y z : Exec} (h1 : RegionFrame x y) (h2 : RegionFrame y z) :
    RegionFrame x z := by
  obtain ⟨a1, a2, a3, a4, a5, a6, a7, a8, a9, a10, a11⟩ := h1
  obtain ⟨b1, b2, b3, b4, b5, b6, b7, b8, b9, b10, b11⟩ := h2
  exact ⟨b1.trans a1, b2.trans a2, b3.trans a3, b4.trans a4, b5.trans a5, b6.trans a6,
    b7.trans a7, b8.trans a8, b9.trans a9, b10.trans a10, b11.trans a11⟩

theorem TopaFrame_refl (x : Exec) : TopaFrame x x := by simp [TopaFrame]

theorem TopaFrame_trans {x y z : Exec} (h1 : TopaFrame x y) (h2 : TopaFrame y z) :
    TopaFrame x z := by
  obtain ⟨a1, a2, a3, a4, a5, a6, a7, a8, a9, a10, a11⟩ := h1
  obtain ⟨b1, b2, b3, b4, b5, b6, b7, b8, b9, b10, b11⟩ := h2
  exact ⟨b1.trans a1, b2.trans a2, b3.trans a3, b4.trans a4, b5.trans a5, b6.trans a6,
    b7.trans a7, b8.trans a8, b9.trans a9, b10.trans a10, b11.trans a11⟩

theorem regionLoop_frame (fw : Firmware) (S : Nat) :
    ∀ (fuel Index : Nat) (x : Exec), RegionFrame x (regionLoop fw S fuel Index x).2 := by
  intro fuel
  induction fuel with
  | zero => intro Index x; exact RegionFrame_refl x
  | succ n ih =>
    intro Index x
    unfold regionLoop
    dsimp only
    split
    · split
      · split
        · simp [RegionFrame, AllocateAlignedReservedPages, regionFree]
        · simp [RegionFrame, AllocateAlignedReservedPages]
      · refine RegionFrame_trans ?_ (ih _ _)
        simp [RegionFrame, AllocateAlignedReservedPages, regionNext]
    · exact RegionFrame_refl x

theorem topaLoop_frame (fw : Firmware) :
    ∀ (fuel Index : Nat) (x : Exec), TopaFrame x (topaLoop fw fuel Index x).2 := by
  intro fuel
  induction fuel with
  | zero => intro Index x; exact TopaFrame_refl x
  | succ n ih =>
    intro Index x
    unfold topaLoop
    dsimp only
    split
    · split
      · split
        · simp only [topaTruncate]
          split <;> simp [TopaFrame, AllocateAlignedReservedPages, topaFree]
        · simp only [topaTruncate]
          split <;> simp [TopaFrame, AllocateAlignedReservedPages]
      · refine TopaFrame_trans ?_ (ih _ _)
        simp [TopaFrame, AllocateAlignedReservedPages, topaNext]
    · exact TopaFrame_refl x

theorem regionLoop_fst_pos (fw : Firmware) (S : Nat) :
    ∀ (fuel Index : Nat) (x : Exec), 0 < Index → (regionLoop fw S fuel Index x).1 = false := by
  intro fuel
  induction fuel with
  | zero => intro Index x _; rfl
  | succ n ih =>
    intro Index x h
    unfold regionLoop
    dsimp only
    split
    · split
      · rw [if_neg (by omega)]
      · exact ih _ _ (by omega)
    · rfl

theorem topaLoop_fst_pos (fw : Firmware) :
    ∀ (fuel Index : Nat) (x : Exec), 0 < Index → (topaLoop fw fuel Index x).1 = false := by
  intro fuel
  induction fuel with
  | zero => intro Index x _; rfl
  | succ n ih =>
    intro Index x h
    unfold topaLoop
    dsimp only
    split
    · split
      · rw [if_neg (by omega)]
      · exact ih _ _ (by omega)
    · rfl

theorem fetch_frame (fw : Firmware) (t : Option PoolArray) (i : Nat) (x : Exec) :
    (fetch fw t i x).2.Data = x.Data ∧ (fetch fw t i x).2.Writes = x.Writes ∧
    (fetch fw t i x).2.MsrReads = x.MsrReads ∧ (fetch fw t i x).2.Requests = x.Requests ∧
    (fetch fw t i x).2.PoolCalls = x.PoolCalls ∧ (fetch fw t i x).2.PageCalls = x.PageCalls ∧
    (fetch fw t i x).2.TopaTable = x.TopaTable := by
  unfold fetch
  split <;> simp

theorem fetch_of_read (fw : Firmware) (t : Option PoolArray) (i v : Nat) (x : Exec)
    (h : PoolArray.read t i = some v) : fetch fw t i x = (v, x) := by
  simp [fetch, h]




/-! ## Structure of a call -/

/-- What the region part leaves untouched when control goes on. -/
theorem regionStep_next_frame (fw : Firmware) (p S R : Nat) (FirstIn : Bool) (x y : Exec)
    (h : regionStep fw p FirstIn S x = Step.next R y) :
    y.Writes = x.Writes ∧ y.MsrReads = x.MsrReads ∧ y.TopaTable = x.TopaTable ∧
    y.Data.NumberOfProcessors = x.Data.NumberOfProcessors ∧
    y.Data.ProcTraceOutputScheme = x.Data.ProcTraceOutputScheme ∧
    y.Data.ProcTraceMemSize = x.Data.ProcTraceMemSize ∧
    y.Data.ProcessorData = x.Data.ProcessorData := by
  unfold regionStep at h
  cases FirstIn with
  | true =>
    simp only [if_true] at h
    split at h
    · cases h
    · split at h
      · cases h
      · injection h with h1 h2
        subst h2
        obtain ⟨f1, f2, f3, f4, f5, f6, f7⟩ := fetch_frame fw
          (regionLoop fw S
            (regionPublish (x.Data.NumberOfProcessors * SIZEOF_UINTN_PTR)
              (AllocatePool fw (x.Data.NumberOfProcessors * SIZEOF_UINTN_PTR) x).2).Data.NumberOfProcessors
            0 (regionPublish (x.Data.NumberOfProcessors * SIZEOF_UINTN_PTR)
              (AllocatePool fw (x.Data.NumberOfProcessors * SIZEOF_UINTN_PTR) x).2)).2.Data.ThreadMemRegionTable
          0 _
        obtain ⟨g1, g2, g3, g4, g5, g6, g7, g8, g9, g10, g11⟩ := regionLoop_frame fw S
          (regionPublish (x.Data.NumberOfProcessors * SIZEOF_UINTN_PTR)
              (AllocatePool fw (x.Data.NumberOfProcessors * SIZEOF_UINTN_PTR) x).2).Data.NumberOfProcessors
          0 (regionPublish (x.Data.NumberOfProcessors * SIZEOF_UINTN_PTR)
              (AllocatePool fw (x.Data.NumberOfProcessors * SIZEOF_UINTN_PTR) x).2)
        rw [f1, f2, f3, f7, g1, g2, g4, g6, g7, g8, g11]
        simp [regionPublish, AllocatePool]
  | false =>
    simp only [Bool.false_eq_true, if_false] at h
    split at h
    · injection h with h1 h2
      subst h2
      obtain ⟨f1, f2, f3, f4, f5, f6, f7⟩ := fetch_frame fw x.Data.ThreadMemRegionTable p x
      rw [f1, f2, f3, f7]
      simp
    · cases h

/-- A call that goes on with a region and takes the single-range block. -/
theorem ProcTraceInitialize_single (fw : Firmware) (p : Nat) (d : PROC_TRACE_DATA)
    (State : Bool) (R : Nat) (x : Exec)
    (h : regionStep fw p d.ThreadMemRegionTable.isNone (MemRegionSize d)
      (resetStep fw p (Exec.start d)) = Step.next R x)
    (hcap : (d.ProcessorData p).SingleRangeSupported = true)
    (hsch : d.ProcTraceOutputScheme = OutputSchemeSingleRange) :
    ProcTraceInitialize fw p d State = ⟨RETURN_STATUS.RETURN_SUCCESS,
      armStep fw p State (singleRangeStep fw p (MemRegionSize d) R x)⟩ := by
  obtain ⟨_, _, _, _, f5, _, f7⟩ := regionStep_next_frame fw p _ R _ _ _ h
  simp only [resetStep_Data, Exec.start_Data] at f5 f7
  simp [ProcTraceInitialize, h, f5, f7, hcap, hsch, OutputSchemeSingleRange, OutputSchemeToPA]

/-- A call that goes on with a region, enters the ToPA block and returns from it. -/
theorem ProcTraceInitialize_topa_ret (fw : Firmware) (p : Nat) (d : PROC_TRACE_DATA)
    (State : Bool) (R : Nat) (x y : Exec) (s : RETURN_STATUS)
    (h : regionStep fw p d.ThreadMemRegionTable.isNone (MemRegionSize d)
      (resetStep fw p (Exec.start d)) = Step.next R x)
    (hcap : (d.ProcessorData p).TopaSupported = true)
    (hsch : d.ProcTraceOutputScheme = OutputSchemeToPA)
    (ht : topaStep fw p d.ThreadMemRegionTable.isNone x = Step.ret s y) :
    ProcTraceInitialize fw p d State = ⟨s, y⟩ := by
  obtain ⟨_, _, _, _, f5, _, f7⟩ := regionStep_next_frame fw p _ R _ _ _ h
  simp only [resetStep_Data, Exec.start_Data] at f5 f7
  simp [ProcTraceInitialize, h, f5, f7, hcap, hsch, OutputSchemeSingleRange, OutputSchemeToPA,
    ht]

/-- A call that goes on with a region and, in the ToPA block, with a routing table. -/
theorem ProcTraceInitialize_topa_next (fw : Firmware) (p : Nat) (d : PROC_TRACE_DATA)
    (State : Bool) (R T : Nat) (x y : Exec)
    (h : regionStep fw p d.ThreadMemRegionTable.isNone (MemRegionSize d)
      (resetStep fw p (Exec.start d)) = Step.next R x)
    (hcap : (d.ProcessorData p).TopaSupported = true)
    (hsch : d.ProcTraceOutputScheme = OutputSchemeToPA)
    (ht : topaStep fw p d.ThreadMemRegionTable.isNone x = Step.next T y) :
    ProcTraceInitialize fw p d State = ⟨RETURN_STATUS.RETURN_SUCCESS,
      armStep fw p State (topaProgram fw p T R y)⟩ := by
  obtain ⟨_, _, _, _, f5, _, f7⟩ := regionStep_next_frame fw p _ R _ _ _ h
  simp only [resetStep_Data, Exec.start_Data] at f5 f7
  simp [ProcTraceInitialize, h, f5, f7, hcap, hsch, OutputSchemeSingleRange, OutputSchemeToPA,
    ht]

/-- A call that goes on with a region and takes neither output-scheme block. -/
theorem ProcTraceInitialize_neither (fw : Firmware) (p : Nat) (d : PROC_TRACE_DATA)
    (State : Bool) (R : Nat) (x : Exec)
    (h : regionStep fw p d.ThreadMemRegionTable.isNone (MemRegionSize d)
      (resetStep fw p (Exec.start d)) = Step.next R x)
    (h1 : ¬ ((d.ProcessorData p).SingleRangeSupported = true ∧
      d.ProcTraceOutputScheme = OutputSchemeSingleRange))
    (h2 : ¬ ((d.ProcessorData p).TopaSupported = true ∧
      d.ProcTraceOutputScheme = OutputSchemeToPA)) :
    ProcTraceInitialize fw p d State = ⟨RETURN_STATUS.RETURN_SUCCESS, armStep fw p State x⟩ := by
  obtain ⟨_, _, _, _, f5, _, f7⟩ := regionStep_next_frame fw p _ R _ _ _ h
  simp only [resetStep_Data, Exec.start_Data] at f5 f7
  simp only [ProcTraceInitialize, h, f5, f7, if_neg h1, if_neg h2]




theorem regionOf_next (fw : Firmware) (p : Nat) (d : PROC_TRACE_DATA) (R : Nat)
    (h : regionOf fw p d = some R) :
    ∃ x, regionStep fw p d.ThreadMemRegionTable.isNone (MemRegionSize d)
      (resetStep fw p (Exec.start d)) = Step.next R x ∧ afterRegionStep fw p d = x := by
  unfold regionOf at h
  unfold afterRegionStep
  split at h
  · cases h
  · rename_i R' x hx
    injection h with h
    subst h
    exact ⟨x, hx, rfl⟩

theorem topaTableOf_next (fw : Firmware) (p : Nat) (d : PROC_TRACE_DATA) (T : Nat)
    (h : topaTableOf fw p d = some T) :
    ∃ y, topaStep fw p d.ThreadMemRegionTable.isNone (afterRegionStep fw p d) =
      Step.next T y := by
  unfold topaTableOf at h
  split at h
  · cases h
  · rename_i T' y hy
    injection h with h
    subst h
    exact ⟨y, hy⟩

theorem topaStep_next_frame (fw : Firmware) (p T : Nat) (FirstIn : Bool) (x y : Exec)
    (h : topaStep fw p FirstIn x = Step.next T y) :
    y.Writes = x.Writes ∧ y.MsrReads = x.MsrReads ∧
    y.Data.ProcTraceMemSize = x.Data.ProcTraceMemSize := by
  unfold topaStep at h
  cases FirstIn with
  | true =>
    simp only [if_true] at h
    split at h
    · cases h
    · split at h
      · cases h
      · injection h with h1 h2
        subst h2
        obtain ⟨f1, f2, f3, f4, f5, f6, f7⟩ := fetch_frame fw
          (topaLoop fw
            (topaPublish (x.Data.AllocatedThreads * SIZEOF_UINTN_PTR)
              (AllocatePool fw (x.Data.AllocatedThreads * SIZEOF_UINTN_PTR) x).2).Data.AllocatedThreads
            0 (topaPublish (x.Data.AllocatedThreads * SIZEOF_UINTN_PTR)
              (AllocatePool fw (x.Data.AllocatedThreads * SIZEOF_UINTN_PTR) x).2)).2.Data.TopaMemArray
          0 _
        obtain ⟨g1, g2, g3, g4, g5, g6, g7, g8, g9, g10, g11⟩ := topaLoop_frame fw
          (topaPublish (x.Data.AllocatedThreads * SIZEOF_UINTN_PTR)
              (AllocatePool fw (x.Data.AllocatedThreads * SIZEOF_UINTN_PTR) x).2).Data.AllocatedThreads
          0 (topaPublish (x.Data.AllocatedThreads * SIZEOF_UINTN_PTR)
              (AllocatePool fw (x.Data.AllocatedThreads * SIZEOF_UINTN_PTR) x).2)
        rw [f1, f2, f3, g1, g2, g8]
        simp [topaPublish, AllocatePool]
  | false =>
    simp only [Bool.false_eq_true, if_false] at h
    split at h
    · injection h with h1 h2
      subst h2
      obtain ⟨f1, f2, f3, f4, f5, f6, f7⟩ := fetch_frame fw x.Data.TopaMemArray p x
      rw [f1, f2, f3]
      simp
    · cases h

theorem testBit_BIT8 (i : Nat) : BIT8.testBit i = decide (i = 8) := by
  have h : BIT8 = 2 ^ 8 := by decide
  rw [h, Nat.testBit_two_pow]
  by_cases hi : i = 8
  · simp [hi]
  · have : ¬ 8 = i := fun e => hi e.symm
    simp [hi, this]

theorem msrRead_lt (fw : Firmware) (k Index : Nat) : msrRead fw k Index < 2 ^ 64 :=
  Nat.mod_lt _ (by decide)

theorem regionSize_bounds (sc : Nat) (hsc : sc ≤ 15) :
    0 < 4096 <<< sc ∧ 4096 <<< sc < 2 ^ 32 ∧ 4096 <<< sc = 2 ^ (sc + 12) := by
  have h1 : 2 ^ sc ≤ 2 ^ 15 := Nat.pow_le_pow_right (by decide) hsc
  have h2 : 0 < 2 ^ sc := Nat.pow_pos (by decide)
  rw [Nat.shiftLeft_eq, Nat.pow_add]
  refine ⟨by omega, by omega, by omega⟩

theorem fetch_fst (fw : Firmware) (t : Option PoolArray) (i : Nat) (x : Exec) :
    (fetch fw t i x).1 = fetchValue fw t i := by
  unfold fetch fetchValue
  split <;> rfl

theorem topaStep_later_fetch (fw : Firmware) (p : Nat) (x : Exec)
    (h : p < x.Data.AllocatedThreads) :
    topaStep fw p false x =
      Step.next (fetch fw x.Data.TopaMemArray p x).1 (fetch fw x.Data.TopaMemArray p x).2 := by
  simp [topaStep, h]

/-- The writes and the frame of a call that is not the first invocation and whose
`ProcessorNumber` is below `AllocatedThreads`, when every read of `IA32_RTIT_CTL` made after
the reset block returns `c`. -/
theorem ProcTraceInitialize_later (fw : Firmware) (p : Nat) (d : PROC_TRACE_DATA)
    (State : Bool) (t : PoolArray) (c : Nat)
    (hTable : d.ThreadMemRegionTable = some t) (hp : p < d.AllocatedThreads)
    (hc : ∀ k, 0 < k → msrRead fw k MSR_IA32_RTIT_CTL = c) :
    (ProcTraceInitialize fw p d State).Status = RETURN_STATUS.RETURN_SUCCESS ∧
    (ProcTraceInitialize fw p d State).Final.Data = d ∧
    (ProcTraceInitialize fw p d State).Final.Requests = [] ∧
    (ProcTraceInitialize fw p d State).Final.Writes =
      resetWrites fw p ++ laterSchemeWrites fw p d c ++
        [⟨p, MSR_IA32_RTIT_CTL, armValue c State⟩] := by
  have hpos : 0 < resetReads fw := by unfold resetReads; split <;> decide
  have hx : regionStep fw p d.ThreadMemRegionTable.isNone (MemRegionSize d)
      (resetStep fw p (Exec.start d)) =
      Step.next (fetch fw d.ThreadMemRegionTable p (resetStep fw p (Exec.start d))).1
        (fetch fw d.ThreadMemRegionTable p (resetStep fw p (Exec.start d))).2 := by
    rw [hTable]
    have := regionStep_later_fetch fw p (MemRegionSize d) (resetStep fw p (Exec.start d))
      (by simpa using hp)
    simpa [hTable] using this
  obtain ⟨f1, f2, f3, f4, f5, f6, f7⟩ := fetch_frame fw d.ThreadMemRegionTable p
    (resetStep fw p (Exec.start d))
  rw [resetStep_Data, Exec.start_Data] at f1
  rw [resetStep_start_Writes] at f2
  rw [resetStep_start_MsrReads] at f3
  have f4' : (fetch fw d.ThreadMemRegionTable p (resetStep fw p (Exec.start d))).2.Requests =
      [] := by rw [f4]; simp [Exec.start]
  by_cases h1 : (d.ProcessorData p).SingleRangeSupported = true ∧
      d.ProcTraceOutputScheme = OutputSchemeSingleRange
  · rw [ProcTraceInitialize_single fw p d State _ _ hx h1.1 h1.2]
    refine ⟨rfl, by simp [f1], by simp [f4'], ?_⟩
    rw [armStep_Writes, singleRangeStep_Writes, singleRangeStep_MsrReads, f2, f3,
      hc _ hpos, hc _ (Nat.succ_pos _), fetch_fst, laterSchemeWrites, if_pos h1]
    rfl
  · by_cases h2 : (d.ProcessorData p).TopaSupported = true ∧
        d.ProcTraceOutputScheme = OutputSchemeToPA
    · have hy := topaStep_later_fetch fw p
        (fetch fw d.ThreadMemRegionTable p (resetStep fw p (Exec.start d))).2
        (by rw [f1]; exact hp)
      obtain ⟨g1, g2, g3, g4, g5, g6, g7⟩ := fetch_frame fw
        (fetch fw d.ThreadMemRegionTable p (resetStep fw p (Exec.start d))).2.Data.TopaMemArray p
        (fetch fw d.ThreadMemRegionTable p (resetStep fw p (Exec.start d))).2
      have hy' := hy
      rw [show (false : Bool) = d.ThreadMemRegionTable.isNone from by rw [hTable]; rfl] at hy'
      rw [ProcTraceInitialize_topa_next fw p d State _ _ _ _ hx h2.1 h2.2 hy']
      refine ⟨rfl, ?_, ?_, ?_⟩
      · rw [armStep_Data, topaProgram_Data]; exact g1.trans f1
      · rw [armStep_Requests, topaProgram_Requests]; exact g4.trans f4'
      · rw [armStep_Writes, topaProgram_Writes, topaProgram_MsrReads, g2, g3, f2, f3,
          hc _ hpos, hc _ (Nat.succ_pos _), fetch_fst, f1, laterSchemeWrites, if_neg h1,
          if_pos h2]
        rfl
    · rw [ProcTraceInitialize_neither fw p d State _ _ hx h1 h2]
      refine ⟨rfl, by simp [f1], by simp [f4'], ?_⟩
      rw [armStep_Writes, f2, f3, hc _ hpos, laterSchemeWrites, if_neg h1, if_neg h2]
      simp [armValue]

theorem msrRead_deferred (fw : Firmware) (regs : RegisterFile) (k Index : Nat) :
    msrRead (deferred fw regs) k Index = regs Index % 2 ^ 64 := rfl

theorem fetchValue_deferred (fw : Firmware) (regs : RegisterFile) (t : Option PoolArray)
    (i : Nat) : fetchValue (deferred fw regs) t i = fetchValue fw t i := rfl

theorem laterSchemeWrites_deferred (fw : Firmware) (regs : RegisterFile) (p : Nat)
    (d : PROC_TRACE_DATA) (c : Nat) :
    laterSchemeWrites (deferred fw regs) p d c = laterSchemeWrites fw p d c := rfl

theorem armValue_lt (c : Nat) (State : Bool) (hc : c < 2 ^ 64) : armValue c State < 2 ^ 64 := by
  have h : c ||| (BIT0 + BIT2 + BIT3 + BIT13) < 2 ^ 64 :=
    Nat.or_lt_two_pow hc (by decide)
  unfold armValue
  split
  · exact Nat.lt_of_le_of_lt Nat.and_le_left h
  · exact h

theorem armValue_idem (c : Nat) (State : Bool) (hc : c < 2 ^ 64) :
    armValue (armValue c State) State = armValue c State := by
  have h : c ||| (BIT0 + BIT2 + BIT3 + BIT13) < 2 ^ 64 :=
    Nat.or_lt_two_pow hc (by decide)
  cases State with
  | true =>
    simp only [armValue, Bool.not_true, Bool.false_eq_true, if_false]
    rw [Nat.or_assoc, Nat.or_self]
  | false =>
    simp only [armValue, Bool.not_false, if_true]
    apply Nat.eq_of_testBit_eq
    intro i
    have h2 : (c ||| (BIT0 + BIT2 + BIT3 + BIT13)) &&& NOT64 BIT0 < 2 ^ 64 :=
      Nat.lt_of_le_of_lt Nat.and_le_left h
    rw [testBit_and_NOT64 _ BIT0 i (Nat.or_lt_two_pow h2 (by decide)) (by decide),
      Nat.testBit_or, testBit_and_NOT64 _ BIT0 i h (by decide), Nat.testBit_or]
    cases c.testBit i <;> cases (BIT0 + BIT2 + BIT3 + BIT13).testBit i <;>
      cases BIT0.testBit i <;> rfl

theorem and_BIT0 (x : Nat) : x &&& BIT0 = x % 2 := by
  unfold BIT0
  exact Nat.and_one_is_mod x

/-- Bit 0 of the arming value is `State`. -/
theorem armValue_BIT0 (c : Nat) (State : Bool) (hc : c < 2 ^ 64) :
    (armValue c State &&& BIT0 ≠ 0) ↔ State = true := by
  have h : c ||| (BIT0 + BIT2 + BIT3 + BIT13) < 2 ^ 64 :=
    Nat.or_lt_two_pow hc (by decide)
  rw [and_BIT0]
  have key : (armValue c State).testBit 0 = State := by
    cases State with
    | true =>
      simp only [armValue, Bool.not_true, Bool.false_eq_true, if_false, Nat.testBit_or]
      have : (BIT0 + BIT2 + BIT3 + BIT13).testBit 0 = true := by decide
      simp [this]
    | false =>
      simp only [armValue, Bool.not_false, if_true]
      rw [testBit_and_NOT64 _ BIT0 0 h (by decide)]
      have : BIT0.testBit 0 = true := by decide
      simp [this]
  rw [Nat.testBit_zero] at key
  cases State with
  | true => simp at key; simp [key]
  | false => simp at key; simp; omega

theorem applyWrites_append (regs : RegisterFile) (ws vs : List CPU_REGISTER_TABLE_ENTRY) :
    applyWrites regs (ws ++ vs) = applyWrites (applyWrites regs ws) vs := by
  simp [applyWrites, List.foldl_append]

theorem callAndApply_later (fw : Firmware) (p : Nat) (State : Bool) (regs : RegisterFile)
    (d : PROC_TRACE_DATA) (t : PoolArray)
    (hTable : d.ThreadMemRegionTable = some t) (hp : p < d.AllocatedThreads) :
    callAndApply fw p State (regs, d) =
      (applyWrites regs (laterWrites fw p d State (regs MSR_IA32_RTIT_CTL % 2 ^ 64)), d) := by
  obtain ⟨_, h2, _, h4⟩ := ProcTraceInitialize_later (deferred fw regs) p d State t
    (regs MSR_IA32_RTIT_CTL % 2 ^ 64) hTable hp (fun k _ => msrRead_deferred fw regs k _)
  unfold callAndApply
  simp only [h2, h4, laterWrites, resetWrites, msrRead_deferred, laterSchemeWrites_deferred]

theorem msr_index_distinct :
    MSR_IA32_RTIT_CTL ≠ MSR_IA32_RTIT_STATUS ∧ MSR_IA32_RTIT_CTL ≠ MSR_IA32_RTIT_OUTPUT_BASE ∧
    MSR_IA32_RTIT_CTL ≠ MSR_IA32_RTIT_OUTPUT_MASK_PTRS ∧
    MSR_IA32_RTIT_STATUS ≠ MSR_IA32_RTIT_OUTPUT_BASE ∧
    MSR_IA32_RTIT_STATUS ≠ MSR_IA32_RTIT_OUTPUT_MASK_PTRS ∧
    MSR_IA32_RTIT_OUTPUT_BASE ≠ MSR_IA32_RTIT_OUTPUT_MASK_PTRS := by
  decide

theorem applyWrites_nil_at (regs : RegisterFile) (i : Nat) : applyWrites regs [] i = regs i := by
  unfold applyWrites
  exact congrFun (List.foldl_nil (f := applyWrite) (b := regs)) i

theorem applyWrites_cons_at (regs : RegisterFile) (w : CPU_REGISTER_TABLE_ENTRY)
    (ws : List CPU_REGISTER_TABLE_ENTRY) (i : Nat) :
    applyWrites regs (w :: ws) i = applyWrites (applyWrite regs w) ws i := by
  unfold applyWrites
  exact congrFun (List.foldl_cons (f := applyWrite) (b := regs) ws) i

/-- A write to another register does not change what a register ends up holding. -/
theorem applyWrites_skip (regs : RegisterFile) (q Index Value : Nat)
    (ws : List CPU_REGISTER_TABLE_ENTRY) (i : Nat) (h : i ≠ Index)
    (hws : ∀ w ∈ ws, w.Index ≠ i) :
    applyWrites regs (⟨q, Index, Value⟩ :: ws) i = regs i := by
  rw [applyWrites_cons_at]
  have gen : ∀ (l : List CPU_REGISTER_TABLE_ENTRY) (r : RegisterFile),
      (∀ w ∈ l, w.Index ≠ i) → applyWrites r l i = r i := by
    intro l
    induction l with
    | nil => intro r _; exact applyWrites_nil_at r i
    | cons a l ih =>
      intro r hl
      rw [applyWrites_cons_at, ih _ (fun w hw => hl w (List.mem_cons_of_mem _ hw))]
      have ha : ¬ i = a.Index := fun e => hl a (List.mem_cons_self _ _) e.symm
      simp only [applyWrite, if_neg ha]
  rw [gen ws _ hws]
  simp only [applyWrite, if_neg h]

/-- What a register holds after the writes: the value of the last write to it, if any. -/
theorem applyWrites_last (regs : RegisterFile) (pre post : List CPU_REGISTER_TABLE_ENTRY)
    (q Index Value : Nat) (hpost : ∀ w ∈ post, w.Index ≠ Index) :
    applyWrites regs (pre ++ ⟨q, Index, Value⟩ :: post) Index = Value := by
  have gen : ∀ (l : List CPU_REGISTER_TABLE_ENTRY) (r : RegisterFile),
      (∀ w ∈ l, w.Index ≠ Index) → applyWrites r l Index = r Index := by
    intro l
    induction l with
    | nil => intro r _; exact applyWrites_nil_at r Index
    | cons a l ih =>
      intro r hl
      rw [applyWrites_cons_at, ih _ (fun w hw => hl w (List.mem_cons_of_mem _ hw))]
      have ha : ¬ Index = a.Index := fun e => hl a (List.mem_cons_self _ _) e.symm
      simp only [applyWrite, if_neg ha]
  rw [applyWrites_append, applyWrites_cons_at, gen post _ hpost]
  simp only [applyWrite, if_true]

/-- A register no write is addressed to keeps its value. -/
theorem applyWrites_untouched (regs : RegisterFile) (ws : List CPU_REGISTER_TABLE_ENTRY)
    (i : Nat) (hws : ∀ w ∈ ws, w.Index ≠ i) : applyWrites regs ws i = regs i := by
  induction ws generalizing regs with
  | nil => exact applyWrites_nil_at regs i
  | cons a l ih =>
    rw [applyWrites_cons_at, ih _ (fun w hw => hws w (List.mem_cons_of_mem _ hw))]
    have ha : ¬ i = a.Index := fun e => hws a (List.mem_cons_self _ _) e.symm
    simp only [applyWrite, if_neg ha]


theorem applyWrites_pick1 (regs : RegisterFile) (r0 : List CPU_REGISTER_TABLE_ENTRY)
    (a b c e : CPU_REGISTER_TABLE_ENTRY) (i : Nat)
    (ha : a.Index = i) (hb : b.Index ≠ i) (hc : c.Index ≠ i) (he : e.Index ≠ i) :
    applyWrites regs (r0 ++ [a, b, c] ++ [e]) i = a.Value := by
  have hl : r0 ++ [a, b, c] ++ [e] = r0 ++ ⟨a.ProcessorNumber, i, a.Value⟩ :: [b, c, e] := by
    subst ha; simp
  rw [hl]
  apply applyWrites_last
  intro w hw
  simp only [List.mem_cons, List.mem_singleton, List.not_mem_nil, or_false] at hw
  rcases hw with rfl | rfl | rfl
  · exact hb
  · exact hc
  · exact he

theorem applyWrites_pick2 (regs : RegisterFile) (r0 : List CPU_REGISTER_TABLE_ENTRY)
    (a b c e : CPU_REGISTER_TABLE_ENTRY) (i : Nat)
    (hb : b.Index = i) (hc : c.Index ≠ i) (he : e.Index ≠ i) :
    applyWrites regs (r0 ++ [a, b, c] ++ [e]) i = b.Value := by
  have hl : r0 ++ [a, b, c] ++ [e] =
      (r0 ++ [a]) ++ ⟨b.ProcessorNumber, i, b.Value⟩ :: [c, e] := by
    subst hb; simp
  rw [hl]
  apply applyWrites_last
  intro w hw
  simp only [List.mem_cons, List.mem_singleton, List.not_mem_nil, or_false] at hw
  rcases hw with rfl | rfl
  · exact hc
  · exact he

theorem applyWrites_pick3 (regs : RegisterFile) (r0 : List CPU_REGISTER_TABLE_ENTRY)
    (a b c e : CPU_REGISTER_TABLE_ENTRY) (i : Nat)
    (hc : c.Index = i) (he : e.Index ≠ i) :
    applyWrites regs (r0 ++ [a, b, c] ++ [e]) i = c.Value := by
  have hl : r0 ++ [a, b, c] ++ [e] =
      (r0 ++ [a, b]) ++ ⟨c.ProcessorNumber, i, c.Value⟩ :: [e] := by
    subst hc; simp
  rw [hl]
  apply applyWrites_last
  intro w hw
  simp only [List.mem_singleton] at hw
  subst hw
  exact he

theorem applyWrites_pick_last (regs : RegisterFile) (ws : List CPU_REGISTER_TABLE_ENTRY)
    (e : CPU_REGISTER_TABLE_ENTRY) (i : Nat) (he : e.Index = i) :
    applyWrites regs (ws ++ [e]) i = e.Value := by
  have hl : ws ++ [e] = ws ++ ⟨e.ProcessorNumber, i, e.Value⟩ :: [] := by
    subst he; rfl
  rw [hl]
  apply applyWrites_last
  intro w hw
  cases hw

/-- A register that only the reset block and the final write could touch, and neither does. -/
theorem applyWrites_pick_none (regs : RegisterFile) (r0 : List CPU_REGISTER_TABLE_ENTRY)
    (e : CPU_REGISTER_TABLE_ENTRY) (i : Nat)
    (h0 : ∀ w ∈ r0, w.Index ≠ i) (he : e.Index ≠ i) :
    applyWrites regs (r0 ++ [] ++ [e]) i = regs i := by
  apply applyWrites_untouched
  intro w hw
  simp only [List.append_nil, List.mem_append, List.mem_singleton] at hw
  rcases hw with hw | rfl
  · exact h0 w hw
  · exact he

/-- The writes of the reset block go to the control and status registers only. -/
theorem resetPart_index (p c i : Nat) (h1 : MSR_IA32_RTIT_CTL ≠ i)
    (h2 : MSR_IA32_RTIT_STATUS ≠ i) :
    ∀ w ∈ (if c &&& BIT0 ≠ 0 then
        [(⟨p, MSR_IA32_RTIT_CTL, c &&& NOT64 BIT0⟩ : CPU_REGISTER_TABLE_ENTRY),
          ⟨p, MSR_IA32_RTIT_STATUS, 0⟩]
      else []), w.Index ≠ i := by
  intro w hw
  split at hw
  · simp only [List.mem_cons, List.mem_singleton, List.not_mem_nil, or_false] at hw
    rcases hw with rfl | rfl
    · exact h1
    · exact h2
  · cases hw

/-- The output-base register after the writes of a later call have taken effect. -/
theorem laterWrites_OUTPUT_BASE_eq (fw : Firmware) (p : Nat) (d : PROC_TRACE_DATA)
    (State : Bool) (c : Nat) (regs : RegisterFile) :
    applyWrites regs (laterWrites fw p d State c) MSR_IA32_RTIT_OUTPUT_BASE =
      if (d.ProcessorData p).SingleRangeSupported = true ∧
          d.ProcTraceOutputScheme = OutputSchemeSingleRange then
        fetchValue fw d.ThreadMemRegionTable p
      else if (d.ProcessorData p).TopaSupported = true ∧
          d.ProcTraceOutputScheme = OutputSchemeToPA then
        fetchValue fw d.TopaMemArray p
      else regs MSR_IA32_RTIT_OUTPUT_BASE := by
  obtain ⟨n1, n2, n3, n4, n5, n6⟩ := msr_index_distinct
  unfold laterWrites laterSchemeWrites
  by_cases h1 : (d.ProcessorData p).SingleRangeSupported = true ∧
          d.ProcTraceOutputScheme = OutputSchemeSingleRange
  · rw [if_pos h1, if_pos h1]
    exact applyWrites_pick2 regs _ _ _ _ _ _ rfl n6.symm n2
  · rw [if_neg h1, if_neg h1]
    by_cases h2 : (d.ProcessorData p).TopaSupported = true ∧
          d.ProcTraceOutputScheme = OutputSchemeToPA
    · rw [if_pos h2, if_pos h2]
      exact applyWrites_pick1 regs _ _ _ _ _ _ rfl n6.symm n2 n2
    · rw [if_neg h2, if_neg h2]
      exact applyWrites_pick_none regs _ _ _ (resetPart_index p c _ n2 n4) n2

/-- The output-mask register after the writes of a later call have taken effect. -/
theorem laterWrites_OUTPUT_MASK_PTRS_eq (fw : Firmware) (p : Nat) (d : PROC_TRACE_DATA)
    (State : Bool) (c : Nat) (regs : RegisterFile) :
    applyWrites regs (laterWrites fw p d State c) MSR_IA32_RTIT_OUTPUT_MASK_PTRS =
      if (d.ProcessorData p).SingleRangeSupported = true ∧
          d.ProcTraceOutputScheme = OutputSchemeSingleRange then
        regionMask (MemRegionSize d)
      else if (d.ProcessorData p).TopaSupported = true ∧
          d.ProcTraceOutputScheme = OutputSchemeToPA then
        0x7F
      else regs MSR_IA32_RTIT_OUTPUT_MASK_PTRS := by
  obtain ⟨n1, n2, n3, n4, n5, n6⟩ := msr_index_distinct
  unfold laterWrites laterSchemeWrites
  by_cases h1 : (d.ProcessorData p).SingleRangeSupported = true ∧
          d.ProcTraceOutputScheme = OutputSchemeSingleRange
  · rw [if_pos h1, if_pos h1]
    exact applyWrites_pick3 regs _ _ _ _ _ _ rfl n3
  · rw [if_neg h1, if_neg h1]
    by_cases h2 : (d.ProcessorData p).TopaSupported = true ∧
          d.ProcTraceOutputScheme = OutputSchemeToPA
    · rw [if_pos h2, if_pos h2]
      exact applyWrites_pick2 regs _ _ _ _ _ _ rfl n3 n3
    · rw [if_neg h2, if_neg h2]
      exact applyWrites_pick_none regs _ _ _ (resetPart_index p c _ n3 n5) n3

/-- The control register after the writes of a later call have taken effect. -/
theorem laterWrites_CTL_eq (fw : Firmware) (p : Nat) (d : PROC_TRACE_DATA) (State : Bool)
    (c : Nat) (regs : RegisterFile) :
    applyWrites regs (laterWrites fw p d State c) MSR_IA32_RTIT_CTL = armValue c State := by
  unfold laterWrites
  exact applyWrites_pick_last regs _ _ _ rfl

/-- The status register after the writes of a later call have taken effect. -/
theorem laterWrites_STATUS_eq (fw : Firmware) (p : Nat) (d : PROC_TRACE_DATA) (State : Bool)
    (c : Nat) (regs : RegisterFile) :
    applyWrites regs (laterWrites fw p d State c) MSR_IA32_RTIT_STATUS =
      if c &&& BIT0 ≠ 0 then 0 else regs MSR_IA32_RTIT_STATUS := by
  obtain ⟨n1, n2, n3, n4, n5, n6⟩ := msr_index_distinct
  unfold laterWrites
  have hs : ∀ w ∈ laterSchemeWrites fw p d c ++
      [(⟨p, MSR_IA32_RTIT_CTL, armValue c State⟩ : CPU_REGISTER_TABLE_ENTRY)],
      w.Index ≠ MSR_IA32_RTIT_STATUS := by
    intro w hw
    rw [List.mem_append] at hw
    rcases hw with hw | hw
    · unfold laterSchemeWrites at hw
      split at hw
      · simp only [List.mem_cons, List.mem_singleton, List.not_mem_nil, or_false] at hw
        rcases hw with rfl | rfl | rfl
        · exact n1
        · exact n4.symm
        · exact n5.symm
      · split at hw
        · simp only [List.mem_cons, List.mem_singleton, List.not_mem_nil, or_false] at hw
          rcases hw with rfl | rfl | rfl
          · exact n4.symm
          · exact n5.symm
          · exact n1
        · cases hw
    · simp only [List.mem_singleton] at hw
      subst hw
      exact n1
  by_cases h0 : c &&& BIT0 ≠ 0
  · rw [if_pos h0, if_pos h0, List.append_assoc]
    exact applyWrites_last regs [⟨p, MSR_IA32_RTIT_CTL, c &&& NOT64 BIT0⟩] _ p
      MSR_IA32_RTIT_STATUS 0 hs
  · rw [if_neg h0, if_neg h0, List.append_assoc, List.nil_append]
    exact applyWrites_untouched regs _ _ hs

theorem fresh_length (n : Nat) : (PoolArray.fresh (n * SIZEOF_UINTN_PTR)).Cells.length = n := by
  simp [PoolArray.fresh, SIZEOF_UINTN_PTR]

theorem fresh_getD (n i : Nat) : (PoolArray.fresh n).Cells.getD i none = none := by
  unfold PoolArray.fresh
  simp only [List.getD_eq_getElem?_getD, List.getElem?_replicate]
  split <;> rfl

theorem topaLoop_run_ok (fw : Firmware) (m n0 : Nat) :
    ∀ (fuel Index : Nat) (x : Exec) (t : PoolArray),
      x.Data.AllocatedThreads = m → x.PageCalls = n0 + Index → Index ≤ m → m ≤ Index + fuel →
      x.Data.TopaMemArray = some t → m ≤ t.Cells.length →
      (∀ j, Index ≤ j → j < m →
        pageAddr fw (n0 + j) (EFI_SIZE_TO_PAGES SIZEOF_PROC_TRACE_TOPA_TABLE) 0x1000 ≠ 0) →
      (topaLoop fw fuel Index x).1 = false ∧
      (topaLoop fw fuel Index x).2.Data.AllocatedThreads = m ∧
      (topaLoop fw fuel Index x).2.PageCalls = n0 + m ∧
      (topaLoop fw fuel Index x).2.Requests = x.Requests ++
        List.replicate (m - Index)
          (AllocRequest.pages (EFI_SIZE_TO_PAGES SIZEOF_PROC_TRACE_TOPA_TABLE) 0x1000) ∧
      ∃ t', (topaLoop fw fuel Index x).2.Data.TopaMemArray = some t' ∧
        t'.Freed = t.Freed ∧ t'.Cells.length = t.Cells.length ∧
        ∀ i, t'.Cells.getD i none =
          if Index ≤ i ∧ i < m then
            some (pageAddr fw (n0 + i) (EFI_SIZE_TO_PAGES SIZEOF_PROC_TRACE_TOPA_TABLE) 0x1000)
          else t.Cells.getD i none := by
  intro fuel
  induction fuel with
  | zero =>
    intro Index x t hm hP hIm hfuel ht hlen hok
    have hmI : m = Index := by omega
    subst hmI
    simp only [topaLoop, Nat.sub_self, List.replicate_zero, List.append_nil, true_and]
    refine ⟨hm, hP, t, ht, rfl, rfl, ?_⟩
    intro i
    have : ¬ (m ≤ i ∧ i < m) := by omega
    simp [this]
  | succ n ih =>
    intro Index x t hm hP hIm hfuel ht hlen hok
    unfold topaLoop
    dsimp only
    by_cases hIN : Index < x.Data.AllocatedThreads
    · rw [if_pos hIN]
      have hlt : Index < m := by omega
      have ha : (AllocateAlignedReservedPages fw
          (EFI_SIZE_TO_PAGES SIZEOF_PROC_TRACE_TOPA_TABLE) 0x1000 x).1 =
          pageAddr fw (n0 + Index) (EFI_SIZE_TO_PAGES SIZEOF_PROC_TRACE_TOPA_TABLE) 0x1000 := by
        simp [AllocateAlignedReservedPages, pageAddr, hP]
      have hne := hok Index (Nat.le_refl _) hlt
      rw [ha, if_neg hne]
      have hI := ih (Index + 1)
        (topaNext Index
          (pageAddr fw (n0 + Index) (EFI_SIZE_TO_PAGES SIZEOF_PROC_TRACE_TOPA_TABLE) 0x1000)
          (AllocateAlignedReservedPages fw
            (EFI_SIZE_TO_PAGES SIZEOF_PROC_TRACE_TOPA_TABLE) 0x1000 x).2)
        (t.store Index
          (pageAddr fw (n0 + Index) (EFI_SIZE_TO_PAGES SIZEOF_PROC_TRACE_TOPA_TABLE) 0x1000))
        (by simpa [topaNext, AllocateAlignedReservedPages] using hm)
        (by simp [topaNext, AllocateAlignedReservedPages, hP]; omega)
        (by omega) (by omega)
        (by simp [topaNext, AllocateAlignedReservedPages, ht])
        (by simpa [PoolArray.store] using hlen)
        (fun j h1 h2 => hok j (by omega) h2)
      obtain ⟨h1, h2, h3, h4, t', h5, h6, h7, h8⟩ := hI
      refine ⟨h1, h2, h3, ?_, t', h5, ?_, ?_, ?_⟩
      · rw [h4]
        simp only [topaNext, AllocateAlignedReservedPages, List.append_assoc]
        congr 1
        have : m - Index = (m - (Index + 1)) + 1 := by omega
        rw [this, List.replicate_succ]
        simp
      · rw [h6]; rfl
      · rw [h7]; simp [PoolArray.store]
      · intro i
        rw [h8 i, store_getD t Index _ i (by omega)]
        by_cases hiI : i = Index
        · subst hiI
          have : ¬ (i + 1 ≤ i ∧ i < m) := by omega
          simp [this, hlt]
        · by_cases hc : Index + 1 ≤ i ∧ i < m
          · have : Index ≤ i ∧ i < m := by omega
            simp [hc, this]
          · have : ¬ (Index ≤ i ∧ i < m) := by omega
            simp [hc, this, hiI]
    · rw [if_neg hIN]
      have hmI : m = Index := by omega
      subst hmI
      simp only [Nat.sub_self, List.replicate_zero, List.append_nil, true_and]
      refine ⟨hm, hP, t, ht, rfl, rfl, ?_⟩
      intro i
      have : ¬ (m ≤ i ∧ i < m) := by omega
      simp [this]

theorem read_some_of_getD (t : PoolArray) (i v : Nat) (hF : t.Freed = false)
    (h : t.Cells.getD i none = some v) : PoolArray.read (some t) i = some v := by
  simp only [PoolArray.read, hF, Bool.false_eq_true, if_false]
  exact h

/-- The region part of a first invocation whose pool request succeeds. -/
theorem regionStep_first_unfold (fw : Firmware) (p S : Nat) (x : Exec)
    (hPool : fw.Pool x.PoolCalls (x.Data.NumberOfProcessors * SIZEOF_UINTN_PTR) = true) :
    regionStep fw p true S x =
      if (regionLoop fw S x.Data.NumberOfProcessors 0
          (regionPublish (x.Data.NumberOfProcessors * SIZEOF_UINTN_PTR)
            (AllocatePool fw (x.Data.NumberOfProcessors * SIZEOF_UINTN_PTR) x).2)).1 = true then
        Step.ret RETURN_STATUS.RETURN_OUT_OF_RESOURCES
          (regionLoop fw S x.Data.NumberOfProcessors 0
            (regionPublish (x.Data.NumberOfProcessors * SIZEOF_UINTN_PTR)
              (AllocatePool fw (x.Data.NumberOfProcessors * SIZEOF_UINTN_PTR) x).2)).2
      else
        Step.next
          (fetch fw (regionLoop fw S x.Data.NumberOfProcessors 0
            (regionPublish (x.Data.NumberOfProcessors * SIZEOF_UINTN_PTR)
              (AllocatePool fw (x.Data.NumberOfProcessors * SIZEOF_UINTN_PTR) x).2)).2.Data.ThreadMemRegionTable
            0 (regionLoop fw S x.Data.NumberOfProcessors 0
            (regionPublish (x.Data.NumberOfProcessors * SIZEOF_UINTN_PTR)
              (AllocatePool fw (x.Data.NumberOfProcessors * SIZEOF_UINTN_PTR) x).2)).2).1
          (fetch fw (regionLoop fw S x.Data.NumberOfProcessors 0
            (regionPublish (x.Data.NumberOfProcessors * SIZEOF_UINTN_PTR)
              (AllocatePool fw (x.Data.NumberOfProcessors * SIZEOF_UINTN_PTR) x).2)).2.Data.ThreadMemRegionTable
            0 (regionLoop fw S x.Data.NumberOfProcessors 0
            (regionPublish (x.Data.NumberOfProcessors * SIZEOF_UINTN_PTR)
              (AllocatePool fw (x.Data.NumberOfProcessors * SIZEOF_UINTN_PTR) x).2)).2).2 := by
  have hA : (AllocatePool fw (x.Data.NumberOfProcessors * SIZEOF_UINTN_PTR) x).1 = true := hPool
  unfold regionStep
  simp only [if_true, hA, Bool.not_true, Bool.false_eq_true, if_false]
  rfl

/-- The region pass of a first invocation in which the first `k ≥ 1` page requests succeed
and the next one, if the loop gets to make it, fails. -/
theorem regionStep_first_run (fw : Firmware) (p S k : Nat) (x : Exec) (hk : 0 < k)
    (hPC : x.PageCalls = 0)
    (hPool : fw.Pool x.PoolCalls (x.Data.NumberOfProcessors * SIZEOF_UINTN_PTR) = true)
    (hkN : k ≤ x.Data.NumberOfProcessors)
    (hok : ∀ j, j < k → pageAddr fw j (EFI_SIZE_TO_PAGES S) S ≠ 0)
    (hfail : k < x.Data.NumberOfProcessors → pageAddr fw k (EFI_SIZE_TO_PAGES S) S = 0) :
    ∃ y, regionStep fw p true S x = Step.next (pageAddr fw 0 (EFI_SIZE_TO_PAGES S) S) y ∧
      y.Writes = x.Writes ∧ y.MsrReads = x.MsrReads ∧ y.TopaTable = x.TopaTable ∧
      y.InvalidRead = x.InvalidRead ∧ y.PoolCalls = x.PoolCalls + 1 ∧
      y.Data.NumberOfProcessors = x.Data.NumberOfProcessors ∧
      y.Data.ProcTraceOutputScheme = x.Data.ProcTraceOutputScheme ∧
      y.Data.ProcTraceMemSize = x.Data.ProcTraceMemSize ∧
      y.Data.TopaMemArray = x.Data.TopaMemArray ∧
      y.Data.ProcessorData = x.Data.ProcessorData ∧
      y.Data.AllocatedThreads = x.Data.AllocatedThreads + k ∧
      y.PageCalls = (if k < x.Data.NumberOfProcessors then k + 1 else k) ∧
      y.Requests = x.Requests ++
        [AllocRequest.pool (x.Data.NumberOfProcessors * SIZEOF_UINTN_PTR)] ++
        List.replicate (if k < x.Data.NumberOfProcessors then k + 1 else k)
          (AllocRequest.pages (EFI_SIZE_TO_PAGES S) S) ∧
      ∀ i, PoolArray.read y.Data.ThreadMemRegionTable i =
        if i < k then some (pageAddr fw i (EFI_SIZE_TO_PAGES S) S) else none := by
  have hA : (AllocatePool fw (x.Data.NumberOfProcessors * SIZEOF_UINTN_PTR) x).1 = true := hPool
  obtain ⟨h1, h2, h3, h4, t', h5, h6, h7, h8⟩ := regionLoop_run fw S k hk
    x.Data.NumberOfProcessors 0
    (regionPublish (x.Data.NumberOfProcessors * SIZEOF_UINTN_PTR)
      (AllocatePool fw (x.Data.NumberOfProcessors * SIZEOF_UINTN_PTR) x).2)
    (PoolArray.fresh (x.Data.NumberOfProcessors * SIZEOF_UINTN_PTR))
    hPC (Nat.zero_le _) hkN (by simp [regionPublish, AllocatePool]) rfl
    (by rw [fresh_length]; exact hkN)
    (fun j _ hj => hok j hj) hfail
  obtain ⟨g1, g2, g3, g4, g5, g6, g7, g8, g9, g10, g11⟩ := regionLoop_frame fw S
    x.Data.NumberOfProcessors 0
    (regionPublish (x.Data.NumberOfProcessors * SIZEOF_UINTN_PTR)
      (AllocatePool fw (x.Data.NumberOfProcessors * SIZEOF_UINTN_PTR) x).2)
  have hread : ∀ i, PoolArray.read
      (regionLoop fw S x.Data.NumberOfProcessors 0
        (regionPublish (x.Data.NumberOfProcessors * SIZEOF_UINTN_PTR)
          (AllocatePool fw (x.Data.NumberOfProcessors * SIZEOF_UINTN_PTR) x).2)).2.Data.ThreadMemRegionTable
      i = if i < k then some (pageAddr fw i (EFI_SIZE_TO_PAGES S) S) else none := by
    intro i
    rw [h5]
    have hF : t'.Freed = false := by rw [h6]; rfl
    have hi := h8 i
    rw [fresh_getD] at hi
    simp only [Nat.zero_le, true_and] at hi
    simp only [PoolArray.read, hF, Bool.false_eq_true, if_false]
    exact hi
  have hr0 := hread 0
  rw [if_pos hk] at hr0
  refine ⟨_, ?_, g1, g2, g4, g5, g3, g6, g7, g8, g9, g11, ?_, h3, ?_, hread⟩
  · rw [regionStep_first_unfold fw p S x hPool, h1, if_neg (by decide),
      fetch_of_read fw _ 0 _ _ hr0]
  · rw [h2]; simp [regionPublish, AllocatePool]
  · rw [h4]; simp [regionPublish, AllocatePool]

/-- The ToPA part of a first invocation whose pool request succeeds. -/
theorem topaStep_first_unfold (fw : Firmware) (p : Nat) (x : Exec)
    (hPool : fw.Pool x.PoolCalls (x.Data.AllocatedThreads * SIZEOF_UINTN_PTR) = true) :
    topaStep fw p true x =
      if (topaLoop fw x.Data.AllocatedThreads 0
          (topaPublish (x.Data.AllocatedThreads * SIZEOF_UINTN_PTR)
            (AllocatePool fw (x.Data.AllocatedThreads * SIZEOF_UINTN_PTR) x).2)).1 = true then
        Step.ret RETURN_STATUS.RETURN_OUT_OF_RESOURCES
          (topaLoop fw x.Data.AllocatedThreads 0
            (topaPublish (x.Data.AllocatedThreads * SIZEOF_UINTN_PTR)
              (AllocatePool fw (x.Data.AllocatedThreads * SIZEOF_UINTN_PTR) x).2)).2
      else
        Step.next
          (fetch fw (topaLoop fw x.Data.AllocatedThreads 0
            (topaPublish (x.Data.AllocatedThreads * SIZEOF_UINTN_PTR)
              (AllocatePool fw (x.Data.AllocatedThreads * SIZEOF_UINTN_PTR) x).2)).2.Data.TopaMemArray
            0 (topaLoop fw x.Data.AllocatedThreads 0
            (topaPublish (x.Data.AllocatedThreads * SIZEOF_UINTN_PTR)
              (AllocatePool fw (x.Data.AllocatedThreads * SIZEOF_UINTN_PTR) x).2)).2).1
          (fetch fw (topaLoop fw x.Data.AllocatedThreads 0
            (topaPublish (x.Data.AllocatedThreads * SIZEOF_UINTN_PTR)
              (AllocatePool fw (x.Data.AllocatedThreads * SIZEOF_UINTN_PTR) x).2)).2.Data.TopaMemArray
            0 (topaLoop fw x.Data.AllocatedThreads 0
            (topaPublish (x.Data.AllocatedThreads * SIZEOF_UINTN_PTR)
              (AllocatePool fw (x.Data.AllocatedThreads * SIZEOF_UINTN_PTR) x).2)).2).2 := by
  have hA : (AllocatePool fw (x.Data.AllocatedThreads * SIZEOF_UINTN_PTR) x).1 = true := hPool
  unfold topaStep
  simp only [if_true, hA, Bool.not_true, Bool.false_eq_true, if_false]
  rfl

/-- The ToPA pass of a first invocation in which every page request succeeds. -/
theorem topaStep_first_run (fw : Firmware) (p m : Nat) (x : Exec) (hm : 0 < m)
    (hAT : x.Data.AllocatedThreads = m)
    (hPool : fw.Pool x.PoolCalls (m * SIZEOF_UINTN_PTR) = true)
    (hok : ∀ j, j < m →
      pageAddr fw (x.PageCalls + j) (EFI_SIZE_TO_PAGES SIZEOF_PROC_TRACE_TOPA_TABLE) 0x1000 ≠ 0) :
    ∃ z, topaStep fw p true x = Step.next
        (pageAddr fw x.PageCalls (EFI_SIZE_TO_PAGES SIZEOF_PROC_TRACE_TOPA_TABLE) 0x1000) z ∧
      z.Writes = x.Writes ∧ z.MsrReads = x.MsrReads ∧ z.TopaTable = x.TopaTable ∧
      z.InvalidRead = x.InvalidRead ∧
      z.Data.NumberOfProcessors = x.Data.NumberOfProcessors ∧
      z.Data.ProcTraceOutputScheme = x.Data.ProcTraceOutputScheme ∧
      z.Data.ProcTraceMemSize = x.Data.ProcTraceMemSize ∧
      z.Data.ThreadMemRegionTable = x.Data.ThreadMemRegionTable ∧
      z.Data.ProcessorData = x.Data.ProcessorData ∧
      z.Data.AllocatedThreads = m ∧
      z.Requests = x.Requests ++ [AllocRequest.pool (m * SIZEOF_UINTN_PTR)] ++
        List.replicate m
          (AllocRequest.pages (EFI_SIZE_TO_PAGES SIZEOF_PROC_TRACE_TOPA_TABLE) 0x1000) ∧
      ∀ i, PoolArray.read z.Data.TopaMemArray i =
        if i < m then
          some (pageAddr fw (x.PageCalls + i)
            (EFI_SIZE_TO_PAGES SIZEOF_PROC_TRACE_TOPA_TABLE) 0x1000)
        else none := by
  subst hAT
  obtain ⟨h1, h2, h3, h4, t', h5, h6, h7, h8⟩ := topaLoop_run_ok fw x.Data.AllocatedThreads
    x.PageCalls x.Data.AllocatedThreads 0
    (topaPublish (x.Data.AllocatedThreads * SIZEOF_UINTN_PTR)
      (AllocatePool fw (x.Data.AllocatedThreads * SIZEOF_UINTN_PTR) x).2)
    (PoolArray.fresh (x.Data.AllocatedThreads * SIZEOF_UINTN_PTR))
    rfl rfl (Nat.zero_le _) (by omega) rfl
    (by rw [fresh_length])
    (fun j _ hj => hok j hj)
  obtain ⟨g1, g2, g3, g4, g5, g6, g7, g8, g9, g10, g11⟩ := topaLoop_frame fw
    x.Data.AllocatedThreads 0
    (topaPublish (x.Data.AllocatedThreads * SIZEOF_UINTN_PTR)
      (AllocatePool fw (x.Data.AllocatedThreads * SIZEOF_UINTN_PTR) x).2)
  have hread : ∀ i, PoolArray.read
      (topaLoop fw x.Data.AllocatedThreads 0
        (topaPublish (x.Data.AllocatedThreads * SIZEOF_UINTN_PTR)
          (AllocatePool fw (x.Data.AllocatedThreads * SIZEOF_UINTN_PTR) x).2)).2.Data.TopaMemArray
      i = if i < x.Data.AllocatedThreads then
          some (pageAddr fw (x.PageCalls + i)
            (EFI_SIZE_TO_PAGES SIZEOF_PROC_TRACE_TOPA_TABLE) 0x1000)
        else none := by
    intro i
    rw [h5]
    have hF : t'.Freed = false := by rw [h6]; rfl
    have hi := h8 i
    rw [fresh_getD] at hi
    simp only [Nat.zero_le, true_and] at hi
    simp only [PoolArray.read, hF, Bool.false_eq_true, if_false]
    exact hi
  have hr0 := hread 0
  rw [if_pos hm, Nat.add_zero] at hr0
  refine ⟨_, ?_, g1, g2, g4, g5, g6, g7, g8, g9, g11, h2, ?_, hread⟩
  · rw [topaStep_first_unfold fw p x hPool, h1, if_neg (by decide),
      fetch_of_read fw _ 0 _ _ hr0]
  · rw [h4]; simp [topaPublish, AllocatePool]

theorem AllocateAlignedReservedPages_fst (fw : Firmware) (P A : Nat) (x : Exec) :
    (AllocateAlignedReservedPages fw P A x).1 = pageAddr fw x.PageCalls P A := rfl

theorem regionLoop_AT_le (fw : Firmware) (S : Nat) :
    ∀ (fuel Index : Nat) (x : Exec),
      x.Data.AllocatedThreads ≤ (regionLoop fw S fuel Index x).2.Data.AllocatedThreads := by
  intro fuel
  induction fuel with
  | zero => intro Index x; exact Nat.le_refl _
  | succ n ih =>
    intro Index x
    unfold regionLoop
    dsimp only
    split
    · split
      · split
        · exact Nat.le_refl _
        · exact Nat.le_refl _
      · refine Nat.le_trans ?_ (ih (Index + 1) (regionNext Index _ _))
        exact Nat.le_succ _
    · exact Nat.le_refl _

/-- The region loop returns from the function exactly when its first request fails. -/
theorem regionLoop_fst_zero (fw : Firmware) (S n : Nat) (x : Exec)
    (hN : 0 < x.Data.NumberOfProcessors) :
    (regionLoop fw S (n + 1) 0 x).1 = true ↔
      pageAddr fw x.PageCalls (EFI_SIZE_TO_PAGES S) S = 0 := by
  unfold regionLoop
  dsimp only
  rw [if_pos hN, AllocateAlignedReservedPages_fst]
  by_cases h : pageAddr fw x.PageCalls (EFI_SIZE_TO_PAGES S) S = 0
  · rw [if_pos h, if_pos rfl]
    simp [h]
  · rw [if_neg h, regionLoop_fst_pos fw S n 1 _ (by decide)]
    simp [h]

theorem regionLoop_AT_pos (fw : Firmware) (S n : Nat) (x : Exec)
    (hN : 0 < x.Data.NumberOfProcessors)
    (h : pageAddr fw x.PageCalls (EFI_SIZE_TO_PAGES S) S ≠ 0) :
    0 < (regionLoop fw S (n + 1) 0 x).2.Data.AllocatedThreads := by
  unfold regionLoop
  dsimp only
  rw [if_pos hN, AllocateAlignedReservedPages_fst, if_neg h]
  refine Nat.lt_of_lt_of_le ?_ (regionLoop_AT_le fw S n (0 + 1) (regionNext 0 _ _))
  exact Nat.succ_pos _

/-- The ToPA loop returns from the function exactly when its first request fails. -/
theorem topaLoop_fst_zero (fw : Firmware) (n : Nat) (x : Exec)
    (hA : 0 < x.Data.AllocatedThreads) :
    (topaLoop fw (n + 1) 0 x).1 = true ↔
      pageAddr fw x.PageCalls (EFI_SIZE_TO_PAGES SIZEOF_PROC_TRACE_TOPA_TABLE) 0x1000 = 0 := by
  unfold topaLoop
  dsimp only
  rw [if_pos hA, AllocateAlignedReservedPages_fst]
  by_cases h : pageAddr fw x.PageCalls (EFI_SIZE_TO_PAGES SIZEOF_PROC_TRACE_TOPA_TABLE)
      0x1000 = 0
  · rw [if_pos h, if_pos rfl]
    simp [h]
  · rw [if_neg h, topaLoop_fst_pos fw n 1 _ (by decide)]
    simp [h]

theorem regionLoop_PageCalls_le (fw : Firmware) (S : Nat) :
    ∀ (fuel Index : Nat) (x : Exec),
      x.PageCalls ≤ (regionLoop fw S fuel Index x).2.PageCalls := by
  intro fuel
  induction fuel with
  | zero => intro Index x; exact Nat.le_refl _
  | succ n ih =>
    intro Index x
    unfold regionLoop
    dsimp only
    split
    · split
      · split
        · exact Nat.le_succ _
        · exact Nat.le_succ _
      · refine Nat.le_trans ?_ (ih (Index + 1) (regionNext Index _ _))
        exact Nat.le_succ _
    · exact Nat.le_refl _

/-- A call that is not the first invocation returns `RETURN_SUCCESS`. -/
theorem ProcTraceInitialize_later_status (fw : Firmware) (p : Nat) (d : PROC_TRACE_DATA)
    (State : Bool) (t : PoolArray) (hTable : d.ThreadMemRegionTable = some t) :
    (ProcTraceInitialize fw p d State).Status = RETURN_STATUS.RETURN_SUCCESS := by
  by_cases hp : p < d.AllocatedThreads
  · have hx : regionStep fw p d.ThreadMemRegionTable.isNone (MemRegionSize d)
        (resetStep fw p (Exec.start d)) =
        Step.next (fetch fw d.ThreadMemRegionTable p (resetStep fw p (Exec.start d))).1
          (fetch fw d.ThreadMemRegionTable p (resetStep fw p (Exec.start d))).2 := by
      have := regionStep_later_fetch fw p (MemRegionSize d) (resetStep fw p (Exec.start d))
        (by simpa using hp)
      rw [hTable]
      simpa [hTable] using this
    obtain ⟨f1, -⟩ := fetch_frame fw d.ThreadMemRegionTable p (resetStep fw p (Exec.start d))
    rw [resetStep_Data, Exec.start_Data] at f1
    by_cases h1 : (d.ProcessorData p).SingleRangeSupported = true ∧
        d.ProcTraceOutputScheme = OutputSchemeSingleRange
    · rw [ProcTraceInitialize_single fw p d State _ _ hx h1.1 h1.2]
    · by_cases h2 : (d.ProcessorData p).TopaSupported = true ∧
          d.ProcTraceOutputScheme = OutputSchemeToPA
      · have hy := topaStep_later_fetch fw p
          (fetch fw d.ThreadMemRegionTable p (resetStep fw p (Exec.start d))).2
          (by rw [f1]; exact hp)
        rw [show (false : Bool) = d.ThreadMemRegionTable.isNone from by rw [hTable]; rfl] at hy
        rw [ProcTraceInitialize_topa_next fw p d State _ _ _ _ hx h2.1 h2.2 hy]
      · rw [ProcTraceInitialize_neither fw p d State _ _ hx h1 h2]
  · have h : ¬ p < (resetStep fw p (Exec.start d)).Data.AllocatedThreads := by simpa using hp
    rw [ProcTraceInitialize_of_ret fw p d State _ _
      (by rw [hTable]; exact regionStep_later_skip fw p _ _ h)]

theorem regionLoop_fst_zero_of_pos (fw : Firmware) (S fuel : Nat) (x : Exec) (hf : 0 < fuel)
    (hN : 0 < x.Data.NumberOfProcessors) :
    (regionLoop fw S fuel 0 x).1 = true ↔
      pageAddr fw x.PageCalls (EFI_SIZE_TO_PAGES S) S = 0 := by
  obtain ⟨n, rfl⟩ : ∃ n, fuel = n + 1 := ⟨fuel - 1, by omega⟩
  exact regionLoop_fst_zero fw S n x hN

theorem regionLoop_AT_pos_of_pos (fw : Firmware) (S fuel : Nat) (x : Exec) (hf : 0 < fuel)
    (hN : 0 < x.Data.NumberOfProcessors)
    (h : pageAddr fw x.PageCalls (EFI_SIZE_TO_PAGES S) S ≠ 0) :
    0 < (regionLoop fw S fuel 0 x).2.Data.AllocatedThreads := by
  obtain ⟨n, rfl⟩ : ∃ n, fuel = n + 1 := ⟨fuel - 1, by omega⟩
  exact regionLoop_AT_pos fw S n x hN h

theorem topaLoop_fst_zero_of_pos (fw : Firmware) (fuel : Nat) (x : Exec) (hf : 0 < fuel)
    (hA : 0 < x.Data.AllocatedThreads) :
    (topaLoop fw fuel 0 x).1 = true ↔
      pageAddr fw x.PageCalls (EFI_SIZE_TO_PAGES SIZEOF_PROC_TRACE_TOPA_TABLE) 0x1000 = 0 := by
  obtain ⟨n, rfl⟩ : ∃ n, fuel = n + 1 := ⟨fuel - 1, by omega⟩
  exact topaLoop_fst_zero fw n x hA

/-- The three ways the region part of a first invocation can go. -/
theorem regionStep_first_cases (fw : Firmware) (p S : Nat) (x : Exec)
    (hN : 0 < x.Data.NumberOfProcessors) :
    (fw.Pool x.PoolCalls (x.Data.NumberOfProcessors * SIZEOF_UINTN_PTR) = false ∧
      ∃ y, regionStep fw p true S x = Step.ret RETURN_STATUS.RETURN_OUT_OF_RESOURCES y) ∨
    (fw.Pool x.PoolCalls (x.Data.NumberOfProcessors * SIZEOF_UINTN_PTR) = true ∧
      pageAddr fw x.PageCalls (EFI_SIZE_TO_PAGES S) S = 0 ∧
      ∃ y, regionStep fw p true S x = Step.ret RETURN_STATUS.RETURN_OUT_OF_RESOURCES y) ∨
    (fw.Pool x.PoolCalls (x.Data.NumberOfProcessors * SIZEOF_UINTN_PTR) = true ∧
      pageAddr fw x.PageCalls (EFI_SIZE_TO_PAGES S) S ≠ 0 ∧
      ∃ R y, regionStep fw p true S x = Step.next R y ∧ 0 < y.Data.AllocatedThreads ∧
        y.PoolCalls = x.PoolCalls + 1) := by
  by_cases hP : fw.Pool x.PoolCalls (x.Data.NumberOfProcessors * SIZEOF_UINTN_PTR) = true
  · right
    have hN' : 0 < (regionPublish (x.Data.NumberOfProcessors * SIZEOF_UINTN_PTR)
        (AllocatePool fw (x.Data.NumberOfProcessors * SIZEOF_UINTN_PTR) x).2).Data.NumberOfProcessors :=
      hN
    have hPC : (regionPublish (x.Data.NumberOfProcessors * SIZEOF_UINTN_PTR)
        (AllocatePool fw (x.Data.NumberOfProcessors * SIZEOF_UINTN_PTR) x).2).PageCalls =
        x.PageCalls := rfl
    have hz := regionLoop_fst_zero_of_pos fw S x.Data.NumberOfProcessors _ hN hN'
    rw [hPC] at hz
    rw [regionStep_first_unfold fw p S x hP]
    by_cases h0 : pageAddr fw x.PageCalls (EFI_SIZE_TO_PAGES S) S = 0
    · left
      refine ⟨hP, h0, ?_⟩
      rw [if_pos (hz.2 h0)]
      exact ⟨_, rfl⟩
    · right
      refine ⟨hP, h0, ?_⟩
      have hl : ¬ (regionLoop fw S x.Data.NumberOfProcessors 0
          (regionPublish (x.Data.NumberOfProcessors * SIZEOF_UINTN_PTR)
            (AllocatePool fw (x.Data.NumberOfProcessors * SIZEOF_UINTN_PTR) x).2)).1 = true :=
        fun h => h0 (hz.1 h)
      have hpos := regionLoop_AT_pos_of_pos fw S x.Data.NumberOfProcessors _ hN hN'
        (by rw [hPC]; exact h0)
      obtain ⟨-, -, g3, -⟩ := regionLoop_frame fw S x.Data.NumberOfProcessors 0
        (regionPublish (x.Data.NumberOfProcessors * SIZEOF_UINTN_PTR)
          (AllocatePool fw (x.Data.NumberOfProcessors * SIZEOF_UINTN_PTR) x).2)
      rw [if_neg hl]
      refine ⟨_, _, rfl, ?_, ?_⟩
      · rw [(fetch_frame fw _ _ _).1]
        exact hpos
      · rw [(fetch_frame fw _ _ _).2.2.2.2.1, g3]
        rfl
  · left
    have hP' : fw.Pool x.PoolCalls (x.Data.NumberOfProcessors * SIZEOF_UINTN_PTR) = false := by
      cases h : fw.Pool x.PoolCalls (x.Data.NumberOfProcessors * SIZEOF_UINTN_PTR)
      · rfl
      · exact absurd h hP
    refine ⟨hP', ?_⟩
    have hA : (AllocatePool fw (x.Data.NumberOfProcessors * SIZEOF_UINTN_PTR) x).1 = false :=
      hP'
    unfold regionStep
    simp only [if_true, hA, Bool.not_false]
    exact ⟨_, rfl⟩

/-- The three ways the ToPA part of a first invocation can go. -/
theorem topaStep_first_cases (fw : Firmware) (p : Nat) (x : Exec)
    (hA : 0 < x.Data.AllocatedThreads) :
    (fw.Pool x.PoolCalls (x.Data.AllocatedThreads * SIZEOF_UINTN_PTR) = false ∧
      ∃ y, topaStep fw p true x = Step.ret RETURN_STATUS.RETURN_OUT_OF_RESOURCES y) ∨
    (fw.Pool x.PoolCalls (x.Data.AllocatedThreads * SIZEOF_UINTN_PTR) = true ∧
      pageAddr fw x.PageCalls (EFI_SIZE_TO_PAGES SIZEOF_PROC_TRACE_TOPA_TABLE) 0x1000 = 0 ∧
      ∃ y, topaStep fw p true x = Step.ret RETURN_STATUS.RETURN_OUT_OF_RESOURCES y) ∨
    (fw.Pool x.PoolCalls (x.Data.AllocatedThreads * SIZEOF_UINTN_PTR) = true ∧
      pageAddr fw x.PageCalls (EFI_SIZE_TO_PAGES SIZEOF_PROC_TRACE_TOPA_TABLE) 0x1000 ≠ 0 ∧
      ∃ T y, topaStep fw p true x = Step.next T y) := by
  by_cases hP : fw.Pool x.PoolCalls (x.Data.AllocatedThreads * SIZEOF_UINTN_PTR) = true
  · right
    have hA' : 0 < (topaPublish (x.Data.AllocatedThreads * SIZEOF_UINTN_PTR)
        (AllocatePool fw (x.Data.AllocatedThreads * SIZEOF_UINTN_PTR) x).2).Data.AllocatedThreads :=
      hA
    have hPC : (topaPublish (x.Data.AllocatedThreads * SIZEOF_UINTN_PTR)
        (AllocatePool fw (x.Data.AllocatedThreads * SIZEOF_UINTN_PTR) x).2).PageCalls =
        x.PageCalls := rfl
    have hz := topaLoop_fst_zero_of_pos fw x.Data.AllocatedThreads _ hA hA'
    rw [hPC] at hz
    rw [topaStep_first_unfold fw p x hP]
    by_cases h0 : pageAddr fw x.PageCalls (EFI_SIZE_TO_PAGES SIZEOF_PROC_TRACE_TOPA_TABLE)
        0x1000 = 0
    · left
      refine ⟨hP, h0, ?_⟩
      rw [if_pos (hz.2 h0)]
      exact ⟨_, rfl⟩
    · right
      refine ⟨hP, h0, ?_⟩
      have hl : ¬ (topaLoop fw x.Data.AllocatedThreads 0
          (topaPublish (x.Data.AllocatedThreads * SIZEOF_UINTN_PTR)
            (AllocatePool fw (x.Data.AllocatedThreads * SIZEOF_UINTN_PTR) x).2)).1 = true :=
        fun h => h0 (hz.1 h)
      rw [if_neg hl]
      exact ⟨_, _, rfl⟩
  · left
    have hP' : fw.Pool x.PoolCalls (x.Data.AllocatedThreads * SIZEOF_UINTN_PTR) = false := by
      cases h : fw.Pool x.PoolCalls (x.Data.AllocatedThreads * SIZEOF_UINTN_PTR)
      · rfl
      · exact absurd h hP
    refine ⟨hP', ?_⟩
    have hA2 : (AllocatePool fw (x.Data.AllocatedThreads * SIZEOF_UINTN_PTR) x).1 = false :=
      hP'
    unfold topaStep
    simp only [if_true, hA2, Bool.not_false]
    exact ⟨_, rfl⟩

theorem afterRegionStep_of_next (fw : Firmware) (p : Nat) (d : PROC_TRACE_DATA) (R : Nat)
    (y : Exec)
    (h : regionStep fw p d.ThreadMemRegionTable.isNone (MemRegionSize d)
      (resetStep fw p (Exec.start d)) = Step.next R y) :
    afterRegionStep fw p d = y := by
  unfold afterRegionStep
  rw [h]

theorem bool_eq_false_of_ne_true {b : Bool} (h : b = false) : ¬ b = true := by
  rw [h]; decide

/-! ## The ways a call can go -/

/-- What the region part leaves untouched when the function returns from it, and the status
it returns with. -/
theorem regionStep_ret_frame (fw : Firmware) (p S : Nat) (FirstIn : Bool) (x y : Exec)
    (s : RETURN_STATUS) (h : regionStep fw p FirstIn S x = Step.ret s y) :
    y.Writes = x.Writes ∧ y.MsrReads = x.MsrReads ∧ y.TopaTable = x.TopaTable ∧
    ((FirstIn = true ∧ s = RETURN_STATUS.RETURN_OUT_OF_RESOURCES) ∨
     (FirstIn = false ∧ s = RETURN_STATUS.RETURN_SUCCESS ∧ y = x ∧
       ¬ p < x.Data.AllocatedThreads)) := by
  unfold regionStep at h
  cases FirstIn with
  | true =>
    simp only [if_true] at h
    split at h
    · injection h with h1 h2
      subst h1 h2
      simp [AllocatePool]
    · split at h
      · injection h with h1 h2
        subst h1 h2
        obtain ⟨g1, g2, g3, g4, g5, g6, g7, g8, g9, g10, g11⟩ := regionLoop_frame fw S
          (regionPublish (x.Data.NumberOfProcessors * SIZEOF_UINTN_PTR)
              (AllocatePool fw (x.Data.NumberOfProcessors * SIZEOF_UINTN_PTR) x).2).Data.NumberOfProcessors
          0 (regionPublish (x.Data.NumberOfProcessors * SIZEOF_UINTN_PTR)
              (AllocatePool fw (x.Data.NumberOfProcessors * SIZEOF_UINTN_PTR) x).2)
        rw [g1, g2, g4]
        simp [regionPublish, AllocatePool]
      · cases h
  | false =>
    simp only [Bool.false_eq_true, if_false] at h
    split at h
    · cases h
    · rename_i hp
      injection h with h1 h2
      subst h1 h2
      simp [hp]

/-- What the ToPA allocation part leaves untouched when the function returns from it, and the
status it returns with. -/
theorem topaStep_ret_frame (fw : Firmware) (p : Nat) (FirstIn : Bool) (x y : Exec)
    (s : RETURN_STATUS) (h : topaStep fw p FirstIn x = Step.ret s y) :
    y.Writes = x.Writes ∧ y.MsrReads = x.MsrReads ∧ y.TopaTable = x.TopaTable ∧
    ((FirstIn = true ∧ s = RETURN_STATUS.RETURN_OUT_OF_RESOURCES) ∨
     (FirstIn = false ∧ s = RETURN_STATUS.RETURN_SUCCESS ∧ y = x ∧
       ¬ p < x.Data.AllocatedThreads)) := by
  unfold topaStep at h
  cases FirstIn with
  | true =>
    simp only [if_true] at h
    split at h
    · injection h with h1 h2
      subst h1 h2
      simp [AllocatePool]
    · split at h
      · injection h with h1 h2
        subst h1 h2
        obtain ⟨g1, g2, g3, g4, g5, g6, g7, g8, g9, g10, g11⟩ := topaLoop_frame fw
          (topaPublish (x.Data.AllocatedThreads * SIZEOF_UINTN_PTR)
              (AllocatePool fw (x.Data.AllocatedThreads * SIZEOF_UINTN_PTR) x).2).Data.AllocatedThreads
          0 (topaPublish (x.Data.AllocatedThreads * SIZEOF_UINTN_PTR)
              (AllocatePool fw (x.Data.AllocatedThreads * SIZEOF_UINTN_PTR) x).2)
        rw [g1, g2, g4]
        simp [topaPublish, AllocatePool]
      · cases h
  | false =>
    simp only [Bool.false_eq_true, if_false] at h
    split at h
    · cases h
    · rename_i hp
      injection h with h1 h2
      subst h1 h2
      simp [hp]

/-- The table lookup of a call that is not the first invocation changes nothing but the
record of invalid reads. -/
theorem regionStep_later_next (fw : Firmware) (p S R : Nat) (x y : Exec)
    (h : regionStep fw p false S x = Step.next R y) :
    p < x.Data.AllocatedThreads ∧ y.Data = x.Data ∧ y.Requests = x.Requests := by
  by_cases hp : p < x.Data.AllocatedThreads
  · rw [regionStep_later_fetch fw p S x hp] at h
    injection h with h1 h2
    subst h2
    obtain ⟨f1, f2, f3, f4, f5, f6, f7⟩ := fetch_frame fw x.Data.ThreadMemRegionTable p x
    exact ⟨hp, f1, f4⟩
  · rw [regionStep_later_skip fw p S x hp] at h
    cases h

theorem topaStep_later_next (fw : Firmware) (p T : Nat) (x y : Exec)
    (h : topaStep fw p false x = Step.next T y) :
    p < x.Data.AllocatedThreads ∧ y.Data = x.Data ∧ y.Requests = x.Requests := by
  by_cases hp : p < x.Data.AllocatedThreads
  · rw [topaStep_later_fetch fw p x hp] at h
    injection h with h1 h2
    subst h2
    obtain ⟨f1, f2, f3, f4, f5, f6, f7⟩ := fetch_frame fw x.Data.TopaMemArray p x
    exact ⟨hp, f1, f4⟩
  · simp [topaStep, hp] at h

/-- The four ways a call can go: it returns before the final block (from one of the two
allocation parts or from a table lookup), or it reaches the final block after the
single-range block, after the ToPA block, or after neither. -/
theorem ProcTraceInitialize_cases (fw : Firmware) (p : Nat) (d : PROC_TRACE_DATA)
    (State : Bool) :
    (∃ s y, ProcTraceInitialize fw p d State = ⟨s, y⟩ ∧ y.Writes = resetWrites fw p ∧
      y.MsrReads = resetReads fw ∧ y.TopaTable = none ∧
      ((d.ThreadMemRegionTable = none ∧ s = RETURN_STATUS.RETURN_OUT_OF_RESOURCES) ∨
       (d.ThreadMemRegionTable ≠ none ∧ s = RETURN_STATUS.RETURN_SUCCESS ∧
         ¬ p < d.AllocatedThreads))) ∨
    (∃ R x, regionOf fw p d = some R ∧ x.Writes = resetWrites fw p ∧
      x.MsrReads = resetReads fw ∧ x.TopaTable = none ∧
      ((d.ProcessorData p).SingleRangeSupported = true ∧
        d.ProcTraceOutputScheme = OutputSchemeSingleRange) ∧
      ProcTraceInitialize fw p d State = ⟨RETURN_STATUS.RETURN_SUCCESS,
        armStep fw p State (singleRangeStep fw p (MemRegionSize d) R x)⟩) ∨
    (∃ R T x, regionOf fw p d = some R ∧ topaTableOf fw p d = some T ∧
      x.Writes = resetWrites fw p ∧ x.MsrReads = resetReads fw ∧
      ((d.ProcessorData p).TopaSupported = true ∧
        d.ProcTraceOutputScheme = OutputSchemeToPA) ∧
      ProcTraceInitialize fw p d State = ⟨RETURN_STATUS.RETURN_SUCCESS,
        armStep fw p State (topaProgram fw p T R x)⟩) ∨
    (∃ R x, regionOf fw p d = some R ∧ x.Writes = resetWrites fw p ∧
      x.MsrReads = resetReads fw ∧ x.TopaTable = none ∧
      ¬ ((d.ProcessorData p).SingleRangeSupported = true ∧
        d.ProcTraceOutputScheme = OutputSchemeSingleRange) ∧
      ¬ ((d.ProcessorData p).TopaSupported = true ∧
        d.ProcTraceOutputScheme = OutputSchemeToPA) ∧
      ProcTraceInitialize fw p d State =
        ⟨RETURN_STATUS.RETURN_SUCCESS, armStep fw p State x⟩) := by
  have hW := resetStep_start_Writes fw p d
  have hM := resetStep_start_MsrReads fw p d
  have hT : (resetStep fw p (Exec.start d)).TopaTable = none := by
    rw [resetStep_TopaTable]; rfl
  have hAT : (resetStep fw p (Exec.start d)).Data.AllocatedThreads = d.AllocatedThreads := by
    rw [resetStep_Data]; rfl
  have hnone : ∀ b : Bool, d.ThreadMemRegionTable.isNone = b →
      (b = true → d.ThreadMemRegionTable = none) ∧
      (b = false → d.ThreadMemRegionTable ≠ none) := by
    intro b hb
    cases hd : d.ThreadMemRegionTable with
    | none => rw [hd] at hb; subst hb; simp
    | some t => rw [hd] at hb; subst hb; simp
  cases hq : regionStep fw p d.ThreadMemRegionTable.isNone (MemRegionSize d)
      (resetStep fw p (Exec.start d)) with
  | ret s y =>
    left
    obtain ⟨a1, a2, a3, a4⟩ := regionStep_ret_frame fw p _ _ _ _ _ hq
    refine ⟨s, y, ProcTraceInitialize_of_ret fw p d State s y hq, a1.trans hW, a2.trans hM,
      a3.trans hT, ?_⟩
    rcases a4 with ⟨e1, e2⟩ | ⟨e1, e2, _, e4⟩
    · exact Or.inl ⟨((hnone _ rfl).1 e1), e2⟩
    · exact Or.inr ⟨((hnone _ rfl).2 e1), e2, by rw [hAT] at e4; exact e4⟩
  | next R y =>
    have hR : regionOf fw p d = some R := by simp only [regionOf, hq]
    have hA : afterRegionStep fw p d = y := by simp only [afterRegionStep, hq]
    obtain ⟨b1, b2, b3, _, _, _, _⟩ := regionStep_next_frame fw p _ R _ _ _ hq
    by_cases h1 : (d.ProcessorData p).SingleRangeSupported = true ∧
        d.ProcTraceOutputScheme = OutputSchemeSingleRange
    · exact Or.inr (Or.inl ⟨R, y, hR, b1.trans hW, b2.trans hM, b3.trans hT, h1,
        ProcTraceInitialize_single fw p d State R y hq h1.1 h1.2⟩)
    · by_cases h2 : (d.ProcessorData p).TopaSupported = true ∧
          d.ProcTraceOutputScheme = OutputSchemeToPA
      · cases ht : topaStep fw p d.ThreadMemRegionTable.isNone y with
        | ret s z =>
          obtain ⟨c1, c2, c3, c4⟩ := topaStep_ret_frame fw p _ _ _ _ ht
          refine Or.inl ⟨s, z, ProcTraceInitialize_topa_ret fw p d State R y z s hq h2.1 h2.2 ht,
            c1.trans (b1.trans hW), c2.trans (b2.trans hM), c3.trans (b3.trans hT), ?_⟩
          rcases c4 with ⟨e1, e2⟩ | ⟨e1, e2, _, e4⟩
          · exact Or.inl ⟨((hnone _ rfl).1 e1), e2⟩
          · rw [e1] at hq
            obtain ⟨k1, k2, _⟩ := regionStep_later_next fw p _ R _ _ hq
            rw [k2] at e4
            exact absurd k1 e4
        | next T z =>
          obtain ⟨c1, c2, _⟩ := topaStep_next_frame fw p T _ _ _ ht
          have hTT : topaTableOf fw p d = some T := by simp only [topaTableOf, hA, ht]
          exact Or.inr (Or.inr (Or.inl ⟨R, T, z, hR, hTT, c1.trans (b1.trans hW),
            c2.trans (b2.trans hM), h2,
            ProcTraceInitialize_topa_next fw p d State R T y z hq h2.1 h2.2 ht⟩))
      · exact Or.inr (Or.inr (Or.inr ⟨R, y, hR, b1.trans hW, b2.trans hM, b3.trans hT, h1, h2,
          ProcTraceInitialize_neither fw p d State R y hq h1 h2⟩))

theorem testBit_armBits (i : Nat) :
    (BIT0 + BIT2 + BIT3 + BIT13).testBit i = decide (i = 0 ∨ i = 2 ∨ i = 3 ∨ i = 13) := by
  by_cases hi : i < 14
  · interval_cases i <;> decide
  · have h : (BIT0 + BIT2 + BIT3 + BIT13) < 2 ^ 14 := by decide
    rw [testBit_of_lt_two_pow h (Nat.le_of_not_lt hi)]
    symm
    rw [decide_eq_false_iff_not]
    omega

theorem testBit_BIT0 (i : Nat) : BIT0.testBit i = decide (i = 0) := by
  cases i with
  | zero => decide
  | succ j => simp [BIT0, Nat.testBit_succ]

/-- The bits of the arming value: bit 0 is `State`, bits 2, 3 and 13 are set, every other bit
is the bit of `r`. -/
theorem armValue_testBit (r : Nat) (State : Bool) (i : Nat) (hr : r < 2 ^ 64) :
    (armValue r State).testBit i =
      if i = 0 then State else if i = 2 ∨ i = 3 ∨ i = 13 then true else r.testBit i := by
  have h : r ||| (BIT0 + BIT2 + BIT3 + BIT13) < 2 ^ 64 :=
    Nat.or_lt_two_pow hr (by decide)
  cases State with
  | true =>
    simp only [armValue, Bool.not_true, Bool.false_eq_true, if_false]
    rw [Nat.testBit_or, testBit_armBits]
    by_cases h0 : i = 0
    · simp [h0]
    · by_cases h1 : i = 2 ∨ i = 3 ∨ i = 13
      · simp [h0, h1]
      · simp [h0, h1]
  | false =>
    simp only [armValue, Bool.not_false, if_true]
    rw [testBit_and_NOT64 _ BIT0 i h (by decide), Nat.testBit_or, testBit_armBits,
      testBit_BIT0]
    by_cases h0 : i = 0
    · simp [h0]
    · by_cases h1 : i = 2 ∨ i = 3 ∨ i = 13
      · simp [h0, h1]
      · simp [h0, h1]

/-- A call that returns `RETURN_SUCCESS` and is the first invocation or has its
`ProcessorNumber` below `AllocatedThreads` ends with the final block. -/
theorem ProcTraceInitialize_reaches_arm (fw : Firmware) (p : Nat) (d : PROC_TRACE_DATA)
    (State : Bool)
    (hs : (ProcTraceInitialize fw p d State).Status = RETURN_STATUS.RETURN_SUCCESS)
    (hin : d.ThreadMemRegionTable = none ∨ p < d.AllocatedThreads) :
    ∃ x, ProcTraceInitialize fw p d State =
      ⟨RETURN_STATUS.RETURN_SUCCESS, armStep fw p State x⟩ := by
  rcases ProcTraceInitialize_cases fw p d State with
    ⟨s, y, e, _, _, _, h⟩ | ⟨R, x, _, _, _, _, _, e⟩ | ⟨R, T, x, _, _, _, _, _, e⟩ |
    ⟨R, x, _, _, _, _, _, _, e⟩
  · exfalso
    rw [e] at hs
    rcases h with ⟨_, h2⟩ | ⟨h1, _, h3⟩
    · rw [h2] at hs; cases hs
    · rcases hin with h | h
      · exact h1 h
      · exact h3 h
  · exact ⟨_, e⟩
  · exact ⟨_, e⟩
  · exact ⟨_, e⟩

/-- The list of writes of a call, in full, by the way the call goes. -/
theorem ProcTraceInitialize_writes (fw : Firmware) (p : Nat) (d : PROC_TRACE_DATA)
    (State : Bool) :
    ((ProcTraceInitialize fw p d State).Final.Writes = resetWrites fw p ∧
      (ProcTraceInitialize fw p d State).Final.TopaTable = none ∧
      ((d.ThreadMemRegionTable = none ∧
        (ProcTraceInitialize fw p d State).Status = RETURN_STATUS.RETURN_OUT_OF_RESOURCES) ∨
       (d.ThreadMemRegionTable ≠ none ∧ ¬ p < d.AllocatedThreads))) ∨
    (∃ R, regionOf fw p d = some R ∧
      ((d.ProcessorData p).SingleRangeSupported = true ∧
        d.ProcTraceOutputScheme = OutputSchemeSingleRange) ∧
      (ProcTraceInitialize fw p d State).Final.TopaTable = none ∧
      (ProcTraceInitialize fw p d State).Final.Writes = resetWrites fw p ++
        [⟨p, MSR_IA32_RTIT_CTL, msrRead fw (resetReads fw) MSR_IA32_RTIT_CTL &&& NOT64 BIT8⟩,
         ⟨p, MSR_IA32_RTIT_OUTPUT_BASE, R⟩,
         ⟨p, MSR_IA32_RTIT_OUTPUT_MASK_PTRS, regionMask (MemRegionSize d)⟩,
         ⟨p, MSR_IA32_RTIT_CTL,
          armValue (msrRead fw (resetReads fw + 1) MSR_IA32_RTIT_CTL) State⟩]) ∨
    (∃ R T, regionOf fw p d = some R ∧ topaTableOf fw p d = some T ∧
      ((d.ProcessorData p).TopaSupported = true ∧
        d.ProcTraceOutputScheme = OutputSchemeToPA) ∧
      (ProcTraceInitialize fw p d State).Final.TopaTable ≠ none ∧
      (ProcTraceInitialize fw p d State).Final.Writes = resetWrites fw p ++
        [⟨p, MSR_IA32_RTIT_OUTPUT_BASE, T⟩,
         ⟨p, MSR_IA32_RTIT_OUTPUT_MASK_PTRS, 0x7F⟩,
         ⟨p, MSR_IA32_RTIT_CTL, msrRead fw (resetReads fw) MSR_IA32_RTIT_CTL ||| BIT8⟩,
         ⟨p, MSR_IA32_RTIT_CTL,
          armValue (msrRead fw (resetReads fw + 1) MSR_IA32_RTIT_CTL) State⟩]) ∨
    (∃ R, regionOf fw p d = some R ∧
      ¬ ((d.ProcessorData p).SingleRangeSupported = true ∧
        d.ProcTraceOutputScheme = OutputSchemeSingleRange) ∧
      ¬ ((d.ProcessorData p).TopaSupported = true ∧
        d.ProcTraceOutputScheme = OutputSchemeToPA) ∧
      (ProcTraceInitialize fw p d State).Final.TopaTable = none ∧
      (ProcTraceInitialize fw p d State).Final.Writes = resetWrites fw p ++
        [⟨p, MSR_IA32_RTIT_CTL,
          armValue (msrRead fw (resetReads fw) MSR_IA32_RTIT_CTL) State⟩]) := by
  rcases ProcTraceInitialize_cases fw p d State with
    ⟨s, y, e, w, _, t, h⟩ | ⟨R, x, hR, w, m, t, hc, e⟩ | ⟨R, T, x, hR, hT, w, m, hc, e⟩ |
    ⟨R, x, hR, w, m, t, h1, h2, e⟩
  · refine Or.inl ?_
    rw [e]
    refine ⟨w, t, ?_⟩
    rcases h with ⟨a, b⟩ | ⟨a, _, c⟩
    · exact Or.inl ⟨a, b⟩
    · exact Or.inr ⟨a, c⟩
  · refine Or.inr (Or.inl ⟨R, hR, hc, ?_, ?_⟩)
    · rw [e]; exact t
    · rw [e]
      show (armStep fw p State (singleRangeStep fw p (MemRegionSize d) R x)).Writes = _
      rw [armStep_Writes, singleRangeStep_Writes, singleRangeStep_MsrReads, w, m,
        List.append_assoc]
      rfl
  · refine Or.inr (Or.inr (Or.inl ⟨R, T, hR, hT, hc, ?_, ?_⟩))
    · rw [e]
      show (armStep fw p State (topaProgram fw p T R x)).TopaTable ≠ none
      rw [armStep_TopaTable, topaProgram_TopaTable]
      exact Option.some_ne_none _
    · rw [e]
      show (armStep fw p State (topaProgram fw p T R x)).Writes = _
      rw [armStep_Writes, topaProgram_Writes, topaProgram_MsrReads, w, m, List.append_assoc]
      rfl
  · refine Or.inr (Or.inr (Or.inr ⟨R, hR, h1, h2, ?_, ?_⟩))
    · rw [e]; exact t
    · rw [e]
      show (armStep fw p State x).Writes = _
      rw [armStep_Writes, w, m]
      rfl

/-- Every write of the reset block is to the control register or to the status register. -/
theorem resetWrites_index (fw : Firmware) (p : Nat) :
    ∀ w ∈ resetWrites fw p,
      w.Index = MSR_IA32_RTIT_CTL ∨ w.Index = MSR_IA32_RTIT_STATUS := by
  intro w hw
  unfold resetWrites at hw
  split at hw
  · simp only [List.mem_cons, List.mem_singleton, List.not_mem_nil, or_false] at hw
    rcases hw with h | h
    · left; rw [h]
    · right; rw [h]
  · cases hw

/-- A call that is not the first invocation makes no request and leaves the configuration
buffer as it was. -/
theorem ProcTraceInitialize_later_frame (fw : Firmware) (p : Nat) (d : PROC_TRACE_DATA)
    (State : Bool) (t : PoolArray) (hTable : d.ThreadMemRegionTable = some t) :
    (ProcTraceInitialize fw p d State).Final.Data = d ∧
    (ProcTraceInitialize fw p d State).Final.Requests = [] := by
  by_cases hp : p < d.AllocatedThreads
  · have hx : regionStep fw p d.ThreadMemRegionTable.isNone (MemRegionSize d)
        (resetStep fw p (Exec.start d)) =
        Step.next (fetch fw d.ThreadMemRegionTable p (resetStep fw p (Exec.start d))).1
          (fetch fw d.ThreadMemRegionTable p (resetStep fw p (Exec.start d))).2 := by
      have := regionStep_later_fetch fw p (MemRegionSize d) (resetStep fw p (Exec.start d))
        (by simpa using hp)
      rw [hTable]
      simpa [hTable] using this
    obtain ⟨f1, _, _, f4, _⟩ := fetch_frame fw d.ThreadMemRegionTable p
      (resetStep fw p (Exec.start d))
    rw [resetStep_Data, Exec.start_Data] at f1
    have f4' : (fetch fw d.ThreadMemRegionTable p (resetStep fw p (Exec.start d))).2.Requests =
        [] := by rw [f4]; simp [Exec.start]
    by_cases h1 : (d.ProcessorData p).SingleRangeSupported = true ∧
        d.ProcTraceOutputScheme = OutputSchemeSingleRange
    · rw [ProcTraceInitialize_single fw p d State _ _ hx h1.1 h1.2]
      exact ⟨by simp [f1], by simp [f4']⟩
    · by_cases h2 : (d.ProcessorData p).TopaSupported = true ∧
          d.ProcTraceOutputScheme = OutputSchemeToPA
      · have hy := topaStep_later_fetch fw p
          (fetch fw d.ThreadMemRegionTable p (resetStep fw p (Exec.start d))).2
          (by rw [f1]; exact hp)
        obtain ⟨g1, _, _, g4, _⟩ := fetch_frame fw
          (fetch fw d.ThreadMemRegionTable p
            (resetStep fw p (Exec.start d))).2.Data.TopaMemArray p
          (fetch fw d.ThreadMemRegionTable p (resetStep fw p (Exec.start d))).2
        rw [show (false : Bool) = d.ThreadMemRegionTable.isNone from by rw [hTable]; rfl] at hy
        rw [ProcTraceInitialize_topa_next fw p d State _ _ _ _ hx h2.1 h2.2 hy]
        refine ⟨?_, ?_⟩
        · rw [armStep_Data, topaProgram_Data]; exact g1.trans f1
        · rw [armStep_Requests, topaProgram_Requests]; exact g4.trans f4'
      · rw [ProcTraceInitialize_neither fw p d State _ _ hx h1 h2]
        exact ⟨by simp [f1], by simp [f4']⟩
  · have h : ¬ p < (resetStep fw p (Exec.start d)).Data.AllocatedThreads := by simpa using hp
    rw [ProcTraceInitialize_of_ret fw p d State _ _
      (by rw [hTable]; exact regionStep_later_skip fw p _ _ h)]
    exact ⟨by simp, by simp [Exec.start]⟩

theorem callSequence_later (calls : List (Firmware × Nat × Bool)) (d : PROC_TRACE_DATA)
    (t : PoolArray) (hTable : d.ThreadMemRegionTable = some t) : callSequence calls d = d := by
  induction calls with
  | nil => rfl
  | cons c cs ih =>
    show callSequence cs (ProcTraceInitialize c.1 c.2.1 d c.2.2).Final.Data = d
    rw [(ProcTraceInitialize_later_frame c.1 c.2.1 d c.2.2 t hTable).1]
    exact ih

theorem testBit_zero_and_BIT0 (c : Nat) : (c &&& BIT0 ≠ 0) ↔ c.testBit 0 = true := by
  rw [and_BIT0, Nat.testBit_zero]
  simp

theorem countP_resetWrites (fw : Firmware) (p : Nat) :
    (resetWrites fw p).countP (fun w => decide (w.Index = MSR_IA32_RTIT_OUTPUT_BASE)) = 0 := by
  rw [List.countP_eq_zero]
  intro w hw
  have hd : MSR_IA32_RTIT_CTL ≠ MSR_IA32_RTIT_OUTPUT_BASE ∧
      MSR_IA32_RTIT_STATUS ≠ MSR_IA32_RTIT_OUTPUT_BASE := by decide
  rcases resetWrites_index fw p w hw with h | h <;> simp [h, hd.1, hd.2]

/-- The ToPA loop in which the requests for indices below `j ≥ 1` succeed and the request
for index `j`, if the loop gets to make it, fails. -/
theorem topaLoop_run (fw : Firmware) (m n0 j : Nat) (hj : 0 < j) :
    ∀ (fuel Index : Nat) (x : Exec) (t : PoolArray),
      x.Data.AllocatedThreads = m → x.PageCalls = n0 + Index → Index ≤ j → j ≤ m →
      m ≤ Index + fuel → x.Data.TopaMemArray = some t → j ≤ t.Cells.length →
      (∀ i, Index ≤ i → i < j →
        pageAddr fw (n0 + i) (EFI_SIZE_TO_PAGES SIZEOF_PROC_TRACE_TOPA_TABLE) 0x1000 ≠ 0) →
      (j < m →
        pageAddr fw (n0 + j) (EFI_SIZE_TO_PAGES SIZEOF_PROC_TRACE_TOPA_TABLE) 0x1000 = 0) →
      (topaLoop fw fuel Index x).1 = false ∧
      (topaLoop fw fuel Index x).2.Data.AllocatedThreads = j ∧
      (topaLoop fw fuel Index x).2.PageCalls = n0 + (if j < m then j + 1 else j) ∧
      (topaLoop fw fuel Index x).2.Requests = x.Requests ++
        List.replicate ((if j < m then j + 1 else j) - Index)
          (AllocRequest.pages (EFI_SIZE_TO_PAGES SIZEOF_PROC_TRACE_TOPA_TABLE) 0x1000) ∧
      ∃ t', (topaLoop fw fuel Index x).2.Data.TopaMemArray = some t' ∧
        t'.Freed = t.Freed ∧ t'.Cells.length = t.Cells.length ∧
        ∀ i, t'.Cells.getD i none =
          if Index ≤ i ∧ i < j then
            some (pageAddr fw (n0 + i) (EFI_SIZE_TO_PAGES SIZEOF_PROC_TRACE_TOPA_TABLE) 0x1000)
          else t.Cells.getD i none := by
  intro fuel
  induction fuel with
  | zero =>
    intro Index x t hm hP hIj hjm hfuel ht hlen hok hfail
    have hjI : j = Index := by omega
    have hmj : ¬ j < m := by omega
    subst hjI
    simp only [topaLoop, if_neg hmj, Nat.sub_self, List.replicate_zero, List.append_nil,
      true_and]
    refine ⟨by omega, hP, t, ht, rfl, rfl, ?_⟩
    intro i
    have : ¬ (j ≤ i ∧ i < j) := by omega
    simp [this]
  | succ n ih =>
    intro Index x t hm hP hIj hjm hfuel ht hlen hok hfail
    unfold topaLoop
    dsimp only
    have ha : (AllocateAlignedReservedPages fw
        (EFI_SIZE_TO_PAGES SIZEOF_PROC_TRACE_TOPA_TABLE) 0x1000 x).1 =
        pageAddr fw (n0 + Index) (EFI_SIZE_TO_PAGES SIZEOF_PROC_TRACE_TOPA_TABLE) 0x1000 := by
      simp [AllocateAlignedReservedPages, pageAddr, hP]
    by_cases hIN : Index < x.Data.AllocatedThreads
    · rw [if_pos hIN]
      by_cases hlt : Index < j
      · have hne := hok Index (Nat.le_refl _) hlt
        rw [ha, if_neg hne]
        have hI := ih (Index + 1)
          (topaNext Index
            (pageAddr fw (n0 + Index) (EFI_SIZE_TO_PAGES SIZEOF_PROC_TRACE_TOPA_TABLE) 0x1000)
            (AllocateAlignedReservedPages fw
              (EFI_SIZE_TO_PAGES SIZEOF_PROC_TRACE_TOPA_TABLE) 0x1000 x).2)
          (t.store Index
            (pageAddr fw (n0 + Index) (EFI_SIZE_TO_PAGES SIZEOF_PROC_TRACE_TOPA_TABLE) 0x1000))
          (by simpa [topaNext, AllocateAlignedReservedPages] using hm)
          (by simp [topaNext, AllocateAlignedReservedPages, hP]; omega)
          (by omega) hjm (by omega)
          (by simp [topaNext, AllocateAlignedReservedPages, ht])
          (by simpa [PoolArray.store] using hlen)
          (fun i h1 h2 => hok i (by omega) h2) hfail
        obtain ⟨h1, h2, h3, h4, t', h5, h6, h7, h8⟩ := hI
        refine ⟨h1, h2, h3, ?_, t', h5, ?_, ?_, ?_⟩
        · rw [h4]
          simp only [topaNext, AllocateAlignedReservedPages, List.append_assoc]
          congr 1
          have : (if j < m then j + 1 else j) - Index =
              ((if j < m then j + 1 else j) - (Index + 1)) + 1 := by split <;> omega
          rw [this, List.replicate_succ]
          simp
        · rw [h6]; rfl
        · rw [h7]; simp [PoolArray.store]
        · intro i
          rw [h8 i, store_getD t Index _ i (by omega)]
          by_cases hiI : i = Index
          · subst hiI
            have : ¬ (i + 1 ≤ i ∧ i < j) := by omega
            simp [this, hlt]
          · by_cases hc : Index + 1 ≤ i ∧ i < j
            · have : Index ≤ i ∧ i < j := by omega
              simp [hc, this]
            · have : ¬ (Index ≤ i ∧ i < j) := by omega
              simp [hc, this, hiI]
      · have hjI : j = Index := by omega
        subst hjI
        have hjm' : j < m := by omega
        have h0 : ¬ j = 0 := by omega
        rw [ha, if_pos (hfail hjm'), if_neg h0]
        have hT : j < (AllocateAlignedReservedPages fw
            (EFI_SIZE_TO_PAGES SIZEOF_PROC_TRACE_TOPA_TABLE) 0x1000 x).2.Data.AllocatedThreads := by
          simpa [AllocateAlignedReservedPages] using hIN
        simp only [topaTruncate, if_pos hT, if_pos hjm']
        refine ⟨trivial, trivial, ?_, ?_, t, ?_, rfl, rfl, ?_⟩
        · simp [AllocateAlignedReservedPages, hP]; omega
        · have : j + 1 - j = 1 := by omega
          rw [this]
          rfl
        · simpa [AllocateAlignedReservedPages] using ht
        · intro i
          have : ¬ (j ≤ i ∧ i < j) := by omega
          simp [this]
    · rw [if_neg hIN]
      have hjI : j = Index := by omega
      have hmj : ¬ j < m := by omega
      subst hjI
      simp only [if_neg hmj, Nat.sub_self, List.replicate_zero, List.append_nil, true_and]
      refine ⟨by omega, hP, t, ht, rfl, rfl, ?_⟩
      intro i
      have : ¬ (j ≤ i ∧ i < j) := by omega
      simp [this]

/-- The ToPA pass of a first invocation in which the page requests for indices below
`j ≥ 1` succeed and the request for index `j`, if `j < m`, fails. -/
theorem topaStep_first_run_to (fw : Firmware) (p m j : Nat) (x : Exec) (hj : 0 < j)
    (hjm : j ≤ m) (hAT : x.Data.AllocatedThreads = m)
    (hPool : fw.Pool x.PoolCalls (m * SIZEOF_UINTN_PTR) = true)
    (hok : ∀ i, i < j →
      pageAddr fw (x.PageCalls + i) (EFI_SIZE_TO_PAGES SIZEOF_PROC_TRACE_TOPA_TABLE) 0x1000 ≠ 0)
    (hfail : j < m →
      pageAddr fw (x.PageCalls + j) (EFI_SIZE_TO_PAGES SIZEOF_PROC_TRACE_TOPA_TABLE) 0x1000 = 0) :
    ∃ z, topaStep fw p true x = Step.next
        (pageAddr fw x.PageCalls (EFI_SIZE_TO_PAGES SIZEOF_PROC_TRACE_TOPA_TABLE) 0x1000) z ∧
      z.Data.AllocatedThreads = j ∧
      z.Requests = x.Requests ++ [AllocRequest.pool (m * SIZEOF_UINTN_PTR)] ++
        List.replicate (if j < m then j + 1 else j)
          (AllocRequest.pages (EFI_SIZE_TO_PAGES SIZEOF_PROC_TRACE_TOPA_TABLE) 0x1000) ∧
      ∀ i, PoolArray.read z.Data.TopaMemArray i =
        if i < j then
          some (pageAddr fw (x.PageCalls + i)
            (EFI_SIZE_TO_PAGES SIZEOF_PROC_TRACE_TOPA_TABLE) 0x1000)
        else none := by
  subst hAT
  obtain ⟨h1, h2, h3, h4, t', h5, h6, h7, h8⟩ := topaLoop_run fw x.Data.AllocatedThreads
    x.PageCalls j hj x.Data.AllocatedThreads 0
    (topaPublish (x.Data.AllocatedThreads * SIZEOF_UINTN_PTR)
      (AllocatePool fw (x.Data.AllocatedThreads * SIZEOF_UINTN_PTR) x).2)
    (PoolArray.fresh (x.Data.AllocatedThreads * SIZEOF_UINTN_PTR))
    rfl rfl (Nat.zero_le _) hjm (by omega) rfl
    (by rw [fresh_length]; exact hjm)
    (fun i _ hi => hok i hi) hfail
  have hread : ∀ i, PoolArray.read
      (topaLoop fw x.Data.AllocatedThreads 0
        (topaPublish (x.Data.AllocatedThreads * SIZEOF_UINTN_PTR)
          (AllocatePool fw (x.Data.AllocatedThreads * SIZEOF_UINTN_PTR) x).2)).2.Data.TopaMemArray
      i = if i < j then
          some (pageAddr fw (x.PageCalls + i)
            (EFI_SIZE_TO_PAGES SIZEOF_PROC_TRACE_TOPA_TABLE) 0x1000)
        else none := by
    intro i
    rw [h5]
    have hF : t'.Freed = false := by rw [h6]; rfl
    have hi := h8 i
    rw [fresh_getD] at hi
    simp only [Nat.zero_le, true_and] at hi
    simp only [PoolArray.read, hF, Bool.false_eq_true, if_false]
    exact hi
  have hr0 := hread 0
  rw [if_pos hj, Nat.add_zero] at hr0
  obtain ⟨f1, _, _, f4, _⟩ := fetch_frame fw
    (topaLoop fw x.Data.AllocatedThreads 0
      (topaPublish (x.Data.AllocatedThreads * SIZEOF_UINTN_PTR)
        (AllocatePool fw (x.Data.AllocatedThreads * SIZEOF_UINTN_PTR) x).2)).2.Data.TopaMemArray 0
    (topaLoop fw x.Data.AllocatedThreads 0
      (topaPublish (x.Data.AllocatedThreads * SIZEOF_UINTN_PTR)
        (AllocatePool fw (x.Data.AllocatedThreads * SIZEOF_UINTN_PTR) x).2)).2
  refine ⟨_, ?_, h2, ?_, hread⟩
  · rw [topaStep_first_unfold fw p x hPool, h1, if_neg (by decide),
      fetch_of_read fw _ 0 _ _ hr0]
  · rw [h4]; simp [topaPublish, AllocatePool]

/-- The ToPA pass of a first invocation whose very first page request fails. -/
theorem topaStep_first_fail (fw : Firmware) (p : Nat) (x : Exec)
    (hA : 0 < x.Data.AllocatedThreads)
    (hPool : fw.Pool x.PoolCalls (x.Data.AllocatedThreads * SIZEOF_UINTN_PTR) = true)
    (hfail : pageAddr fw x.PageCalls
      (EFI_SIZE_TO_PAGES SIZEOF_PROC_TRACE_TOPA_TABLE) 0x1000 = 0) :
    ∃ z, topaStep fw p true x = Step.ret RETURN_STATUS.RETURN_OUT_OF_RESOURCES z ∧
      z.Requests = x.Requests ++
        [AllocRequest.pool (x.Data.AllocatedThreads * SIZEOF_UINTN_PTR)] ++
        [AllocRequest.pages (EFI_SIZE_TO_PAGES SIZEOF_PROC_TRACE_TOPA_TABLE) 0x1000] := by
  obtain ⟨n, hn⟩ : ∃ n, x.Data.AllocatedThreads = n + 1 :=
    ⟨x.Data.AllocatedThreads - 1, by omega⟩
  have hl : topaLoop fw x.Data.AllocatedThreads 0
      (topaPublish (x.Data.AllocatedThreads * SIZEOF_UINTN_PTR)
        (AllocatePool fw (x.Data.AllocatedThreads * SIZEOF_UINTN_PTR) x).2) =
      (true, topaFree (topaTruncate 0 (AllocateAlignedReservedPages fw
        (EFI_SIZE_TO_PAGES SIZEOF_PROC_TRACE_TOPA_TABLE) 0x1000
        (topaPublish (x.Data.AllocatedThreads * SIZEOF_UINTN_PTR)
          (AllocatePool fw (x.Data.AllocatedThreads * SIZEOF_UINTN_PTR) x).2)).2)) := by
    have hA' : 0 < (topaPublish (x.Data.AllocatedThreads * SIZEOF_UINTN_PTR)
        (AllocatePool fw (x.Data.AllocatedThreads * SIZEOF_UINTN_PTR) x).2).Data.AllocatedThreads :=
      hA
    have hf' : (AllocateAlignedReservedPages fw
        (EFI_SIZE_TO_PAGES SIZEOF_PROC_TRACE_TOPA_TABLE) 0x1000
        (topaPublish (x.Data.AllocatedThreads * SIZEOF_UINTN_PTR)
          (AllocatePool fw (x.Data.AllocatedThreads * SIZEOF_UINTN_PTR) x).2)).1 = 0 := hfail
    conv => lhs; arg 2; rw [hn]
    unfold topaLoop
    dsimp only
    rw [if_pos hA', if_pos hf', if_pos rfl]
  have h1 : (topaLoop fw x.Data.AllocatedThreads 0
      (topaPublish (x.Data.AllocatedThreads * SIZEOF_UINTN_PTR)
        (AllocatePool fw (x.Data.AllocatedThreads * SIZEOF_UINTN_PTR) x).2)).1 = true := by
    rw [hl]
  refine ⟨(topaLoop fw x.Data.AllocatedThreads 0
      (topaPublish (x.Data.AllocatedThreads * SIZEOF_UINTN_PTR)
        (AllocatePool fw (x.Data.AllocatedThreads * SIZEOF_UINTN_PTR) x).2)).2, ?_, ?_⟩
  · rw [topaStep_first_unfold fw p x hPool, if_pos h1]
  · rw [hl]
    simp only [topaFree, topaTruncate, AllocateAlignedReservedPages, topaPublish, AllocatePool]
    split <;> simp

theorem EFI_SIZE_TO_PAGES_region (sc : Nat) : EFI_SIZE_TO_PAGES (4096 <<< sc) = 2 ^ sc := by
  unfold EFI_SIZE_TO_PAGES
  have h1 : 4096 <<< sc = 2 ^ sc * 2 ^ 12 := by
    rw [Nat.shiftLeft_eq, Nat.mul_comm]
    rfl
  have h2 : (4096 <<< sc) >>> 12 = 2 ^ sc := by
    rw [Nat.shiftRight_eq_div_pow, h1, Nat.mul_div_cancel _ (by decide)]
  have h3 : (4096 <<< sc) &&& 0xFFF = 0 := by
    have : (0xFFF : Nat) = 2 ^ 12 - 1 := by decide
    rw [this, Nat.and_pow_two_sub_one_eq_mod, h1, Nat.mul_mod_left]
  rw [h2, h3]
  simp

/-- Every request of the region loop is for the same number of pages and alignment. -/
theorem regionLoop_requests (fw : Firmware) (S : Nat) :
    ∀ (fuel Index : Nat) (x : Exec), ∃ n, (regionLoop fw S fuel Index x).2.Requests =
      x.Requests ++ List.replicate n (AllocRequest.pages (EFI_SIZE_TO_PAGES S) S) := by
  intro fuel
  induction fuel with
  | zero => intro Index x; exact ⟨0, by simp [regionLoop]⟩
  | succ n ih =>
    intro Index x
    unfold regionLoop
    dsimp only
    split
    · split
      · split
        · exact ⟨1, by simp [regionFree, AllocateAlignedReservedPages]⟩
        · exact ⟨1, by simp [AllocateAlignedReservedPages]⟩
      · obtain ⟨k, hk⟩ := ih (Index + 1)
          (regionNext Index (AllocateAlignedReservedPages fw (EFI_SIZE_TO_PAGES S) S x).1
            (AllocateAlignedReservedPages fw (EFI_SIZE_TO_PAGES S) S x).2)
        refine ⟨k + 1, ?_⟩
        rw [hk, List.replicate_succ]
        simp [regionNext, AllocateAlignedReservedPages]
    · exact ⟨0, by simp⟩

theorem read_map_store (t : Option PoolArray) (Index v i w : Nat)
    (h : PoolArray.read (t.map (fun a => a.store Index v)) i = some w) :
    w = v ∨ PoolArray.read t i = some w := by
  cases t with
  | none => simp [PoolArray.read] at h
  | some a =>
    simp only [Option.map_some', PoolArray.read, PoolArray.store] at h ⊢
    by_cases hF : a.Freed = true
    · simp [hF] at h
    · simp only [hF, Bool.false_eq_true, if_false] at h ⊢
      by_cases hI : Index < a.Cells.length
      · have := store_getD a Index v i hI
        simp only [PoolArray.store] at this
        rw [this] at h
        by_cases hi : i = Index
        · rw [if_pos hi] at h
          injection h with h
          exact Or.inl h.symm
        · rw [if_neg hi] at h
          exact Or.inr h
      · rw [List.set_eq_of_length_le (Nat.le_of_not_lt hI)] at h
        exact Or.inr h

theorem read_map_free (t : Option PoolArray) (i : Nat) :
    PoolArray.read (t.map PoolArray.free) i = none := by
  cases t with
  | none => rfl
  | some a => simp [PoolArray.read, PoolArray.free]

/-- The region loop stores nothing but addresses returned by its own requests: if they are
all multiples of `A`, so is every address in the table afterwards. -/
theorem regionLoop_aligned (fw : Firmware) (S A : Nat)
    (hal : ∀ k, pageAddr fw k (EFI_SIZE_TO_PAGES S) S % A = 0) :
    ∀ (fuel Index : Nat) (x : Exec),
      (∀ i v, PoolArray.read x.Data.ThreadMemRegionTable i = some v → v % A = 0) →
      ∀ i v, PoolArray.read (regionLoop fw S fuel Index x).2.Data.ThreadMemRegionTable i =
        some v → v % A = 0 := by
  intro fuel
  induction fuel with
  | zero => intro Index x hx; exact hx
  | succ n ih =>
    intro Index x hx
    unfold regionLoop
    dsimp only
    split
    · split
      · split
        · intro i v h
          simp only [regionFree] at h
          rw [read_map_free] at h
          cases h
        · exact hx
      · apply ih
        intro i v h
        simp only [regionNext] at h
        rcases read_map_store _ _ _ _ _ h with e | e
        · rw [e, AllocateAlignedReservedPages_fst]
          exact hal _
        · exact hx i v e
    · exact hx

/-- The ToPA allocation part never touches the region table. -/
theorem topaStep_region_table (fw : Firmware) (p : Nat) (FirstIn : Bool) (x : Exec) :
    (∀ s z, topaStep fw p FirstIn x = Step.ret s z →
      z.Data.ThreadMemRegionTable = x.Data.ThreadMemRegionTable) ∧
    (∀ T z, topaStep fw p FirstIn x = Step.next T z →
      z.Data.ThreadMemRegionTable = x.Data.ThreadMemRegionTable) := by
  have hl := topaLoop_frame fw
    (topaPublish (x.Data.AllocatedThreads * SIZEOF_UINTN_PTR)
      (AllocatePool fw (x.Data.AllocatedThreads * SIZEOF_UINTN_PTR) x).2).Data.AllocatedThreads
    0 (topaPublish (x.Data.AllocatedThreads * SIZEOF_UINTN_PTR)
      (AllocatePool fw (x.Data.AllocatedThreads * SIZEOF_UINTN_PTR) x).2)
  obtain ⟨_, _, _, _, _, _, _, _, g9, _, _⟩ := hl
  refine ⟨?_, ?_⟩
  · intro s z h
    unfold topaStep at h
    cases FirstIn with
    | true =>
      simp only [if_true] at h
      split at h
      · injection h with h1 h2
        subst h2
        rfl
      · split at h
        · injection h with h1 h2
          subst h2
          rw [g9]
          rfl
        · cases h
    | false =>
      simp only [Bool.false_eq_true, if_false] at h
      split at h
      · cases h
      · injection h with h1 h2
        subst h2
        rfl
  · intro T z h
    unfold topaStep at h
    cases FirstIn with
    | true =>
      simp only [if_true] at h
      split at h
      · cases h
      · split at h
        · cases h
        · injection h with h1 h2
          subst h2
          rw [(fetch_frame fw _ 0 _).1, g9]
          rfl
    | false =>
      simp only [Bool.false_eq_true, if_false] at h
      split at h
      · injection h with h1 h2
        subst h2
        rw [(fetch_frame fw _ p _).1]
      · cases h

/-- The region table a call leaves behind is the one its region part leaves behind. -/
theorem ProcTraceInitialize_region_table (fw : Firmware) (p : Nat) (d : PROC_TRACE_DATA)
    (State : Bool) :
    (ProcTraceInitialize fw p d State).Final.Data.ThreadMemRegionTable =
      (afterRegionStep fw p d).Data.ThreadMemRegionTable := by
  cases hq : regionStep fw p d.ThreadMemRegionTable.isNone (MemRegionSize d)
      (resetStep fw p (Exec.start d)) with
  | ret s y =>
    rw [ProcTraceInitialize_of_ret fw p d State s y hq]
    simp only [afterRegionStep, hq]
  | next R y =>
    have hA : afterRegionStep fw p d = y := by simp only [afterRegionStep, hq]
    rw [hA]
    by_cases h1 : (d.ProcessorData p).SingleRangeSupported = true ∧
        d.ProcTraceOutputScheme = OutputSchemeSingleRange
    · rw [ProcTraceInitialize_single fw p d State R y hq h1.1 h1.2]
      rfl
    · by_cases h2 : (d.ProcessorData p).TopaSupported = true ∧
          d.ProcTraceOutputScheme = OutputSchemeToPA
      · cases ht : topaStep fw p d.ThreadMemRegionTable.isNone y with
        | ret s z =>
          rw [ProcTraceInitialize_topa_ret fw p d State R y z s hq h2.1 h2.2 ht]
          exact (topaStep_region_table fw p _ y).1 s z ht
        | next T z =>
          rw [ProcTraceInitialize_topa_next fw p d State R T y z hq h2.1 h2.2 ht]
          exact (topaStep_region_table fw p _ y).2 T z ht
      · rw [ProcTraceInitialize_neither fw p d State R y hq h1 h2]
        rfl

/-- The region part of a first invocation: its requests, and the alignment of what it
stores. -/
theorem afterRegionStep_first (fw : Firmware) (p : Nat) (d : PROC_TRACE_DATA) (A : Nat)
    (hTable : d.ThreadMemRegionTable = none)
    (hal : ∀ k, pageAddr fw k (EFI_SIZE_TO_PAGES (MemRegionSize d)) (MemRegionSize d) % A = 0) :
    (∃ n, (afterRegionStep fw p d).Requests =
      AllocRequest.pool (d.NumberOfProcessors * SIZEOF_UINTN_PTR) ::
        List.replicate n
          (AllocRequest.pages (EFI_SIZE_TO_PAGES (MemRegionSize d)) (MemRegionSize d))) ∧
    ∀ i v, PoolArray.read (afterRegionStep fw p d).Data.ThreadMemRegionTable i = some v →
      v % A = 0 := by
  have hD : (resetStep fw p (Exec.start d)).Data = d := by simp
  have hR : (resetStep fw p (Exec.start d)).Requests = [] := by simp [Exec.start]
  obtain ⟨n, hn⟩ := regionLoop_requests fw (MemRegionSize d) d.NumberOfProcessors 0
    (regionPublish (d.NumberOfProcessors * SIZEOF_UINTN_PTR)
      (AllocatePool fw (d.NumberOfProcessors * SIZEOF_UINTN_PTR)
        (resetStep fw p (Exec.start d))).2)
  have hn' : (regionLoop fw (MemRegionSize d) d.NumberOfProcessors 0
      (regionPublish (d.NumberOfProcessors * SIZEOF_UINTN_PTR)
        (AllocatePool fw (d.NumberOfProcessors * SIZEOF_UINTN_PTR)
          (resetStep fw p (Exec.start d))).2)).2.Requests =
      AllocRequest.pool (d.NumberOfProcessors * SIZEOF_UINTN_PTR) ::
        List.replicate n
          (AllocRequest.pages (EFI_SIZE_TO_PAGES (MemRegionSize d)) (MemRegionSize d)) := by
    rw [hn]
    simp [regionPublish, AllocatePool, Exec.start]
  have ha := regionLoop_aligned fw (MemRegionSize d) A hal d.NumberOfProcessors 0
    (regionPublish (d.NumberOfProcessors * SIZEOF_UINTN_PTR)
      (AllocatePool fw (d.NumberOfProcessors * SIZEOF_UINTN_PTR)
        (resetStep fw p (Exec.start d))).2)
    (by
      intro i v h
      simp [regionPublish, PoolArray.read, PoolArray.fresh] at h)
  have hN : (regionPublish (d.NumberOfProcessors * SIZEOF_UINTN_PTR)
      (AllocatePool fw (d.NumberOfProcessors * SIZEOF_UINTN_PTR)
        (resetStep fw p (Exec.start d))).2).Data.NumberOfProcessors = d.NumberOfProcessors := by
    simp [regionPublish, AllocatePool]
  unfold afterRegionStep regionStep
  rw [hTable, hD]
  simp only [Option.isNone_none, if_true, hN]
  split
  · rename_i s y hq
    split at hq
    · injection hq with h1 h2
      subst h2
      refine ⟨⟨0, by simp [AllocatePool, Exec.start]⟩, ?_⟩
      intro i v h
      simp [AllocatePool, hD, hTable, PoolArray.read] at h
    · split at hq
      · injection hq with h1 h2
        subst h2
        exact ⟨⟨n, hn'⟩, ha⟩
      · cases hq
  · rename_i R y hq
    split at hq
    · cases hq
    · split at hq
      · cases hq
      · injection hq with h1 h2
        subst h2
        obtain ⟨f1, _, _, f4, _⟩ := fetch_frame fw
          (regionLoop fw (MemRegionSize d) d.NumberOfProcessors 0
            (regionPublish (d.NumberOfProcessors * SIZEOF_UINTN_PTR)
              (AllocatePool fw (d.NumberOfProcessors * SIZEOF_UINTN_PTR)
                (resetStep fw p (Exec.start d))).2)).2.Data.ThreadMemRegionTable 0
          (regionLoop fw (MemRegionSize d) d.NumberOfProcessors 0
            (regionPublish (d.NumberOfProcessors * SIZEOF_UINTN_PTR)
              (AllocatePool fw (d.NumberOfProcessors * SIZEOF_UINTN_PTR)
                (resetStep fw p (Exec.start d))).2)).2
        rw [f1, f4]
        exact ⟨⟨n, hn'⟩, ha⟩

theorem demoFirmware_aligned (ctl okPages k P : Nat) :
    pageAddr (demoFirmware ctl okPages) k P 4096 % 4096 = 0 := by
  show (if k < okPages then 0x10000000 * (k + 1) else 0) % 2 ^ 64 % 4096 = 0
  split <;> omega

/-! ## Reads that find no entry -/

/-- A read records an invalid access exactly when it finds no entry. -/
theorem fetch_InvalidRead (fw : Firmware) (t : Option PoolArray) (i : Nat) (x : Exec) :
    (fetch fw t i x).2.InvalidRead = true ↔
      (x.InvalidRead = true ∨ PoolArray.read t i = none) := by
  unfold fetch
  split
  · rename_i v h
    simp [h]
  · rename_i h
    simp [h]

/-- The value obtained by a read that finds no entry. -/
theorem fetchValue_of_none (fw : Firmware) (t : Option PoolArray) (i : Nat)
    (h : PoolArray.read t i = none) : fetchValue fw t i = fw.Wild i % 2 ^ 64 := by
  simp [fetchValue, h]

/-- The state after the region lookup of a call that is not the first invocation and whose
`ProcessorNumber` is below `AllocatedThreads`. -/
theorem regionStep_later_state (fw : Firmware) (p : Nat) (d : PROC_TRACE_DATA) (t : PoolArray)
    (hTable : d.ThreadMemRegionTable = some t) (hp : p < d.AllocatedThreads) :
    regionStep fw p d.ThreadMemRegionTable.isNone (MemRegionSize d)
        (resetStep fw p (Exec.start d)) =
      Step.next (fetchValue fw d.ThreadMemRegionTable p)
        (fetch fw d.ThreadMemRegionTable p (resetStep fw p (Exec.start d))).2 ∧
    (fetch fw d.ThreadMemRegionTable p (resetStep fw p (Exec.start d))).2.Data = d ∧
    ((fetch fw d.ThreadMemRegionTable p (resetStep fw p (Exec.start d))).2.InvalidRead = true ↔
      PoolArray.read d.ThreadMemRegionTable p = none) := by
  refine ⟨?_, ?_, ?_⟩
  · have := regionStep_later_fetch fw p (MemRegionSize d) (resetStep fw p (Exec.start d))
      (by simpa using hp)
    rw [fetch_fst] at this
    rw [hTable]
    simpa [hTable] using this
  · rw [(fetch_frame fw _ _ _).1, resetStep_Data, Exec.start_Data]
  · rw [fetch_InvalidRead, resetStep_InvalidRead]
    simp [Exec.start]

/-- A call that is not the first invocation reads through a missing table entry exactly when
its `ProcessorNumber` is below `AllocatedThreads` and either `ThreadMemRegionTable` has no
entry for it, or it takes the ToPA block and `TopaMemArray` has no entry for it. -/
theorem ProcTraceInitialize_later_InvalidRead (fw : Firmware) (p : Nat) (d : PROC_TRACE_DATA)
    (State : Bool) (t : PoolArray) (hTable : d.ThreadMemRegionTable = some t) :
    (ProcTraceInitialize fw p d State).Final.InvalidRead = true ↔
      p < d.AllocatedThreads ∧
      (PoolArray.read d.ThreadMemRegionTable p = none ∨
       (((d.ProcessorData p).TopaSupported = true ∧
          d.ProcTraceOutputScheme = OutputSchemeToPA) ∧
        PoolArray.read d.TopaMemArray p = none)) := by
  by_cases hp : p < d.AllocatedThreads
  · obtain ⟨hx, f1, fI⟩ := regionStep_later_state fw p d t hTable hp
    by_cases h1 : (d.ProcessorData p).SingleRangeSupported = true ∧
        d.ProcTraceOutputScheme = OutputSchemeSingleRange
    · have h2 : ¬ ((d.ProcessorData p).TopaSupported = true ∧
          d.ProcTraceOutputScheme = OutputSchemeToPA) := by
        intro h; rw [h1.2] at h; exact absurd h.2 (by decide)
      rw [ProcTraceInitialize_single fw p d State _ _ hx h1.1 h1.2]
      show (armStep fw p State (singleRangeStep fw p (MemRegionSize d) _ _)).InvalidRead = true ↔ _
      rw [armStep_InvalidRead, singleRangeStep_InvalidRead, fI]
      constructor
      · intro h; exact ⟨hp, Or.inl h⟩
      · rintro ⟨_, h | h⟩
        · exact h
        · exact absurd h.1 h2
    · by_cases h2 : (d.ProcessorData p).TopaSupported = true ∧
          d.ProcTraceOutputScheme = OutputSchemeToPA
      · have hy := topaStep_later_fetch fw p
          (fetch fw d.ThreadMemRegionTable p (resetStep fw p (Exec.start d))).2
          (by rw [f1]; exact hp)
        rw [show (false : Bool) = d.ThreadMemRegionTable.isNone from by rw [hTable]; rfl] at hy
        rw [ProcTraceInitialize_topa_next fw p d State _ _ _ _ hx h2.1 h2.2 hy]
        show (armStep fw p State (topaProgram fw p _ _ _)).InvalidRead = true ↔ _
        rw [armStep_InvalidRead, topaProgram_InvalidRead, fetch_InvalidRead, fI, f1]
        constructor
        · rintro (h | h)
          · exact ⟨hp, Or.inl h⟩
          · exact ⟨hp, Or.inr ⟨h2, h⟩⟩
        · rintro ⟨_, h | h⟩
          · exact Or.inl h
          · exact Or.inr h.2
      · rw [ProcTraceInitialize_neither fw p d State _ _ hx h1 h2]
        show (armStep fw p State _).InvalidRead = true ↔ _
        rw [armStep_InvalidRead, fI]
        constructor
        · intro h; exact ⟨hp, Or.inl h⟩
        · rintro ⟨_, h | h⟩
          · exact h
          · exact absurd h.1 h2
  · have h : ¬ p < (resetStep fw p (Exec.start d)).Data.AllocatedThreads := by simpa using hp
    rw [ProcTraceInitialize_of_ret fw p d State _ _
      (by rw [hTable]; exact regionStep_later_skip fw p _ _ h)]
    show (resetStep fw p (Exec.start d)).InvalidRead = true ↔ _
    rw [resetStep_InvalidRead]
    constructor
    · intro h; cases h
    · intro h; exact absurd h.1 hp

/-- A call that is not the first invocation, takes the ToPA block and finds no entry for its
`ProcessorNumber` in `TopaMemArray` stores the two table entries at the word it read instead,
an unconstrained value. -/
theorem ProcTraceInitialize_later_topa_missing (fw : Firmware) (p : Nat)
    (d : PROC_TRACE_DATA) (State : Bool) (t : PoolArray)
    (hTable : d.ThreadMemRegionTable = some t) (hp : p < d.AllocatedThreads)
    (hcap : (d.ProcessorData p).TopaSupported = true)
    (hsch : d.ProcTraceOutputScheme = OutputSchemeToPA)
    (hT : PoolArray.read d.TopaMemArray p = none) :
    (ProcTraceInitialize fw p d State).Final.TopaTable = some (fw.Wild p % 2 ^ 64,
      ⟨TopaEntry0 (fetchValue fw d.ThreadMemRegionTable p) d.ProcTraceMemSize,
       TopaEntry1 (fw.Wild p % 2 ^ 64)⟩) := by
  obtain ⟨hx, f1, -⟩ := regionStep_later_state fw p d t hTable hp
  have hy := topaStep_later_fetch fw p
    (fetch fw d.ThreadMemRegionTable p (resetStep fw p (Exec.start d))).2
    (by rw [f1]; exact hp)
  rw [show (false : Bool) = d.ThreadMemRegionTable.isNone from by rw [hTable]; rfl] at hy
  rw [ProcTraceInitialize_topa_next fw p d State _ _ _ _ hx hcap hsch hy]
  show (armStep fw p State (topaProgram fw p _ _ _)).TopaTable = _
  rw [armStep_TopaTable, topaProgram_TopaTable, fetch_fst, f1, (fetch_frame fw _ _ _).1, f1,
    fetchValue_of_none fw _ _ hT]

theorem read_map_store_ne (t : Option PoolArray) (Index v i : Nat) (h : i ≠ Index) :
    PoolArray.read (t.map (fun a => a.store Index v)) i = PoolArray.read t i := by
  cases t with
  | none => rfl
  | some a =>
    simp only [Option.map_some', PoolArray.read, PoolArray.store]
    by_cases hF : a.Freed = true
    · simp [hF]
    · simp only [hF, Bool.false_eq_true, if_false]
      by_cases hI : Index < a.Cells.length
      · have := store_getD a Index v i hI
        simp only [PoolArray.store] at this
        rw [this, if_neg h]
      · rw [List.set_eq_of_length_le (Nat.le_of_not_lt hI)]

theorem read_store_self (a : PoolArray) (Index v : Nat) (hF : a.Freed = false)
    (hI : Index < a.Cells.length) :
    PoolArray.read (some (a.store Index v)) Index = some v := by
  have := store_getD a Index v Index hI
  simp only [PoolArray.store] at this
  simp only [PoolArray.read, PoolArray.store, hF, Bool.false_eq_true, if_false]
  rw [this, if_pos trivial]

/-- From index 1 on, the region loop leaves entry 0 of the table alone. -/
theorem regionLoop_keeps_first (fw : Firmware) (S : Nat) :
    ∀ (fuel Index : Nat) (x : Exec), 0 < Index →
      PoolArray.read (regionLoop fw S fuel Index x).2.Data.ThreadMemRegionTable 0 =
        PoolArray.read x.Data.ThreadMemRegionTable 0 := by
  intro fuel
  induction fuel with
  | zero => intro Index x _; rfl
  | succ n ih =>
    intro Index x h
    unfold regionLoop
    dsimp only
    split
    · split
      · rw [if_neg (by omega)]
        rfl
      · rw [ih _ _ (by omega)]
        exact read_map_store_ne _ _ _ _ (by omega)
    · rfl

/-- From index 1 on, the ToPA loop leaves entry 0 of the array alone. -/
theorem topaLoop_keeps_first (fw : Firmware) :
    ∀ (fuel Index : Nat) (x : Exec), 0 < Index →
      PoolArray.read (topaLoop fw fuel Index x).2.Data.TopaMemArray 0 =
        PoolArray.read x.Data.TopaMemArray 0 := by
  intro fuel
  induction fuel with
  | zero => intro Index x _; rfl
  | succ n ih =>
    intro Index x h
    unfold topaLoop
    dsimp only
    split
    · split
      · rw [if_neg (by omega)]
        unfold topaTruncate
        split <;> rfl
      · rw [ih _ _ (by omega)]
        exact read_map_store_ne _ _ _ _ (by omega)
    · rfl

/-- When the region loop does not return from the function, entry 0 of the table holds the
address obtained by its first request. -/
theorem regionLoop_first_stored (fw : Firmware) (S fuel : Nat) (x : Exec) (t : PoolArray)
    (hf : 0 < fuel) (hN : 0 < x.Data.NumberOfProcessors)
    (ht : x.Data.ThreadMemRegionTable = some t) (hF : t.Freed = false)
    (hlen : 0 < t.Cells.length) (hl : (regionLoop fw S fuel 0 x).1 = false) :
    PoolArray.read (regionLoop fw S fuel 0 x).2.Data.ThreadMemRegionTable 0 =
      some (pageAddr fw x.PageCalls (EFI_SIZE_TO_PAGES S) S) := by
  obtain ⟨n, rfl⟩ : ∃ n, fuel = n + 1 := ⟨fuel - 1, by omega⟩
  unfold regionLoop at hl ⊢
  dsimp only at hl ⊢
  rw [if_pos hN] at hl ⊢
  by_cases h0 : (AllocateAlignedReservedPages fw (EFI_SIZE_TO_PAGES S) S x).1 = 0
  · rw [if_pos h0, if_pos rfl] at hl
    cases hl
  · rw [if_neg h0]
    rw [regionLoop_keeps_first fw S n 1 _ (by decide)]
    simp only [regionNext, AllocateAlignedReservedPages, ht, Option.map_some']
    exact read_store_self t 0 _ hF hlen

/-- When the ToPA loop does not return from the function, entry 0 of the array holds the
address obtained by its first request. -/
theorem topaLoop_first_stored (fw : Firmware) (fuel : Nat) (x : Exec) (t : PoolArray)
    (hf : 0 < fuel) (hA : 0 < x.Data.AllocatedThreads)
    (ht : x.Data.TopaMemArray = some t) (hF : t.Freed = false)
    (hlen : 0 < t.Cells.length) (hl : (topaLoop fw fuel 0 x).1 = false) :
    PoolArray.read (topaLoop fw fuel 0 x).2.Data.TopaMemArray 0 =
      some (pageAddr fw x.PageCalls (EFI_SIZE_TO_PAGES SIZEOF_PROC_TRACE_TOPA_TABLE) 0x1000) := by
  obtain ⟨n, rfl⟩ : ∃ n, fuel = n + 1 := ⟨fuel - 1, by omega⟩
  unfold topaLoop at hl ⊢
  dsimp only at hl ⊢
  rw [if_pos hA] at hl ⊢
  by_cases h0 : (AllocateAlignedReservedPages fw
      (EFI_SIZE_TO_PAGES SIZEOF_PROC_TRACE_TOPA_TABLE) 0x1000 x).1 = 0
  · rw [if_pos h0, if_pos rfl] at hl
    cases hl
  · rw [if_neg h0]
    rw [topaLoop_keeps_first fw n 1 _ (by decide)]
    simp only [topaNext, AllocateAlignedReservedPages, ht, Option.map_some']
    exact read_store_self t 0 _ hF hlen

/-- The region part of a first invocation on a platform with at least one processor reads no
missing entry. -/
theorem regionStep_first_valid (fw : Firmware) (p S : Nat) (x : Exec)
    (hN : 0 < x.Data.NumberOfProcessors) :
    (∀ s y, regionStep fw p true S x = Step.ret s y → y.InvalidRead = x.InvalidRead) ∧
    (∀ R y, regionStep fw p true S x = Step.next R y → y.InvalidRead = x.InvalidRead) := by
  by_cases hP : fw.Pool x.PoolCalls (x.Data.NumberOfProcessors * SIZEOF_UINTN_PTR) = true
  · obtain ⟨_, _, _, _, g5, _⟩ := regionLoop_frame fw S x.Data.NumberOfProcessors 0
      (regionPublish (x.Data.NumberOfProcessors * SIZEOF_UINTN_PTR)
        (AllocatePool fw (x.Data.NumberOfProcessors * SIZEOF_UINTN_PTR) x).2)
    have g5' : (regionLoop fw S x.Data.NumberOfProcessors 0
        (regionPublish (x.Data.NumberOfProcessors * SIZEOF_UINTN_PTR)
          (AllocatePool fw (x.Data.NumberOfProcessors * SIZEOF_UINTN_PTR) x).2)).2.InvalidRead =
        x.InvalidRead := g5
    rw [regionStep_first_unfold fw p S x hP]
    by_cases hl : (regionLoop fw S x.Data.NumberOfProcessors 0
        (regionPublish (x.Data.NumberOfProcessors * SIZEOF_UINTN_PTR)
          (AllocatePool fw (x.Data.NumberOfProcessors * SIZEOF_UINTN_PTR) x).2)).1 = true
    · rw [if_pos hl]
      refine ⟨fun s y h => ?_, fun R y h => ?_⟩
      · injection h with h1 h2
        rw [← h2]
        exact g5'
      · cases h
    · rw [if_neg hl]
      have hst := regionLoop_first_stored fw S x.Data.NumberOfProcessors
        (regionPublish (x.Data.NumberOfProcessors * SIZEOF_UINTN_PTR)
          (AllocatePool fw (x.Data.NumberOfProcessors * SIZEOF_UINTN_PTR) x).2)
        (PoolArray.fresh (x.Data.NumberOfProcessors * SIZEOF_UINTN_PTR))
        hN hN rfl rfl (by rw [fresh_length]; exact hN)
        (by
          cases h : (regionLoop fw S x.Data.NumberOfProcessors 0
            (regionPublish (x.Data.NumberOfProcessors * SIZEOF_UINTN_PTR)
              (AllocatePool fw (x.Data.NumberOfProcessors * SIZEOF_UINTN_PTR) x).2)).1
          · rfl
          · exact absurd h hl)
      rw [fetch_of_read fw _ 0 _ _ hst]
      refine ⟨fun s y h => ?_, fun R y h => ?_⟩
      · cases h
      · injection h with h1 h2
        rw [← h2]
        exact g5'
  · have hA : (AllocatePool fw (x.Data.NumberOfProcessors * SIZEOF_UINTN_PTR) x).1 = false := by
      cases h : fw.Pool x.PoolCalls (x.Data.NumberOfProcessors * SIZEOF_UINTN_PTR)
      · exact h
      · exact absurd h hP
    unfold regionStep
    simp only [if_true, hA, Bool.not_false]
    refine ⟨fun s y h => ?_, fun R y h => ?_⟩
    · injection h with h1 h2
      rw [← h2]
      rfl
    · cases h

/-- The ToPA part of a first invocation that has at least one region reads no missing
entry. -/
theorem topaStep_first_valid (fw : Firmware) (p : Nat) (x : Exec)
    (hA : 0 < x.Data.AllocatedThreads) :
    (∀ s y, topaStep fw p true x = Step.ret s y → y.InvalidRead = x.InvalidRead) ∧
    (∀ T y, topaStep fw p true x = Step.next T y → y.InvalidRead = x.InvalidRead) := by
  by_cases hP : fw.Pool x.PoolCalls (x.Data.AllocatedThreads * SIZEOF_UINTN_PTR) = true
  · obtain ⟨_, _, _, _, g5, _⟩ := topaLoop_frame fw x.Data.AllocatedThreads 0
      (topaPublish (x.Data.AllocatedThreads * SIZEOF_UINTN_PTR)
        (AllocatePool fw (x.Data.AllocatedThreads * SIZEOF_UINTN_PTR) x).2)
    have g5' : (topaLoop fw x.Data.AllocatedThreads 0
        (topaPublish (x.Data.AllocatedThreads * SIZEOF_UINTN_PTR)
          (AllocatePool fw (x.Data.AllocatedThreads * SIZEOF_UINTN_PTR) x).2)).2.InvalidRead =
        x.InvalidRead := g5
    rw [topaStep_first_unfold fw p x hP]
    by_cases hl : (topaLoop fw x.Data.AllocatedThreads 0
        (topaPublish (x.Data.AllocatedThreads * SIZEOF_UINTN_PTR)
          (AllocatePool fw (x.Data.AllocatedThreads * SIZEOF_UINTN_PTR) x).2)).1 = true
    · rw [if_pos hl]
      refine ⟨fun s y h => ?_, fun T y h => ?_⟩
      · injection h with h1 h2
        rw [← h2]
        exact g5'
      · cases h
    · rw [if_neg hl]
      have hst := topaLoop_first_stored fw x.Data.AllocatedThreads
        (topaPublish (x.Data.AllocatedThreads * SIZEOF_UINTN_PTR)
          (AllocatePool fw (x.Data.AllocatedThreads * SIZEOF_UINTN_PTR) x).2)
        (PoolArray.fresh (x.Data.AllocatedThreads * SIZEOF_UINTN_PTR))
        hA hA rfl rfl (by rw [fresh_length]; exact hA)
        (by
          cases h : (topaLoop fw x.Data.AllocatedThreads 0
            (topaPublish (x.Data.AllocatedThreads * SIZEOF_UINTN_PTR)
              (AllocatePool fw (x.Data.AllocatedThreads * SIZEOF_UINTN_PTR) x).2)).1
          · rfl
          · exact absurd h hl)
      rw [fetch_of_read fw _ 0 _ _ hst]
      refine ⟨fun s y h => ?_, fun T y h => ?_⟩
      · cases h
      · injection h with h1 h2
        rw [← h2]
        exact g5'
  · have hA' : (AllocatePool fw (x.Data.AllocatedThreads * SIZEOF_UINTN_PTR) x).1 = false := by
      cases h : fw.Pool x.PoolCalls (x.Data.AllocatedThreads * SIZEOF_UINTN_PTR)
      · exact h
      · exact absurd h hP
    unfold topaStep
    simp only [if_true, hA', Bool.not_false]
    refine ⟨fun s y h => ?_, fun T y h => ?_⟩
    · injection h with h1 h2
      rw [← h2]
      rfl
    · cases h

/-- A first invocation on a platform with at least one processor reads no missing table
entry. -/
theorem ProcTraceInitialize_first_valid (fw : Firmware) (p : Nat) (d : PROC_TRACE_DATA)
    (State : Bool) (hTable : d.ThreadMemRegionTable = none)
    (hN : 1 ≤ d.NumberOfProcessors) :
    (ProcTraceInitialize fw p d State).Final.InvalidRead = false := by
  have hiso : d.ThreadMemRegionTable.isNone = true := by rw [hTable]; rfl
  have hx0N : 0 < (resetStep fw p (Exec.start d)).Data.NumberOfProcessors := by
    rw [resetStep_Data, Exec.start_Data]; exact hN
  have hI0 : (resetStep fw p (Exec.start d)).InvalidRead = false := by
    rw [resetStep_InvalidRead]; rfl
  obtain ⟨v1, v2⟩ := regionStep_first_valid fw p (MemRegionSize d)
    (resetStep fw p (Exec.start d)) hx0N
  rw [← hiso] at v1 v2
  cases hq : regionStep fw p d.ThreadMemRegionTable.isNone (MemRegionSize d)
      (resetStep fw p (Exec.start d)) with
  | ret s y =>
    rw [ProcTraceInitialize_of_ret fw p d State s y hq]
    exact (v1 s y hq).trans hI0
  | next R y =>
    have hy : y.InvalidRead = false := (v2 R y hq).trans hI0
    by_cases h1 : (d.ProcessorData p).SingleRangeSupported = true ∧
        d.ProcTraceOutputScheme = OutputSchemeSingleRange
    · rw [ProcTraceInitialize_single fw p d State R y hq h1.1 h1.2]
      exact hy
    · by_cases h2 : (d.ProcessorData p).TopaSupported = true ∧
          d.ProcTraceOutputScheme = OutputSchemeToPA
      · have hA : 0 < y.Data.AllocatedThreads := by
          have hc := regionStep_first_cases fw p (MemRegionSize d)
            (resetStep fw p (Exec.start d)) hx0N
          rw [← hiso] at hc
          rcases hc with ⟨_, y', hy'⟩ | ⟨_, _, y', hy'⟩ | ⟨_, _, R', y', hy', hAT, _⟩
          · rw [hq] at hy'; cases hy'
          · rw [hq] at hy'; cases hy'
          · rw [hq] at hy'
            injection hy' with e1 e2
            rw [e2]
            exact hAT
        obtain ⟨w1, w2⟩ := topaStep_first_valid fw p y hA
        rw [← hiso] at w1 w2
        cases ht : topaStep fw p d.ThreadMemRegionTable.isNone y with
        | ret s z =>
          rw [ProcTraceInitialize_topa_ret fw p d State R y z s hq h2.1 h2.2 ht]
          exact (w1 s z ht).trans hy
        | next T z =>
          rw [ProcTraceInitialize_topa_next fw p d State R T y z hq h2.1 h2.2 ht]
          exact (w2 T z ht).trans hy
      · rw [ProcTraceInitialize_neither fw p d State R y hq h1 h2]
        exact hy

/-! # The claims -/

/-- C1 (the code departs from the claim). First invocation with `NumberOfProcessors ≥ 1`,
the pool allocation of the table succeeding and the aligned allocation for index 0
returning 0: for every scheme, size class, `ProcessorNumber` and `State` the call returns
`RETURN_OUT_OF_RESOURCES`, as claimed; but the `ThreadMemRegionTable` field of the
configuration is not NULL after the call, it keeps pointing to the array that was just
freed. Starting from `AllocatedThreads = 0`, every later call therefore finds the table set:
it makes no allocation request and returns `RETURN_SUCCESS`. -/
theorem ProcTraceInitialize_region0_failure_keeps_table (fw fw2 : Firmware) (p p2 : Nat)
    (d : PROC_TRACE_DATA) (State State2 : Bool)
    (hTable : d.ThreadMemRegionTable = none) (hAT : d.AllocatedThreads = 0)
    (hN : 1 ≤ d.NumberOfProcessors)
    (hPool : fw.Pool 0 (d.NumberOfProcessors * SIZEOF_UINTN_PTR) = true)
    (hFail : pageAddr fw 0 (EFI_SIZE_TO_PAGES (MemRegionSize d)) (MemRegionSize d) = 0) :
    (ProcTraceInitialize fw p d State).Status = RETURN_STATUS.RETURN_OUT_OF_RESOURCES ∧
    (ProcTraceInitialize fw p d State).Final.Data.ThreadMemRegionTable =
      some (PoolArray.free (PoolArray.fresh (d.NumberOfProcessors * SIZEOF_UINTN_PTR))) ∧
    (ProcTraceInitialize fw2 p2 (ProcTraceInitialize fw p d State).Final.Data State2).Status =
      RETURN_STATUS.RETURN_SUCCESS ∧
    (ProcTraceInitialize fw2 p2
      (ProcTraceInitialize fw p d State).Final.Data State2).Final.Requests = [] := by
  obtain ⟨n, hn⟩ : ∃ n, d.NumberOfProcessors = n + 1 := ⟨d.NumberOfProcessors - 1, by omega⟩
  unfold pageAddr at hFail
  have hA : (ProcTraceInitialize fw p d State).Final.Data.AllocatedThreads = 0 := by
    rw [hn] at hPool
    simp [ProcTraceInitialize, regionStep, hTable, AllocatePool, Exec.start, hPool, hn,
      regionLoop, AllocateAlignedReservedPages, hFail, -Nat.reducePow, regionFree,
      regionPublish, hAT]
  have hT : (ProcTraceInitialize fw p d State).Final.Data.ThreadMemRegionTable =
      some (PoolArray.free (PoolArray.fresh (d.NumberOfProcessors * SIZEOF_UINTN_PTR))) := by
    rw [hn] at hPool
    simp [ProcTraceInitialize, regionStep, hTable, AllocatePool, Exec.start, hPool, hn,
      regionLoop, AllocateAlignedReservedPages, hFail, -Nat.reducePow, regionFree,
      regionPublish]
  have hS : (ProcTraceInitialize fw p d State).Status =
      RETURN_STATUS.RETURN_OUT_OF_RESOURCES := by
    rw [hn] at hPool
    simp [ProcTraceInitialize, regionStep, hTable, AllocatePool, Exec.start, hPool, hn,
      regionLoop, AllocateAlignedReservedPages, hFail, -Nat.reducePow, regionFree,
      regionPublish]
  have hskip : regionStep fw2 p2
      (ProcTraceInitialize fw p d State).Final.Data.ThreadMemRegionTable.isNone
      (MemRegionSize (ProcTraceInitialize fw p d State).Final.Data)
      (resetStep fw2 p2 (Exec.start (ProcTraceInitialize fw p d State).Final.Data)) =
      Step.ret RETURN_STATUS.RETURN_SUCCESS
        (resetStep fw2 p2 (Exec.start (ProcTraceInitialize fw p d State).Final.Data)) := by
    rw [hT]
    exact regionStep_later_skip fw2 p2 _ _ (by simp [hA])
  rw [ProcTraceInitialize_of_ret fw2 p2 _ State2 _ _ hskip]
  exact ⟨hS, hT, rfl, by simp [Exec.start]⟩

/-- C1, at a concrete input: two processors, every page allocation failing. -/
theorem ProcTraceInitialize_region0_failure_keeps_table_witness :
    twoCpuConfig.ThreadMemRegionTable = none ∧ twoCpuConfig.AllocatedThreads = 0 ∧
    1 ≤ twoCpuConfig.NumberOfProcessors ∧
    (ProcTraceInitialize (demoFirmware 0 0) 0 twoCpuConfig true).Status =
      RETURN_STATUS.RETURN_OUT_OF_RESOURCES ∧
    (ProcTraceInitialize (demoFirmware 0 0) 0 twoCpuConfig true).Final.Data.ThreadMemRegionTable =
      some (PoolArray.free (PoolArray.fresh (twoCpuConfig.NumberOfProcessors * SIZEOF_UINTN_PTR))) ∧
    (ProcTraceInitialize (demoFirmware 0 2) 1
      (ProcTraceInitialize (demoFirmware 0 0) 0 twoCpuConfig true).Final.Data true).Status =
      RETURN_STATUS.RETURN_SUCCESS ∧
    (ProcTraceInitialize (demoFirmware 0 2) 1
      (ProcTraceInitialize (demoFirmware 0 0) 0 twoCpuConfig true).Final.Data
      true).Final.Requests = [] :=
  ⟨by decide, by decide, by decide,
    ProcTraceInitialize_region0_failure_keeps_table (demoFirmware 0 0) (demoFirmware 0 2) 0 1
      twoCpuConfig true true (by decide) (by decide) (by decide) (by decide) (by decide)⟩

/-- C2 (as stated, refuted). A reachable non-first invocation with
`ProcessorNumber ≥ AllocatedThreads` that submits register writes: two processors, one
region allocated by the first invocation, then processor 1 calls while bit 0 of
`IA32_RTIT_CTL` reads 1. The call returns `RETURN_SUCCESS` and submits the two writes of the
reset block. -/
theorem ProcTraceInitialize_beyond_allocated_counterexample :
    twoCpuOneRegion.ThreadMemRegionTable ≠ none ∧ twoCpuOneRegion.AllocatedThreads ≤ 1 ∧
    (ProcTraceInitialize (demoFirmware 1 0) 1 twoCpuOneRegion true).Status =
      RETURN_STATUS.RETURN_SUCCESS ∧
    (ProcTraceInitialize (demoFirmware 1 0) 1 twoCpuOneRegion true).Final.Writes =
      [⟨1, MSR_IA32_RTIT_CTL, 0⟩, ⟨1, MSR_IA32_RTIT_STATUS, 0⟩] ∧
    (ProcTraceInitialize (demoFirmware 1 0) 1 twoCpuOneRegion true).Final.Writes ≠ [] := by
  decide

/-- C2 (amended). Non-first invocation (`ThreadMemRegionTable` already set) with
`ProcessorNumber ≥ AllocatedThreads`: for every `State` and every value `c` returned by the
read of `IA32_RTIT_CTL`, the call returns `RETURN_SUCCESS`, makes no allocation request,
leaves the configuration unchanged, and submits no register write other than those of the
reset block: none when bit 0 of `c` is clear, and `IA32_RTIT_CTL := c` with bit 0 cleared
followed by `IA32_RTIT_STATUS := 0` when bit 0 of `c` is set. -/
theorem ProcTraceInitialize_beyond_allocated (fw : Firmware) (p : Nat) (d : PROC_TRACE_DATA)
    (State : Bool) (t : PoolArray)
    (hTable : d.ThreadMemRegionTable = some t) (hp : d.AllocatedThreads ≤ p) :
    (ProcTraceInitialize fw p d State).Status = RETURN_STATUS.RETURN_SUCCESS ∧
    (ProcTraceInitialize fw p d State).Final.Writes =
      (if msrRead fw 0 MSR_IA32_RTIT_CTL &&& BIT0 ≠ 0 then
        [⟨p, MSR_IA32_RTIT_CTL, msrRead fw 0 MSR_IA32_RTIT_CTL &&& NOT64 BIT0⟩,
         ⟨p, MSR_IA32_RTIT_STATUS, 0⟩]
      else []) ∧
    (ProcTraceInitialize fw p d State).Final.Requests = [] ∧
    (ProcTraceInitialize fw p d State).Final.Data = d := by
  have h : ¬ p < (resetStep fw p (Exec.start d)).Data.AllocatedThreads := by simp; omega
  rw [ProcTraceInitialize_of_ret fw p d State _ _
    (by rw [hTable]; exact regionStep_later_skip fw p _ _ h)]
  exact ⟨rfl, resetStep_start_Writes fw p d, by simp [Exec.start], by simp⟩

/-- C2 (amended), at a concrete input: the call of the counterexample, and the same call
with bit 0 of `IA32_RTIT_CTL` reading 0. -/
theorem ProcTraceInitialize_beyond_allocated_witness :
    (twoCpuOneRegion.ThreadMemRegionTable =
        some ⟨[some 0x10000000, none], false⟩ ∧ twoCpuOneRegion.AllocatedThreads ≤ 1) ∧
    ((ProcTraceInitialize (demoFirmware 0 0) 1 twoCpuOneRegion true).Status =
        RETURN_STATUS.RETURN_SUCCESS ∧
      (ProcTraceInitialize (demoFirmware 0 0) 1 twoCpuOneRegion true).Final.Writes =
        (if msrRead (demoFirmware 0 0) 0 MSR_IA32_RTIT_CTL &&& BIT0 ≠ 0 then
          [⟨1, MSR_IA32_RTIT_CTL, msrRead (demoFirmware 0 0) 0 MSR_IA32_RTIT_CTL &&& NOT64 BIT0⟩,
           ⟨1, MSR_IA32_RTIT_STATUS, 0⟩]
        else []) ∧
      (ProcTraceInitialize (demoFirmware 0 0) 1 twoCpuOneRegion true).Final.Requests = [] ∧
      (ProcTraceInitialize (demoFirmware 0 0) 1 twoCpuOneRegion true).Final.Data =
        twoCpuOneRegion) :=
  ⟨⟨by decide, by decide⟩,
    ProcTraceInitialize_beyond_allocated (demoFirmware 0 0) 1 twoCpuOneRegion true
      ⟨[some 0x10000000, none], false⟩ (by decide) (by decide)⟩

/-- C3. ToPA routing-table encoding (64-bit `UINTN`). In a call that enters the ToPA block
with data region `R` and routing table `T`, for every size class `sc` in 0..15, every `R`
that is a multiple of `4096 << sc` and every `T` that is a multiple of 4096, the two
entries stored at `T` are `entry0 = (R | (sc << 6))` with bit 0 cleared and
`entry1 = T | 1`, and they decode back exactly: bit 0 of `entry1` is 1 and `entry1` with
its low 12 bits cleared is `T`; bit 0 of `entry0` is 0, bits 9:6 of `entry0` are `sc`, and
`entry0` with its low 12 bits cleared is `R`. -/
theorem ProcTraceInitialize_topa_table_encoding (fw : Firmware) (p : Nat)
    (d : PROC_TRACE_DATA) (State : Bool) (R T : Nat)
    (hsc : d.ProcTraceMemSize ≤ 15)
    (hcap : (d.ProcessorData p).TopaSupported = true)
    (hsch : d.ProcTraceOutputScheme = OutputSchemeToPA)
    (hR : regionOf fw p d = some R) (hT : topaTableOf fw p d = some T)
    (hRal : R % (4096 <<< d.ProcTraceMemSize) = 0) (hR64 : R < 2 ^ 64)
    (hTal : T % 4096 = 0) :
    ∃ e0 e1, (ProcTraceInitialize fw p d State).Final.TopaTable = some (T, ⟨e0, e1⟩) ∧
      e0 = (R ||| (d.ProcTraceMemSize <<< 6)) &&& (2 ^ 64 - 2) ∧ e1 = T ||| 1 ∧
      e1.testBit 0 = true ∧ (e1 >>> 12) <<< 12 = T ∧
      e0.testBit 0 = false ∧ (e0 >>> 6) &&& 0xF = d.ProcTraceMemSize ∧
      (e0 >>> 12) <<< 12 = R := by
  obtain ⟨x, hx, hax⟩ := regionOf_next fw p d R hR
  obtain ⟨y, hy⟩ := topaTableOf_next fw p d T hT
  rw [hax] at hy
  obtain ⟨_, _, _, _, _, f6, _⟩ := regionStep_next_frame fw p _ R _ _ _ hx
  obtain ⟨_, _, g3⟩ := topaStep_next_frame fw p T _ _ _ hy
  simp only [resetStep_Data, Exec.start_Data] at f6
  have hR12 := page_aligned_of_region_aligned R _ hRal
  have h6 : d.ProcTraceMemSize <<< 6 % 2 ^ 32 = d.ProcTraceMemSize <<< 6 := by
    rw [Nat.shiftLeft_eq]; exact Nat.mod_eq_of_lt (by omega)
  refine ⟨TopaEntry0 R d.ProcTraceMemSize, TopaEntry1 T, ?_, ?_, rfl, ?_⟩
  · rw [ProcTraceInitialize_topa_next fw p d State R T x y hx hcap hsch hy]
    simp [g3, f6]
  · simp only [TopaEntry0, h6, NOT64, BIT0]
  · rw [TopaEntry0_eq R _ hsc hR12 hR64, TopaEntry1_eq T hTal]
    have h15 : (15 : Nat) = 2 ^ 4 - 1 := by decide
    simp only [Nat.testBit_zero, Nat.shiftRight_eq_div_pow, Nat.shiftLeft_eq, h15,
      Nat.and_pow_two_sub_one_eq_mod]
    refine ⟨?_, ?_, ?_, ?_, ?_⟩
    · simp; omega
    · omega
    · simp; omega
    · omega
    · omega

/-- C3, at a concrete input: four processors, size class 0, scheme ToPA, all capable, every
allocation succeeding; processor 0 makes the first invocation and processors 1, 2, 3 follow.
Each call stores the table of its own processor: `entry0` is that processor's region base
(low bits 0), `entry1` is the table base with bit 0 set. -/
theorem ProcTraceInitialize_topa_table_encoding_witness :
    (regionOf (demoFirmware 0 8) 0 fourCpuConfig = some 0x10000000 ∧
     topaTableOf (demoFirmware 0 8) 0 fourCpuConfig = some 0x50000000 ∧
     ∃ e0 e1, (ProcTraceInitialize (demoFirmware 0 8) 0 fourCpuConfig true).Final.TopaTable =
        some (0x50000000, ⟨e0, e1⟩) ∧
      e0 = (0x10000000 ||| (fourCpuConfig.ProcTraceMemSize <<< 6)) &&& (2 ^ 64 - 2) ∧ e1 = 0x50000000 ||| 1 ∧
      e1.testBit 0 = true ∧ (e1 >>> 12) <<< 12 = 0x50000000 ∧
      e0.testBit 0 = false ∧ (e0 >>> 6) &&& 0xF = fourCpuConfig.ProcTraceMemSize ∧
      (e0 >>> 12) <<< 12 = 0x10000000) ∧
    (regionOf (demoFirmware 0 8) 1 fourCpuAfterFirst = some 0x20000000 ∧
     topaTableOf (demoFirmware 0 8) 1 fourCpuAfterFirst = some 0x60000000 ∧
     ∃ e0 e1, (ProcTraceInitialize (demoFirmware 0 8) 1 fourCpuAfterFirst true).Final.TopaTable =
        some (0x60000000, ⟨e0, e1⟩) ∧
      e0 = (0x20000000 ||| (fourCpuAfterFirst.ProcTraceMemSize <<< 6)) &&& (2 ^ 64 - 2) ∧ e1 = 0x60000000 ||| 1 ∧
      e1.testBit 0 = true ∧ (e1 >>> 12) <<< 12 = 0x60000000 ∧
      e0.testBit 0 = false ∧ (e0 >>> 6) &&& 0xF = fourCpuAfterFirst.ProcTraceMemSize ∧
      (e0 >>> 12) <<< 12 = 0x20000000) ∧
    (regionOf (demoFirmware 0 8) 2 fourCpuAfterFirst = some 0x30000000 ∧
     topaTableOf (demoFirmware 0 8) 2 fourCpuAfterFirst = some 0x70000000 ∧
     ∃ e0 e1, (ProcTraceInitialize (demoFirmware 0 8) 2 fourCpuAfterFirst true).Final.TopaTable =
        some (0x70000000, ⟨e0, e1⟩) ∧
      e0 = (0x30000000 ||| (fourCpuAfterFirst.ProcTraceMemSize <<< 6)) &&& (2 ^ 64 - 2) ∧ e1 = 0x70000000 ||| 1 ∧
      e1.testBit 0 = true ∧ (e1 >>> 12) <<< 12 = 0x70000000 ∧
      e0.testBit 0 = false ∧ (e0 >>> 6) &&& 0xF = fourCpuAfterFirst.ProcTraceMemSize ∧
      (e0 >>> 12) <<< 12 = 0x30000000) ∧
    (regionOf (demoFirmware 0 8) 3 fourCpuAfterFirst = some 0x40000000 ∧
     topaTableOf (demoFirmware 0 8) 3 fourCpuAfterFirst = some 0x80000000 ∧
     ∃ e0 e1, (ProcTraceInitialize (demoFirmware 0 8) 3 fourCpuAfterFirst true).Final.TopaTable =
        some (0x80000000, ⟨e0, e1⟩) ∧
      e0 = (0x40000000 ||| (fourCpuAfterFirst.ProcTraceMemSize <<< 6)) &&& (2 ^ 64 - 2) ∧ e1 = 0x80000000 ||| 1 ∧
      e1.testBit 0 = true ∧ (e1 >>> 12) <<< 12 = 0x80000000 ∧
      e0.testBit 0 = false ∧ (e0 >>> 6) &&& 0xF = fourCpuAfterFirst.ProcTraceMemSize ∧
      (e0 >>> 12) <<< 12 = 0x40000000) :=
  ⟨⟨by decide, by decide,
      ProcTraceInitialize_topa_table_encoding (demoFirmware 0 8) 0 fourCpuConfig true
        0x10000000 0x50000000 (by decide) (by decide) (by decide) (by decide) (by decide) (by decide)
        (by decide) (by decide)⟩,
    ⟨by decide, by decide,
      ProcTraceInitialize_topa_table_encoding (demoFirmware 0 8) 1 fourCpuAfterFirst true
        0x20000000 0x60000000 (by decide) (by decide) (by decide) (by decide) (by decide) (by decide)
        (by decide) (by decide)⟩,
    ⟨by decide, by decide,
      ProcTraceInitialize_topa_table_encoding (demoFirmware 0 8) 2 fourCpuAfterFirst true
        0x30000000 0x70000000 (by decide) (by decide) (by decide) (by decide) (by decide) (by decide)
        (by decide) (by decide)⟩,
    ⟨by decide, by decide,
      ProcTraceInitialize_topa_table_encoding (demoFirmware 0 8) 3 fourCpuAfterFirst true
        0x40000000 0x80000000 (by decide) (by decide) (by decide) (by decide) (by decide) (by decide)
        (by decide) (by decide)⟩⟩

/-- C4. First invocation from the constructor state (table unset, `AllocatedThreads = 0`)
with `N = NumberOfProcessors`, the pool allocation of the table succeeding and no failure in
the ToPA pass: if the aligned region allocations for indices `0..k-1` succeed with addresses
`a_0..a_(k-1)` and, when `k < N`, the allocation for index `k` fails (`0 < k ≤ N`; `k = N`
is the case where none fails), then the call returns `RETURN_SUCCESS`,
`AllocatedThreads = k` after the call, `ThreadMemRegionTable` holds exactly `a_0..a_(k-1)`
at indices `0..k-1` and nothing beyond, and the region requests made are those for indices
`0..k` (`0..N-1` when none fails): no allocation is requested for any index above `k`. -/
theorem ProcTraceInitialize_first_regions (fw : Firmware) (p : Nat) (d : PROC_TRACE_DATA)
    (State : Bool) (k : Nat)
    (hTable : d.ThreadMemRegionTable = none) (hAT : d.AllocatedThreads = 0)
    (hPool : fw.Pool 0 (d.NumberOfProcessors * SIZEOF_UINTN_PTR) = true)
    (hk : 0 < k) (hkN : k ≤ d.NumberOfProcessors)
    (hok : ∀ j, j < k →
      pageAddr fw j (EFI_SIZE_TO_PAGES (MemRegionSize d)) (MemRegionSize d) ≠ 0)
    (hfail : k < d.NumberOfProcessors →
      pageAddr fw k (EFI_SIZE_TO_PAGES (MemRegionSize d)) (MemRegionSize d) = 0)
    (hTopa : (d.ProcessorData p).TopaSupported = true ∧
        d.ProcTraceOutputScheme = OutputSchemeToPA →
      fw.Pool 1 (k * SIZEOF_UINTN_PTR) = true ∧
      ∀ j, j < k → pageAddr fw ((if k < d.NumberOfProcessors then k + 1 else k) + j)
        (EFI_SIZE_TO_PAGES SIZEOF_PROC_TRACE_TOPA_TABLE) 0x1000 ≠ 0) :
    (ProcTraceInitialize fw p d State).Status = RETURN_STATUS.RETURN_SUCCESS ∧
    (ProcTraceInitialize fw p d State).Final.Data.AllocatedThreads = k ∧
    (∀ i, PoolArray.read (ProcTraceInitialize fw p d State).Final.Data.ThreadMemRegionTable i =
      if i < k then
        some (pageAddr fw i (EFI_SIZE_TO_PAGES (MemRegionSize d)) (MemRegionSize d))
      else none) ∧
    (ProcTraceInitialize fw p d State).Final.Requests =
      [AllocRequest.pool (d.NumberOfProcessors * SIZEOF_UINTN_PTR)] ++
      List.replicate (if k < d.NumberOfProcessors then k + 1 else k)
        (AllocRequest.pages (EFI_SIZE_TO_PAGES (MemRegionSize d)) (MemRegionSize d)) ++
      (if (d.ProcessorData p).TopaSupported = true ∧
          d.ProcTraceOutputScheme = OutputSchemeToPA then
        [AllocRequest.pool (k * SIZEOF_UINTN_PTR)] ++
        List.replicate k
          (AllocRequest.pages (EFI_SIZE_TO_PAGES SIZEOF_PROC_TRACE_TOPA_TABLE) 0x1000)
      else []) := by
  have hD : (resetStep fw p (Exec.start d)).Data = d := by simp
  obtain ⟨y, hy, -, -, -, -, y5, -, -, -, -, -, y11, y12, y13, y14⟩ :=
    regionStep_first_run fw p (MemRegionSize d) k (resetStep fw p (Exec.start d)) hk
      (by simp [Exec.start]) (by simpa [Exec.start] using hPool) (by simpa using hkN)
      hok (by simpa using hfail)
  rw [hD] at y11 y12 y13
  rw [hAT, Nat.zero_add] at y11
  have y5' : y.PoolCalls = 1 := by rw [y5]; simp [Exec.start]
  have y13' : y.Requests = [AllocRequest.pool (d.NumberOfProcessors * SIZEOF_UINTN_PTR)] ++
      List.replicate (if k < d.NumberOfProcessors then k + 1 else k)
        (AllocRequest.pages (EFI_SIZE_TO_PAGES (MemRegionSize d)) (MemRegionSize d)) := by
    rw [y13]; simp [Exec.start]
  have hx : regionStep fw p d.ThreadMemRegionTable.isNone (MemRegionSize d)
      (resetStep fw p (Exec.start d)) =
      Step.next (pageAddr fw 0 (EFI_SIZE_TO_PAGES (MemRegionSize d)) (MemRegionSize d)) y := by
    rw [hTable]; exact hy
  by_cases h1 : (d.ProcessorData p).SingleRangeSupported = true ∧
      d.ProcTraceOutputScheme = OutputSchemeSingleRange
  · have h2 : ¬ ((d.ProcessorData p).TopaSupported = true ∧
        d.ProcTraceOutputScheme = OutputSchemeToPA) := by
      intro h; rw [h1.2] at h; exact absurd h.2 (by decide)
    rw [ProcTraceInitialize_single fw p d State _ y hx h1.1 h1.2, if_neg h2]
    refine ⟨rfl, y11, y14, ?_⟩
    rw [armStep_Requests, singleRangeStep_Requests, y13', List.append_nil]
  · by_cases h2 : (d.ProcessorData p).TopaSupported = true ∧
        d.ProcTraceOutputScheme = OutputSchemeToPA
    · obtain ⟨hp1, hp2⟩ := hTopa h2
      obtain ⟨z, hz, -, -, -, -, -, -, -, z8, -, z10, z11, -⟩ :=
        topaStep_first_run fw p k y hk y11 (by rw [y5']; exact hp1)
          (by rw [y12]; exact hp2)
      have hz' := hz
      rw [show (true : Bool) = d.ThreadMemRegionTable.isNone from by rw [hTable]; rfl] at hz'
      rw [ProcTraceInitialize_topa_next fw p d State _ _ y z hx h2.1 h2.2 hz', if_pos h2]
      refine ⟨rfl, z10, ?_, ?_⟩
      · intro i
        rw [armStep_Data, topaProgram_Data, z8]
        exact y14 i
      · rw [armStep_Requests, topaProgram_Requests, z11, y13']
        simp only [List.append_assoc]
    · rw [ProcTraceInitialize_neither fw p d State _ y hx h1 h2, if_neg h2]
      refine ⟨rfl, y11, y14, ?_⟩
      rw [armStep_Requests, y13', List.append_nil]

/-- C4, at a concrete input: four processors, scheme ToPA, the region allocations for
indices 0 and 1 succeed, the one for index 2 fails, the ToPA pass succeeds: `k = 2`. -/
theorem ProcTraceInitialize_first_regions_witness :
    (fourCpuConfig.ThreadMemRegionTable = none ∧ fourCpuConfig.AllocatedThreads = 0 ∧
      2 ≤ fourCpuConfig.NumberOfProcessors) ∧
    ((ProcTraceInitialize (demoFirmwareFailAt 0 2) 0 fourCpuConfig true).Status =
        RETURN_STATUS.RETURN_SUCCESS ∧
      (ProcTraceInitialize (demoFirmwareFailAt 0 2) 0 fourCpuConfig
        true).Final.Data.AllocatedThreads = 2 ∧
      (∀ i, PoolArray.read (ProcTraceInitialize (demoFirmwareFailAt 0 2) 0 fourCpuConfig
          true).Final.Data.ThreadMemRegionTable i =
        if i < 2 then
          some (pageAddr (demoFirmwareFailAt 0 2) i
            (EFI_SIZE_TO_PAGES (MemRegionSize fourCpuConfig)) (MemRegionSize fourCpuConfig))
        else none) ∧
      (ProcTraceInitialize (demoFirmwareFailAt 0 2) 0 fourCpuConfig true).Final.Requests =
        [AllocRequest.pool (fourCpuConfig.NumberOfProcessors * SIZEOF_UINTN_PTR)] ++
        List.replicate (if 2 < fourCpuConfig.NumberOfProcessors then 2 + 1 else 2)
          (AllocRequest.pages (EFI_SIZE_TO_PAGES (MemRegionSize fourCpuConfig))
            (MemRegionSize fourCpuConfig)) ++
        (if (fourCpuConfig.ProcessorData 0).TopaSupported = true ∧
            fourCpuConfig.ProcTraceOutputScheme = OutputSchemeToPA then
          [AllocRequest.pool (2 * SIZEOF_UINTN_PTR)] ++
          List.replicate 2
            (AllocRequest.pages (EFI_SIZE_TO_PAGES SIZEOF_PROC_TRACE_TOPA_TABLE) 0x1000)
        else [])) :=
  ⟨⟨by decide, by decide, by decide⟩,
    ProcTraceInitialize_first_regions (demoFirmwareFailAt 0 2) 0 fourCpuConfig true 2
      (by decide) (by decide) (by decide) (by decide) (by decide) (by decide) (by decide)
      (by decide)⟩

/-- C5. `ProcTraceSupport` returns `TRUE` if and only if all four hold:
`ProcTraceMemSize < EnumProcTraceMemDisable` (16), `ProcTraceOutputScheme <
OutputSchemeInvalid` (2), the CPUID bit `Ebx.Bits.IntelProcessorTrace` is 1, and at least one
of `Ecx.Bits.RTIT`, `Ecx.Bits.SingleRangeOutput` is 1. In particular with size class 16 it
returns `FALSE` for every CPU index and every combination of capability bits. -/
theorem ProcTraceSupport_true_iff (ProcessorNumber : Nat) (Cpuid : CpuidBits)
    (d : PROC_TRACE_DATA) :
    ((ProcTraceSupport ProcessorNumber Cpuid d).1 = true ↔
      (d.ProcTraceMemSize < EnumProcTraceMemDisable ∧
       d.ProcTraceOutputScheme < OutputSchemeInvalid ∧
       Cpuid.IntelProcessorTrace = 1 ∧
       (Cpuid.RTIT = 1 ∨ Cpuid.SingleRangeOutput = 1))) ∧
    (ProcTraceSupport ProcessorNumber Cpuid
      { d with ProcTraceMemSize := EnumProcTraceMemDisable }).1 = false := by
  constructor
  · unfold ProcTraceSupport
    by_cases h1 : d.ProcTraceMemSize ≥ EnumProcTraceMemDisable ∨
        d.ProcTraceOutputScheme ≥ OutputSchemeInvalid
    · rw [if_pos h1]
      simp only [Bool.false_eq_true, false_iff]
      omega
    · rw [if_neg h1]
      by_cases h2 : Cpuid.IntelProcessorTrace = 1 <;>
      by_cases h3 : Cpuid.RTIT = 1 <;>
      by_cases h4 : Cpuid.SingleRangeOutput = 1 <;>
      simp [setProcessorData, h2, h3, h4] <;> omega
  · simp [ProcTraceSupport, EnumProcTraceMemDisable]

/-- C6 (as stated, refuted). Processor 1 of the four-processor ToPA platform, resources
allocated, `State = TRUE`, registers initially `IA32_RTIT_CTL = 0` and
`IA32_RTIT_STATUS = 5`: one call leaves `IA32_RTIT_STATUS = 5` (bit 0 of the control
register was clear, so the reset block does nothing), two calls leave it 0 (the first call
armed bit 0, so the second call runs the reset block). -/
theorem callAndApply_twice_counterexample :
    fourCpuAfterFirst.ThreadMemRegionTable ≠ none ∧ 1 < fourCpuAfterFirst.AllocatedThreads ∧
    (callAndApply (demoFirmware 0 0) 1 true
      (demoRegisters 0 5, fourCpuAfterFirst)).1 MSR_IA32_RTIT_STATUS = 5 ∧
    (callTwiceAndApply (demoFirmware 0 0) 1 true
      (demoRegisters 0 5, fourCpuAfterFirst)).1 MSR_IA32_RTIT_STATUS = 0 := by
  decide

/-- C6 (amended). On a CPU whose resources are already allocated (table set,
`ProcessorNumber < AllocatedThreads`, `ThreadMemRegionTable` holding an entry for the CPU,
and `TopaMemArray` holding one too when the CPU takes the ToPA block), with reads during a
call seeing the values from before the call and the submitted writes applied in order when
it returns: for every initial register file, every scheme/capability combination and every
`State`, applying the call twice yields the same final values of `IA32_RTIT_CTL`,
`IA32_RTIT_OUTPUT_BASE` and `IA32_RTIT_OUTPUT_MASK_PTRS` (and the same configuration) as
applying it once. The final `IA32_RTIT_STATUS` is 0 after two calls when `State` is `TRUE`,
and is the value after one call when `State` is `FALSE`; so it agrees with the value after
one call when `State` is `FALSE`, or bit 0 of the initial `IA32_RTIT_CTL` is set, or
`IA32_RTIT_STATUS` is initially 0. Whatever the registers hold, such a call reads no missing
table entry. -/
theorem callAndApply_twice (fw : Firmware) (p : Nat) (State : Bool) (regs : RegisterFile)
    (d : PROC_TRACE_DATA) (t : PoolArray)
    (hTable : d.ThreadMemRegionTable = some t) (hp : p < d.AllocatedThreads)
    (hR : PoolArray.read d.ThreadMemRegionTable p ≠ none)
    (hT : (d.ProcessorData p).TopaSupported = true ∧
        d.ProcTraceOutputScheme = OutputSchemeToPA →
      PoolArray.read d.TopaMemArray p ≠ none) :
    (callTwiceAndApply fw p State (regs, d)).1 MSR_IA32_RTIT_CTL =
      (callAndApply fw p State (regs, d)).1 MSR_IA32_RTIT_CTL ∧
    (callTwiceAndApply fw p State (regs, d)).1 MSR_IA32_RTIT_OUTPUT_BASE =
      (callAndApply fw p State (regs, d)).1 MSR_IA32_RTIT_OUTPUT_BASE ∧
    (callTwiceAndApply fw p State (regs, d)).1 MSR_IA32_RTIT_OUTPUT_MASK_PTRS =
      (callAndApply fw p State (regs, d)).1 MSR_IA32_RTIT_OUTPUT_MASK_PTRS ∧
    (callTwiceAndApply fw p State (regs, d)).2 = (callAndApply fw p State (regs, d)).2 ∧
    (callTwiceAndApply fw p State (regs, d)).1 MSR_IA32_RTIT_STATUS =
      (if State = true then 0
       else (callAndApply fw p State (regs, d)).1 MSR_IA32_RTIT_STATUS) ∧
    (State = false ∨ regs MSR_IA32_RTIT_CTL % 2 ^ 64 &&& BIT0 ≠ 0 ∨
        regs MSR_IA32_RTIT_STATUS = 0 →
      (callTwiceAndApply fw p State (regs, d)).1 MSR_IA32_RTIT_STATUS =
        (callAndApply fw p State (regs, d)).1 MSR_IA32_RTIT_STATUS) ∧
    (∀ regs1 : RegisterFile,
      (ProcTraceInitialize (deferred fw regs1) p d State).Final.InvalidRead = false) := by
  have hc : regs MSR_IA32_RTIT_CTL % 2 ^ 64 < 2 ^ 64 := Nat.mod_lt _ (by decide)
  have h1 := callAndApply_later fw p State regs d t hTable hp
  have h2 := callAndApply_later fw p State
    (applyWrites regs (laterWrites fw p d State (regs MSR_IA32_RTIT_CTL % 2 ^ 64))) d t
    hTable hp
  rw [laterWrites_CTL_eq, Nat.mod_eq_of_lt (armValue_lt _ State hc)] at h2
  have h12 : callTwiceAndApply fw p State (regs, d) =
      (applyWrites (applyWrites regs (laterWrites fw p d State (regs MSR_IA32_RTIT_CTL % 2 ^ 64)))
        (laterWrites fw p d State (armValue (regs MSR_IA32_RTIT_CTL % 2 ^ 64) State)), d) := by
    unfold callTwiceAndApply
    rw [h1]
    exact h2
  rw [h12, h1]
  have hS : applyWrites (applyWrites regs
        (laterWrites fw p d State (regs MSR_IA32_RTIT_CTL % 2 ^ 64)))
        (laterWrites fw p d State (armValue (regs MSR_IA32_RTIT_CTL % 2 ^ 64) State))
        MSR_IA32_RTIT_STATUS =
      (if State = true then 0
       else applyWrites regs (laterWrites fw p d State (regs MSR_IA32_RTIT_CTL % 2 ^ 64))
        MSR_IA32_RTIT_STATUS) := by
    rw [laterWrites_STATUS_eq]
    by_cases hSt : State = true
    · rw [if_pos ((armValue_BIT0 _ State hc).2 hSt), if_pos hSt]
    · rw [if_neg (fun h => hSt ((armValue_BIT0 _ State hc).1 h)), if_neg hSt]
  refine ⟨?_, ?_, ?_, rfl, hS, ?_, ?_⟩
  · show applyWrites _ _ _ = applyWrites _ _ _
    rw [laterWrites_CTL_eq, laterWrites_CTL_eq, armValue_idem _ State hc]
  · show applyWrites _ _ _ = applyWrites _ _ _
    rw [laterWrites_OUTPUT_BASE_eq, laterWrites_OUTPUT_BASE_eq]
    split
    · rfl
    · split <;> rfl
  · show applyWrites _ _ _ = applyWrites _ _ _
    rw [laterWrites_OUTPUT_MASK_PTRS_eq, laterWrites_OUTPUT_MASK_PTRS_eq]
    split
    · rfl
    · split <;> rfl
  · intro h
    show applyWrites _ _ _ = applyWrites _ _ _
    rw [hS]
    by_cases hSt : State = true
    · rw [if_pos hSt, laterWrites_STATUS_eq]
      rcases h with h | h | h
      · rw [hSt] at h; cases h
      · rw [if_pos h]
      · rw [h]; split <;> rfl
    · rw [if_neg hSt]
  · intro regs1
    cases hI : (ProcTraceInitialize (deferred fw regs1) p d State).Final.InvalidRead with
    | false => rfl
    | true =>
      exfalso
      rcases ((ProcTraceInitialize_later_InvalidRead (deferred fw regs1) p d State t
        hTable).mp hI).2 with h | h
      · exact hR h
      · exact hT h.1 h.2

/-- C6 (amended), at a concrete input: the call of the counterexample with
`IA32_RTIT_CTL = 1` initially (bit 0 set), where all four registers agree. -/
theorem callAndApply_twice_witness :
    (fourCpuAfterFirst.ThreadMemRegionTable =
        some ⟨[some 0x10000000, some 0x20000000, some 0x30000000, some 0x40000000], false⟩ ∧
      1 < fourCpuAfterFirst.AllocatedThreads ∧
      PoolArray.read fourCpuAfterFirst.ThreadMemRegionTable 1 ≠ none ∧
      PoolArray.read fourCpuAfterFirst.TopaMemArray 1 ≠ none) ∧
    (callTwiceAndApply (demoFirmware 0 0) 1 true
        (demoRegisters 1 5, fourCpuAfterFirst)).1 MSR_IA32_RTIT_CTL =
      (callAndApply (demoFirmware 0 0) 1 true
        (demoRegisters 1 5, fourCpuAfterFirst)).1 MSR_IA32_RTIT_CTL ∧
    (callTwiceAndApply (demoFirmware 0 0) 1 true
        (demoRegisters 1 5, fourCpuAfterFirst)).1 MSR_IA32_RTIT_OUTPUT_BASE =
      (callAndApply (demoFirmware 0 0) 1 true
        (demoRegisters 1 5, fourCpuAfterFirst)).1 MSR_IA32_RTIT_OUTPUT_BASE ∧
    (callTwiceAndApply (demoFirmware 0 0) 1 true
        (demoRegisters 1 5, fourCpuAfterFirst)).1 MSR_IA32_RTIT_OUTPUT_MASK_PTRS =
      (callAndApply (demoFirmware 0 0) 1 true
        (demoRegisters 1 5, fourCpuAfterFirst)).1 MSR_IA32_RTIT_OUTPUT_MASK_PTRS ∧
    (callTwiceAndApply (demoFirmware 0 0) 1 true
        (demoRegisters 1 5, fourCpuAfterFirst)).1 MSR_IA32_RTIT_STATUS =
      (callAndApply (demoFirmware 0 0) 1 true
        (demoRegisters 1 5, fourCpuAfterFirst)).1 MSR_IA32_RTIT_STATUS :=
  have h := callAndApply_twice (demoFirmware 0 0) 1 true (demoRegisters 1 5) fourCpuAfterFirst
    ⟨[some 0x10000000, some 0x20000000, some 0x30000000, some 0x40000000], false⟩
    (by decide) (by decide) (by decide) (fun _ => by decide)
  ⟨⟨by decide, by decide, by decide, by decide⟩, h.1, h.2.1, h.2.2.1, h.2.2.2.2.2.1 (Or.inr (Or.inl (by decide)))⟩

/-- C7 (the code departs from the claim). Two processors, scheme single-range, every
allocation succeeding, and the first invocation made by processor 1: the table then holds
region `0x10000000` at index 0 and region `0x20000000` at index 1, but the call of
processor 1 writes `0x10000000`, the entry at index 0, to `IA32_RTIT_OUTPUT_BASE`; the later
call of processor 0 writes the same address, so both processors trace into one region and
the region of index 1 is never used. In the four-processor ToPA platform whose first
invocation is made by processor 2, the routing table used is likewise the one of index 0
and its entry 0 encodes the region of index 0. -/
theorem ProcTraceInitialize_first_caller_uses_index0 :
    (ProcTraceInitialize (demoFirmware 0 2) 1 twoCpuConfig true).Status =
      RETURN_STATUS.RETURN_SUCCESS ∧
    PoolArray.read twoCpuAfterFirstByCpu1.ThreadMemRegionTable 0 = some 0x10000000 ∧
    PoolArray.read twoCpuAfterFirstByCpu1.ThreadMemRegionTable 1 = some 0x20000000 ∧
    twoCpuAfterFirstByCpu1.AllocatedThreads = 2 ∧
    (ProcTraceInitialize (demoFirmware 0 2) 1 twoCpuConfig true).Final.Writes =
      [⟨1, MSR_IA32_RTIT_CTL, 0⟩, ⟨1, MSR_IA32_RTIT_OUTPUT_BASE, 0x10000000⟩,
       ⟨1, MSR_IA32_RTIT_OUTPUT_MASK_PTRS, 0xFFF⟩, ⟨1, MSR_IA32_RTIT_CTL, 0x200D⟩] ∧
    (ProcTraceInitialize (demoFirmware 0 0) 0 twoCpuAfterFirstByCpu1 true).Final.Writes =
      [⟨0, MSR_IA32_RTIT_CTL, 0⟩, ⟨0, MSR_IA32_RTIT_OUTPUT_BASE, 0x10000000⟩,
       ⟨0, MSR_IA32_RTIT_OUTPUT_MASK_PTRS, 0xFFF⟩, ⟨0, MSR_IA32_RTIT_CTL, 0x200D⟩] ∧
    PoolArray.read (ProcTraceInitialize (demoFirmware 0 8) 2 fourCpuConfig
      true).Final.Data.ThreadMemRegionTable 2 = some 0x30000000 ∧
    PoolArray.read (ProcTraceInitialize (demoFirmware 0 8) 2 fourCpuConfig
      true).Final.Data.TopaMemArray 2 = some 0x70000000 ∧
    (ProcTraceInitialize (demoFirmware 0 8) 2 fourCpuConfig true).Final.TopaTable =
      some (0x50000000, ⟨0x10000000, 0x50000001⟩) ∧
    (ProcTraceInitialize (demoFirmware 0 8) 2 fourCpuConfig true).Final.Writes =
      [⟨2, MSR_IA32_RTIT_OUTPUT_BASE, 0x50000000⟩, ⟨2, MSR_IA32_RTIT_OUTPUT_MASK_PTRS, 0x7F⟩,
       ⟨2, MSR_IA32_RTIT_CTL, 0x100⟩, ⟨2, MSR_IA32_RTIT_CTL, 0x200D⟩] := by
  decide

/-- C8 (the code departs from the claim). For `NumberOfProcessors ≥ 1`: a first invocation
reads no missing table entry. A call that reads no missing table entry returns only
`RETURN_SUCCESS` or `RETURN_OUT_OF_RESOURCES`; it returns `RETURN_OUT_OF_RESOURCES` if and
only if it is a first invocation (`ThreadMemRegionTable` unset at entry) and one of these
allocations fails: the pool allocation of the region table, the aligned region allocation for
index 0, or, when the ToPA block is entered (scheme ToPA and this CPU ToPA-capable), the pool
allocation of the ToPA array or the aligned ToPA page allocation for index 0; and it returns
`RETURN_SUCCESS` if it is not a first invocation. But a call that is not a first invocation
does read a missing entry exactly when `ProcessorNumber < AllocatedThreads` and either
`ThreadMemRegionTable` has no entry for it, or it takes the ToPA block and `TopaMemArray` has
no entry for it, the array being NULL included: the source then reads through an invalid
pointer and no status is determined. -/
theorem ProcTraceInitialize_status (fw : Firmware) (p : Nat) (d : PROC_TRACE_DATA)
    (State : Bool) (hN : 1 ≤ d.NumberOfProcessors) :
    (d.ThreadMemRegionTable = none →
      (ProcTraceInitialize fw p d State).Final.InvalidRead = false) ∧
    ((ProcTraceInitialize fw p d State).Final.InvalidRead = false →
      ((ProcTraceInitialize fw p d State).Status = RETURN_STATUS.RETURN_SUCCESS ∨
        (ProcTraceInitialize fw p d State).Status = RETURN_STATUS.RETURN_OUT_OF_RESOURCES) ∧
      ((ProcTraceInitialize fw p d State).Status = RETURN_STATUS.RETURN_OUT_OF_RESOURCES ↔
        d.ThreadMemRegionTable = none ∧
        (fw.Pool 0 (d.NumberOfProcessors * SIZEOF_UINTN_PTR) = false ∨
         pageAddr fw 0 (EFI_SIZE_TO_PAGES (MemRegionSize d)) (MemRegionSize d) = 0 ∨
         (((d.ProcessorData p).TopaSupported = true ∧
            d.ProcTraceOutputScheme = OutputSchemeToPA) ∧
          (fw.Pool 1 ((afterRegionStep fw p d).Data.AllocatedThreads * SIZEOF_UINTN_PTR) =
              false ∨
           pageAddr fw (afterRegionStep fw p d).PageCalls
             (EFI_SIZE_TO_PAGES SIZEOF_PROC_TRACE_TOPA_TABLE) 0x1000 = 0)))) ∧
      (d.ThreadMemRegionTable ≠ none →
        (ProcTraceInitialize fw p d State).Status = RETURN_STATUS.RETURN_SUCCESS)) ∧
    (d.ThreadMemRegionTable ≠ none →
      ((ProcTraceInitialize fw p d State).Final.InvalidRead = true ↔
        p < d.AllocatedThreads ∧
        (PoolArray.read d.ThreadMemRegionTable p = none ∨
         (((d.ProcessorData p).TopaSupported = true ∧
            d.ProcTraceOutputScheme = OutputSchemeToPA) ∧
          PoolArray.read d.TopaMemArray p = none)))) := by
  have hstatus :
      ((ProcTraceInitialize fw p d State).Status = RETURN_STATUS.RETURN_SUCCESS ∨
        (ProcTraceInitialize fw p d State).Status = RETURN_STATUS.RETURN_OUT_OF_RESOURCES) ∧
      ((ProcTraceInitialize fw p d State).Status = RETURN_STATUS.RETURN_OUT_OF_RESOURCES ↔
        d.ThreadMemRegionTable = none ∧
        (fw.Pool 0 (d.NumberOfProcessors * SIZEOF_UINTN_PTR) = false ∨
         pageAddr fw 0 (EFI_SIZE_TO_PAGES (MemRegionSize d)) (MemRegionSize d) = 0 ∨
         (((d.ProcessorData p).TopaSupported = true ∧
            d.ProcTraceOutputScheme = OutputSchemeToPA) ∧
          (fw.Pool 1 ((afterRegionStep fw p d).Data.AllocatedThreads * SIZEOF_UINTN_PTR) =
              false ∨
           pageAddr fw (afterRegionStep fw p d).PageCalls
             (EFI_SIZE_TO_PAGES SIZEOF_PROC_TRACE_TOPA_TABLE) 0x1000 = 0)))) ∧
      (d.ThreadMemRegionTable ≠ none →
        (ProcTraceInitialize fw p d State).Status = RETURN_STATUS.RETURN_SUCCESS) := by
    have hfirst : (ProcTraceInitialize fw p d State).Status = RETURN_STATUS.RETURN_SUCCESS ∨
        (ProcTraceInitialize fw p d State).Status = RETURN_STATUS.RETURN_OUT_OF_RESOURCES := by
      cases (ProcTraceInitialize fw p d State).Status
      · exact Or.inl rfl
      · exact Or.inr rfl
    have hlater : d.ThreadMemRegionTable ≠ none →
        (ProcTraceInitialize fw p d State).Status = RETURN_STATUS.RETURN_SUCCESS := by
      intro h
      cases ht : d.ThreadMemRegionTable with
      | none => exact absurd ht h
      | some t => exact ProcTraceInitialize_later_status fw p d State t ht
    refine ⟨hfirst, ?_, hlater⟩
    cases ht : d.ThreadMemRegionTable with
    | some t =>
      rw [ProcTraceInitialize_later_status fw p d State t ht]
      constructor
      · intro h; cases h
      · intro h; cases h.1
    | none =>
      have hiso : d.ThreadMemRegionTable.isNone = true := by rw [ht]; rfl
      have hx0N : 0 < (resetStep fw p (Exec.start d)).Data.NumberOfProcessors := by
        rw [resetStep_Data, Exec.start_Data]; exact hN
      have hPC0 : (resetStep fw p (Exec.start d)).PoolCalls = 0 := by simp [Exec.start]
      have hPG0 : (resetStep fw p (Exec.start d)).PageCalls = 0 := by simp [Exec.start]
      have hD0 : (resetStep fw p (Exec.start d)).Data = d := by simp
      have hc := regionStep_first_cases fw p (MemRegionSize d) (resetStep fw p (Exec.start d))
        hx0N
      rw [hPC0, hPG0, hD0] at hc
      rcases hc with ⟨hp0, y, hy⟩ | ⟨hp0, hg0, y, hy⟩ | ⟨hp0, hg0, R, y, hy, hAT, hPC⟩
      · rw [← hiso] at hy
        rw [ProcTraceInitialize_of_ret fw p d State _ _ hy]
        exact ⟨fun _ => ⟨rfl, Or.inl hp0⟩, fun _ => rfl⟩
      · rw [← hiso] at hy
        rw [ProcTraceInitialize_of_ret fw p d State _ _ hy]
        exact ⟨fun _ => ⟨rfl, Or.inr (Or.inl hg0)⟩, fun _ => rfl⟩
      · rw [← hiso] at hy
        rw [afterRegionStep_of_next fw p d R y hy]
        have hp0' : ¬ fw.Pool 0 (d.NumberOfProcessors * SIZEOF_UINTN_PTR) = false := by
          rw [hp0]; decide
        by_cases h1 : (d.ProcessorData p).SingleRangeSupported = true ∧
            d.ProcTraceOutputScheme = OutputSchemeSingleRange
        · have h2 : ¬ ((d.ProcessorData p).TopaSupported = true ∧
              d.ProcTraceOutputScheme = OutputSchemeToPA) := by
            intro h; rw [h1.2] at h; exact absurd h.2 (by decide)
          rw [ProcTraceInitialize_single fw p d State _ y hy h1.1 h1.2]
          constructor
          · intro h; cases h
          · rintro ⟨-, h | h | h⟩
            · exact absurd h hp0'
            · exact absurd h hg0
            · exact absurd h.1 h2
        · by_cases h2 : (d.ProcessorData p).TopaSupported = true ∧
              d.ProcTraceOutputScheme = OutputSchemeToPA
          · have hc2 := topaStep_first_cases fw p y hAT
            rw [hPC, Nat.zero_add] at hc2
            rcases hc2 with ⟨hp1, z, hz⟩ | ⟨hp1, hg1, z, hz⟩ | ⟨hp1, hg1, T, z, hz⟩
            · rw [← hiso] at hz
              rw [ProcTraceInitialize_topa_ret fw p d State R y z _ hy h2.1 h2.2 hz]
              exact ⟨fun _ => ⟨rfl, Or.inr (Or.inr ⟨h2, Or.inl hp1⟩)⟩, fun _ => rfl⟩
            · rw [← hiso] at hz
              rw [ProcTraceInitialize_topa_ret fw p d State R y z _ hy h2.1 h2.2 hz]
              exact ⟨fun _ => ⟨rfl, Or.inr (Or.inr ⟨h2, Or.inr hg1⟩)⟩, fun _ => rfl⟩
            · rw [← hiso] at hz
              rw [ProcTraceInitialize_topa_next fw p d State R T y z hy h2.1 h2.2 hz]
              constructor
              · intro h; cases h
              · rintro ⟨-, h | h | ⟨-, h | h⟩⟩
                · exact absurd h hp0'
                · exact absurd h hg0
                · rw [hp1] at h; cases h
                · exact absurd h hg1
          · rw [ProcTraceInitialize_neither fw p d State _ y hy h1 h2]
            constructor
            · intro h; cases h
            · rintro ⟨-, h | h | h⟩
              · exact absurd h hp0'
              · exact absurd h hg0
              · exact absurd h.1 h2
  refine ⟨fun h => ProcTraceInitialize_first_valid fw p d State h hN, fun _ => hstatus, ?_⟩
  intro h
  cases ht : d.ThreadMemRegionTable with
  | none => exact absurd ht h
  | some t =>
    rw [← ht]
    exact ProcTraceInitialize_later_InvalidRead fw p d State t ht

/-- C8, at concrete inputs. Four processors, scheme ToPA, the four region allocations
succeed and the first ToPA page allocation fails: the first invocation returns
`RETURN_OUT_OF_RESOURCES`. Two processors, scheme ToPA, the first invocation made by a
processor without ToPA support: the later call of processor 1 reads `TopaMemArray[1]` through
the NULL pointer. -/
theorem ProcTraceInitialize_status_witness :
    1 ≤ fourCpuConfig.NumberOfProcessors ∧
    (((ProcTraceInitialize (demoFirmware 0 4) 0 fourCpuConfig true).Status =
        RETURN_STATUS.RETURN_SUCCESS ∨
      (ProcTraceInitialize (demoFirmware 0 4) 0 fourCpuConfig true).Status =
        RETURN_STATUS.RETURN_OUT_OF_RESOURCES) ∧
    ((ProcTraceInitialize (demoFirmware 0 4) 0 fourCpuConfig true).Status =
        RETURN_STATUS.RETURN_OUT_OF_RESOURCES ↔
      fourCpuConfig.ThreadMemRegionTable = none ∧
      ((demoFirmware 0 4).Pool 0 (fourCpuConfig.NumberOfProcessors * SIZEOF_UINTN_PTR) =
          false ∨
       pageAddr (demoFirmware 0 4) 0 (EFI_SIZE_TO_PAGES (MemRegionSize fourCpuConfig))
          (MemRegionSize fourCpuConfig) = 0 ∨
       (((fourCpuConfig.ProcessorData 0).TopaSupported = true ∧
          fourCpuConfig.ProcTraceOutputScheme = OutputSchemeToPA) ∧
        ((demoFirmware 0 4).Pool 1
            ((afterRegionStep (demoFirmware 0 4) 0 fourCpuConfig).Data.AllocatedThreads *
              SIZEOF_UINTN_PTR) = false ∨
         pageAddr (demoFirmware 0 4)
           (afterRegionStep (demoFirmware 0 4) 0 fourCpuConfig).PageCalls
           (EFI_SIZE_TO_PAGES SIZEOF_PROC_TRACE_TOPA_TABLE) 0x1000 = 0)))) ∧
    (fourCpuConfig.ThreadMemRegionTable ≠ none →
      (ProcTraceInitialize (demoFirmware 0 4) 0 fourCpuConfig true).Status =
        RETURN_STATUS.RETURN_SUCCESS)) ∧
    (ProcTraceInitialize (demoFirmware 0 4) 0 fourCpuConfig true).Status =
      RETURN_STATUS.RETURN_OUT_OF_RESOURCES ∧
    (1 ≤ mixedAfterFirst.NumberOfProcessors ∧ mixedAfterFirst.ThreadMemRegionTable ≠ none ∧
      (ProcTraceInitialize (demoFirmware 0 8) 1 mixedAfterFirst true).Final.InvalidRead =
        true) :=
  ⟨by decide,
    (ProcTraceInitialize_status (demoFirmware 0 4) 0 fourCpuConfig true (by decide)).2.1
      (by decide),
    by decide,
    by decide, by decide,
    ((ProcTraceInitialize_status (demoFirmware 0 8) 1 mixedAfterFirst true (by decide)).2.2
      (by decide)).mpr ⟨by decide, Or.inr ⟨⟨by decide, by decide⟩, by decide⟩⟩⟩

/-- C9. Single-range programming. Whenever a region `R` is available to the call, the scheme
is `OutputSchemeSingleRange` and this CPU's `SingleRangeSupported` flag is set, then for
every size class `sc` in 0..15 the writes submitted by the call are those of the reset
block, then, consecutively and in this order, (1) `IA32_RTIT_CTL := c` with bit 8 cleared,
where `c` is the value read from `IA32_RTIT_CTL` by the block, (2)
`IA32_RTIT_OUTPUT_BASE := R`, (3) `IA32_RTIT_OUTPUT_MASK_PTRS := (4096 << sc) - 1`,
then the final arming write; and when `R` is a multiple of `4096 << sc` the base and the
mask share no set bit. -/
theorem ProcTraceInitialize_single_range_writes (fw : Firmware) (p : Nat)
    (d : PROC_TRACE_DATA) (State : Bool) (R : Nat)
    (hR : regionOf fw p d = some R)
    (hsch : d.ProcTraceOutputScheme = OutputSchemeSingleRange)
    (hcap : (d.ProcessorData p).SingleRangeSupported = true)
    (hsc : d.ProcTraceMemSize ≤ 15) :
    (ProcTraceInitialize fw p d State).Final.Writes =
      resetWrites fw p ++
      [⟨p, MSR_IA32_RTIT_CTL, msrRead fw (resetReads fw) MSR_IA32_RTIT_CTL &&& NOT64 BIT8⟩,
       ⟨p, MSR_IA32_RTIT_OUTPUT_BASE, R⟩,
       ⟨p, MSR_IA32_RTIT_OUTPUT_MASK_PTRS, (4096 <<< d.ProcTraceMemSize) - 1⟩] ++
      [⟨p, MSR_IA32_RTIT_CTL,
        if !State then
          (msrRead fw (resetReads fw + 1) MSR_IA32_RTIT_CTL |||
            (BIT0 + BIT2 + BIT3 + BIT13)) &&& NOT64 BIT0
        else msrRead fw (resetReads fw + 1) MSR_IA32_RTIT_CTL |||
          (BIT0 + BIT2 + BIT3 + BIT13)⟩] ∧
    (∀ i, (msrRead fw (resetReads fw) MSR_IA32_RTIT_CTL &&& NOT64 BIT8).testBit i =
      ((msrRead fw (resetReads fw) MSR_IA32_RTIT_CTL).testBit i && decide (i ≠ 8))) ∧
    (R % (4096 <<< d.ProcTraceMemSize) = 0 →
      R &&& ((4096 <<< d.ProcTraceMemSize) - 1) = 0) := by
  obtain ⟨x, hx, -⟩ := regionOf_next fw p d R hR
  obtain ⟨f1, f2, -⟩ := regionStep_next_frame fw p _ R _ _ _ hx
  rw [resetStep_start_Writes] at f1
  rw [resetStep_start_MsrReads] at f2
  obtain ⟨hpos, hlt, hpow⟩ := regionSize_bounds d.ProcTraceMemSize hsc
  refine ⟨?_, ?_, ?_⟩
  · rw [ProcTraceInitialize_single fw p d State R x hx hcap hsch, armStep_Writes,
      singleRangeStep_Writes, singleRangeStep_MsrReads, f1, f2, MemRegionSize_eq d hsc]
    have hm : regionMask (4096 <<< d.ProcTraceMemSize) =
        4096 <<< d.ProcTraceMemSize - 1 := by unfold regionMask; omega
    rw [hm]
  · intro i
    rw [testBit_and_NOT64 _ BIT8 i (msrRead_lt fw _ _) (by decide), testBit_BIT8]
    simp
  · intro hal
    rw [hpow, Nat.and_pow_two_sub_one_eq_mod, ← hpow]
    exact hal

/-- C9, at a concrete input: the first invocation of the two-processor single-range
platform by processor 0, every allocation succeeding, `IA32_RTIT_CTL` reading `0x100`. -/
theorem ProcTraceInitialize_single_range_writes_witness :
    regionOf (demoFirmware 0x100 2) 0 twoCpuConfig = some 0x10000000 ∧
    (ProcTraceInitialize (demoFirmware 0x100 2) 0 twoCpuConfig true).Final.Writes =
      [⟨0, MSR_IA32_RTIT_CTL, 0⟩, ⟨0, MSR_IA32_RTIT_OUTPUT_BASE, 0x10000000⟩,
       ⟨0, MSR_IA32_RTIT_OUTPUT_MASK_PTRS, 0xFFF⟩, ⟨0, MSR_IA32_RTIT_CTL, 0x210D⟩] ∧
    0x10000000 &&& ((4096 <<< twoCpuConfig.ProcTraceMemSize) - 1) = 0 :=
  have h := ProcTraceInitialize_single_range_writes (demoFirmware 0x100 2) 0 twoCpuConfig true
    0x10000000 (by decide) (by decide) (by decide) (by decide)
  ⟨by decide, h.1.trans (by decide), h.2.2 (by decide)⟩

/-- C10. ToPA programming. Whenever a region and a routing table at address `T` are
available to the call, the scheme is `OutputSchemeToPA` and this CPU's `TopaSupported` flag
is set, the writes submitted by the call are those of the reset block, then, consecutively
and in this order, (1) `IA32_RTIT_OUTPUT_BASE := T`, the routing table's own address,
(2) `IA32_RTIT_OUTPUT_MASK_PTRS := 0x7F`, (3) `IA32_RTIT_CTL := c` with bit 8 set, where `c`
is the value read from `IA32_RTIT_CTL` by the block, then the final arming write. -/
theorem ProcTraceInitialize_topa_writes (fw : Firmware) (p : Nat)
    (d : PROC_TRACE_DATA) (State : Bool) (R T : Nat)
    (hR : regionOf fw p d = some R) (hT : topaTableOf fw p d = some T)
    (hsch : d.ProcTraceOutputScheme = OutputSchemeToPA)
    (hcap : (d.ProcessorData p).TopaSupported = true) :
    (ProcTraceInitialize fw p d State).Final.Writes =
      resetWrites fw p ++
      [⟨p, MSR_IA32_RTIT_OUTPUT_BASE, T⟩,
       ⟨p, MSR_IA32_RTIT_OUTPUT_MASK_PTRS, 0x7F⟩,
       ⟨p, MSR_IA32_RTIT_CTL, msrRead fw (resetReads fw) MSR_IA32_RTIT_CTL ||| BIT8⟩] ++
      [⟨p, MSR_IA32_RTIT_CTL,
        if !State then
          (msrRead fw (resetReads fw + 1) MSR_IA32_RTIT_CTL |||
            (BIT0 + BIT2 + BIT3 + BIT13)) &&& NOT64 BIT0
        else msrRead fw (resetReads fw + 1) MSR_IA32_RTIT_CTL |||
          (BIT0 + BIT2 + BIT3 + BIT13)⟩] ∧
    (∀ i, (msrRead fw (resetReads fw) MSR_IA32_RTIT_CTL ||| BIT8).testBit i =
      ((msrRead fw (resetReads fw) MSR_IA32_RTIT_CTL).testBit i || decide (i = 8))) := by
  obtain ⟨x, hx, hax⟩ := regionOf_next fw p d R hR
  obtain ⟨y, hy⟩ := topaTableOf_next fw p d T hT
  rw [hax] at hy
  obtain ⟨f1, f2, -⟩ := regionStep_next_frame fw p _ R _ _ _ hx
  obtain ⟨g1, g2, -⟩ := topaStep_next_frame fw p T _ _ _ hy
  rw [resetStep_start_Writes] at f1
  rw [resetStep_start_MsrReads] at f2
  refine ⟨?_, ?_⟩
  · rw [ProcTraceInitialize_topa_next fw p d State R T x y hx hcap hsch hy, armStep_Writes,
      topaProgram_Writes, topaProgram_MsrReads, g1, g2, f1, f2]
  · intro i
    rw [Nat.testBit_or, testBit_BIT8]

/-- C10, at a concrete input: the call of processor 2 on the four-processor ToPA platform
after the first invocation, `IA32_RTIT_CTL` reading 1. -/
theorem ProcTraceInitialize_topa_writes_witness :
    (regionOf (demoFirmware 1 0) 2 fourCpuAfterFirst = some 0x30000000 ∧
     topaTableOf (demoFirmware 1 0) 2 fourCpuAfterFirst = some 0x70000000) ∧
    (ProcTraceInitialize (demoFirmware 1 0) 2 fourCpuAfterFirst false).Final.Writes =
      [⟨2, MSR_IA32_RTIT_CTL, 0⟩, ⟨2, MSR_IA32_RTIT_STATUS, 0⟩,
       ⟨2, MSR_IA32_RTIT_OUTPUT_BASE, 0x70000000⟩,
       ⟨2, MSR_IA32_RTIT_OUTPUT_MASK_PTRS, 0x7F⟩, ⟨2, MSR_IA32_RTIT_CTL, 0x101⟩,
       ⟨2, MSR_IA32_RTIT_CTL, 0x200C⟩] :=
  ⟨⟨by decide, by decide⟩,
    (ProcTraceInitialize_topa_writes (demoFirmware 1 0) 2 fourCpuAfterFirst false
      0x30000000 0x70000000 (by decide) (by decide) (by decide) (by decide)).1.trans
      (by decide)⟩

/-- C11. Final arming write. A call that does not return early (it returns
`RETURN_SUCCESS`, and it is the first invocation or has `ProcessorNumber < AllocatedThreads`)
has made at least one read; with `r` the value returned by its last read, which reads
`IA32_RTIT_CTL`, the last write it submits is to `IA32_RTIT_CTL`, with value `r ||| 0x200D`
when `State` is `TRUE` and `(r ||| 0x200D) &&& 0xFFFFFFFFFFFFFFFE` when `State` is `FALSE`:
bit 0 of the value is `State`, bits 2, 3 and 13 are set, and every other bit is the bit of
`r`. -/
theorem ProcTraceInitialize_final_arming_write (fw : Firmware) (p : Nat)
    (d : PROC_TRACE_DATA) (State : Bool)
    (hs : (ProcTraceInitialize fw p d State).Status = RETURN_STATUS.RETURN_SUCCESS)
    (hin : d.ThreadMemRegionTable = none ∨ p < d.AllocatedThreads) :
    ∃ r v, 0 < (ProcTraceInitialize fw p d State).Final.MsrReads ∧
      r = msrRead fw ((ProcTraceInitialize fw p d State).Final.MsrReads - 1)
        MSR_IA32_RTIT_CTL ∧
      (ProcTraceInitialize fw p d State).Final.Writes.getLast? =
        some ⟨p, MSR_IA32_RTIT_CTL, v⟩ ∧
      v = (if State = true then r ||| 0x200D else (r ||| 0x200D) &&& 0xFFFFFFFFFFFFFFFE) ∧
      ∀ i, v.testBit i =
        if i = 0 then State else if i = 2 ∨ i = 3 ∨ i = 13 then true else r.testBit i := by
  obtain ⟨x, e⟩ := ProcTraceInitialize_reaches_arm fw p d State hs hin
  rw [e]
  refine ⟨msrRead fw x.MsrReads MSR_IA32_RTIT_CTL,
    armValue (msrRead fw x.MsrReads MSR_IA32_RTIT_CTL) State, ?_, ?_, ?_, ?_, ?_⟩
  · show 0 < x.MsrReads + 1
    omega
  · show _ = msrRead fw (x.MsrReads + 1 - 1) MSR_IA32_RTIT_CTL
    rw [Nat.add_sub_cancel]
  · show (armStep fw p State x).Writes.getLast? = _
    rw [armStep_Writes, List.getLast?_append]
    rfl
  · cases State <;> rfl
  · intro i
    exact armValue_testBit _ State i (msrRead_lt fw _ _)

/-- C11, at a concrete input: the call of processor 1 on the four-processor ToPA
platform, resources allocated, `IA32_RTIT_CTL` reading 0x100, `State = FALSE`. -/
theorem ProcTraceInitialize_final_arming_write_witness :
    (ProcTraceInitialize (demoFirmware 0x100 8) 1 fourCpuAfterFirst false).Status =
      RETURN_STATUS.RETURN_SUCCESS ∧
    1 < fourCpuAfterFirst.AllocatedThreads ∧
    ∃ r v, 0 < (ProcTraceInitialize (demoFirmware 0x100 8) 1 fourCpuAfterFirst
        false).Final.MsrReads ∧
      r = msrRead (demoFirmware 0x100 8)
        ((ProcTraceInitialize (demoFirmware 0x100 8) 1 fourCpuAfterFirst
          false).Final.MsrReads - 1) MSR_IA32_RTIT_CTL ∧
      (ProcTraceInitialize (demoFirmware 0x100 8) 1 fourCpuAfterFirst
        false).Final.Writes.getLast? = some ⟨1, MSR_IA32_RTIT_CTL, v⟩ ∧
      v = (if false = true then r ||| 0x200D else (r ||| 0x200D) &&& 0xFFFFFFFFFFFFFFFE) ∧
      ∀ i, v.testBit i =
        if i = 0 then false else if i = 2 ∨ i = 3 ∨ i = 13 then true else r.testBit i :=
  ⟨by decide, by decide,
    ProcTraceInitialize_final_arming_write (demoFirmware 0x100 8) 1 fourCpuAfterFirst false (by decide)
      (Or.inr (by decide))⟩

/-- C12. Region size and alignment. For a size class `sc ≤ 15`, `MemRegionSize` is
`4096 <<< sc`, which is below `2 ^ 32`, and `EFI_SIZE_TO_PAGES` of it is `2 ^ sc`. In a first
invocation the requests made by the region part are the pool request for the table followed
only by page requests for `2 ^ sc` pages with alignment `4096 <<< sc`; and if every address
returned for such a request is 0 or a multiple of `4096 <<< sc`, then every address held in
`ThreadMemRegionTable` after the call is a multiple of `4096 <<< sc`. -/
theorem ProcTraceInitialize_region_size_alignment (fw : Firmware) (p : Nat) (d : PROC_TRACE_DATA) (State : Bool)
    (hsc : d.ProcTraceMemSize ≤ 15) (hTable : d.ThreadMemRegionTable = none)
    (hal : ∀ k, pageAddr fw k (2 ^ d.ProcTraceMemSize) (4096 <<< d.ProcTraceMemSize) %
      (4096 <<< d.ProcTraceMemSize) = 0) :
    MemRegionSize d = 4096 <<< d.ProcTraceMemSize ∧
    4096 <<< d.ProcTraceMemSize < 2 ^ 32 ∧
    EFI_SIZE_TO_PAGES (MemRegionSize d) = 2 ^ d.ProcTraceMemSize ∧
    (∃ n, (afterRegionStep fw p d).Requests =
      AllocRequest.pool (d.NumberOfProcessors * SIZEOF_UINTN_PTR) ::
        List.replicate n
          (AllocRequest.pages (2 ^ d.ProcTraceMemSize) (4096 <<< d.ProcTraceMemSize))) ∧
    ∀ i v, PoolArray.read (ProcTraceInitialize fw p d State).Final.Data.ThreadMemRegionTable i =
      some v → v % (4096 <<< d.ProcTraceMemSize) = 0 := by
  have hS := MemRegionSize_eq d hsc
  have hP : EFI_SIZE_TO_PAGES (MemRegionSize d) = 2 ^ d.ProcTraceMemSize := by
    rw [hS]; exact EFI_SIZE_TO_PAGES_region _
  have hal' : ∀ k, pageAddr fw k (EFI_SIZE_TO_PAGES (MemRegionSize d)) (MemRegionSize d) %
      (4096 <<< d.ProcTraceMemSize) = 0 := by
    intro k
    rw [hP, hS]
    exact hal k
  obtain ⟨h1, h2⟩ := afterRegionStep_first fw p d (4096 <<< d.ProcTraceMemSize) hTable hal'
  rw [hP, hS] at h1
  refine ⟨hS, (regionSize_bounds _ hsc).2.1, hP, h1, ?_⟩
  rw [ProcTraceInitialize_region_table]
  exact h2

/-- C12, at a concrete input: the first invocation on the four-processor platform
of size class 0, whose allocator returns multiples of 256 MiB. -/
theorem ProcTraceInitialize_region_size_alignment_witness :
    MemRegionSize fourCpuConfig = 4096 ∧
    EFI_SIZE_TO_PAGES (MemRegionSize fourCpuConfig) = 1 ∧
    ∀ i v, PoolArray.read (ProcTraceInitialize (demoFirmware 0 8) 0 fourCpuConfig
        true).Final.Data.ThreadMemRegionTable i = some v → v % 4096 = 0 :=
  ⟨(ProcTraceInitialize_region_size_alignment (demoFirmware 0 8) 0 fourCpuConfig true (by decide) (by decide)
      (fun k => demoFirmware_aligned 0 8 k 1)).1,
   (ProcTraceInitialize_region_size_alignment (demoFirmware 0 8) 0 fourCpuConfig true (by decide) (by decide)
      (fun k => demoFirmware_aligned 0 8 k 1)).2.2.1,
   (ProcTraceInitialize_region_size_alignment (demoFirmware 0 8) 0 fourCpuConfig true (by decide) (by decide)
      (fun k => demoFirmware_aligned 0 8 k 1)).2.2.2.2⟩

/-- C13 (the code departs from the claim). A call entered with `ThreadMemRegionTable` set
that reads no missing table entry makes no allocation request, neither pool nor pages, and
leaves the whole configuration buffer as it was: both tables and their entries,
`AllocatedThreads`, `NumberOfProcessors`, the size class, the scheme and every capability
record. Hence any sequence of such calls, with any services, processor numbers and states,
leaves the buffer as it was. But a call with `ProcessorNumber < AllocatedThreads` that takes
the ToPA block while `TopaMemArray` has no entry for it (the array being NULL included) reads
through an invalid pointer and stores the two table entries at the word it obtained, an
unconstrained address. -/
theorem ProcTraceInitialize_later_allocates_nothing (fw : Firmware) (p : Nat)
    (d : PROC_TRACE_DATA) (State : Bool) (calls : List (Firmware × Nat × Bool))
    (hTable : d.ThreadMemRegionTable.isSome = true) :
    ((ProcTraceInitialize fw p d State).Final.InvalidRead = false →
      (ProcTraceInitialize fw p d State).Final.Requests = [] ∧
      (ProcTraceInitialize fw p d State).Final.Data = d) ∧
    ((∀ c ∈ calls, (ProcTraceInitialize c.1 c.2.1 d c.2.2).Final.InvalidRead = false) →
      callSequence calls d = d) ∧
    (p < d.AllocatedThreads →
      ((d.ProcessorData p).TopaSupported = true ∧
        d.ProcTraceOutputScheme = OutputSchemeToPA) →
      PoolArray.read d.TopaMemArray p = none →
      (ProcTraceInitialize fw p d State).Final.InvalidRead = true ∧
      (ProcTraceInitialize fw p d State).Final.TopaTable = some (fw.Wild p % 2 ^ 64,
        ⟨TopaEntry0 (fetchValue fw d.ThreadMemRegionTable p) d.ProcTraceMemSize,
         TopaEntry1 (fw.Wild p % 2 ^ 64)⟩)) := by
  obtain ⟨t, ht⟩ := Option.isSome_iff_exists.mp hTable
  obtain ⟨h1, h2⟩ := ProcTraceInitialize_later_frame fw p d State t ht
  refine ⟨fun _ => ⟨h2, h1⟩, fun _ => callSequence_later calls d t ht, ?_⟩
  intro hp hc hT
  exact ⟨(ProcTraceInitialize_later_InvalidRead fw p d State t ht).mpr
      ⟨hp, Or.inr ⟨hc, hT⟩⟩,
    ProcTraceInitialize_later_topa_missing fw p d State t ht hp hc.1 hc.2 hT⟩

/-- C13, at concrete inputs. Calls of processors 1, 3 and 7 on the four-processor ToPA
platform after the first invocation, on platforms where every page request would fail:
nothing is requested and the buffer is unchanged. The call of processor 1 after a first
invocation by a processor without ToPA support: `TopaMemArray` is NULL, and the two table
entries are stored at address 0. -/
theorem ProcTraceInitialize_later_allocates_nothing_witness :
    fourCpuAfterFirst.ThreadMemRegionTable.isSome = true ∧
    ((ProcTraceInitialize (demoFirmware 0 0) 1 fourCpuAfterFirst true).Final.InvalidRead =
        false ∧
      (ProcTraceInitialize (demoFirmware 0 0) 1 fourCpuAfterFirst true).Final.Requests = [] ∧
      (ProcTraceInitialize (demoFirmware 0 0) 1 fourCpuAfterFirst true).Final.Data =
        fourCpuAfterFirst) ∧
    callSequence [(demoFirmware 0 0, 1, true), (demoFirmware 1 0, 3, false),
      (demoFirmware 0 0, 7, true)] fourCpuAfterFirst = fourCpuAfterFirst ∧
    (mixedAfterFirst.ThreadMemRegionTable.isSome = true ∧
      PoolArray.read mixedAfterFirst.TopaMemArray 1 = none ∧
      (ProcTraceInitialize (demoFirmware 0 8) 1 mixedAfterFirst true).Final.InvalidRead =
        true ∧
      (ProcTraceInitialize (demoFirmware 0 8) 1 mixedAfterFirst true).Final.TopaTable =
        some (0, ⟨0x20000000, 1⟩)) :=
  ⟨by decide,
   ⟨by decide,
    (ProcTraceInitialize_later_allocates_nothing (demoFirmware 0 0) 1 fourCpuAfterFirst true [] (by decide)).1
      (by decide)⟩,
   (ProcTraceInitialize_later_allocates_nothing (demoFirmware 0 0) 1 fourCpuAfterFirst true
      [(demoFirmware 0 0, 1, true), (demoFirmware 1 0, 3, false), (demoFirmware 0 0, 7, true)]
      (by decide)).2.1 (by decide),
   by decide, by decide,
   ((ProcTraceInitialize_later_allocates_nothing (demoFirmware 0 8) 1 mixedAfterFirst true [] (by decide)).2.2
      (by decide) ⟨by decide, by decide⟩ (by decide)).1,
   by decide⟩

/-- C14. ToPA allocation pass of the first invocation. Scheme ToPA, calling processor
ToPA-capable, the region pass ending with `m ≥ 1` regions, the pool request for the ToPA array
succeeding; the page requests of the ToPA pass succeed for the indices below `j ≤ m` and, when
`j < m`, fail for index `j`. Then every request of the pass is for one page (`EFI_SIZE_TO_PAGES`
of the table size is 1) with alignment 0x1000, one per index `0..j` (`0..m-1` when `j = m`) and
none beyond. If `j = 0` the call returns `RETURN_OUT_OF_RESOURCES`. If `0 < j` the call returns
`RETURN_SUCCESS`, `AllocatedThreads` is `j` afterwards (so it stays `m` when none fails) and
`TopaMemArray` holds the `j` addresses obtained at indices `0..j-1` and nothing beyond. -/
theorem ProcTraceInitialize_topa_pass (fw : Firmware) (p : Nat) (d : PROC_TRACE_DATA)
    (State : Bool) (m j : Nat)
    (hTable : d.ThreadMemRegionTable = none) (hAT : d.AllocatedThreads = 0)
    (hPool : fw.Pool 0 (d.NumberOfProcessors * SIZEOF_UINTN_PTR) = true)
    (hm : 0 < m) (hmN : m ≤ d.NumberOfProcessors)
    (hok : ∀ i, i < m →
      pageAddr fw i (EFI_SIZE_TO_PAGES (MemRegionSize d)) (MemRegionSize d) ≠ 0)
    (hfail : m < d.NumberOfProcessors →
      pageAddr fw m (EFI_SIZE_TO_PAGES (MemRegionSize d)) (MemRegionSize d) = 0)
    (hcap : (d.ProcessorData p).TopaSupported = true)
    (hsch : d.ProcTraceOutputScheme = OutputSchemeToPA)
    (hPool2 : fw.Pool 1 (m * SIZEOF_UINTN_PTR) = true)
    (hjm : j ≤ m)
    (htok : ∀ i, i < j → pageAddr fw ((if m < d.NumberOfProcessors then m + 1 else m) + i)
      (EFI_SIZE_TO_PAGES SIZEOF_PROC_TRACE_TOPA_TABLE) 0x1000 ≠ 0)
    (htfail : j < m → pageAddr fw ((if m < d.NumberOfProcessors then m + 1 else m) + j)
      (EFI_SIZE_TO_PAGES SIZEOF_PROC_TRACE_TOPA_TABLE) 0x1000 = 0) :
    EFI_SIZE_TO_PAGES SIZEOF_PROC_TRACE_TOPA_TABLE = 1 ∧
    (ProcTraceInitialize fw p d State).Final.Requests =
      [AllocRequest.pool (d.NumberOfProcessors * SIZEOF_UINTN_PTR)] ++
      List.replicate (if m < d.NumberOfProcessors then m + 1 else m)
        (AllocRequest.pages (EFI_SIZE_TO_PAGES (MemRegionSize d)) (MemRegionSize d)) ++
      [AllocRequest.pool (m * SIZEOF_UINTN_PTR)] ++
      List.replicate (if j < m then j + 1 else j)
        (AllocRequest.pages (EFI_SIZE_TO_PAGES SIZEOF_PROC_TRACE_TOPA_TABLE) 0x1000) ∧
    (j = 0 → (ProcTraceInitialize fw p d State).Status =
      RETURN_STATUS.RETURN_OUT_OF_RESOURCES) ∧
    (0 < j →
      (ProcTraceInitialize fw p d State).Status = RETURN_STATUS.RETURN_SUCCESS ∧
      (ProcTraceInitialize fw p d State).Final.Data.AllocatedThreads = j ∧
      ∀ i, PoolArray.read (ProcTraceInitialize fw p d State).Final.Data.TopaMemArray i =
        if i < j then
          some (pageAddr fw ((if m < d.NumberOfProcessors then m + 1 else m) + i)
            (EFI_SIZE_TO_PAGES SIZEOF_PROC_TRACE_TOPA_TABLE) 0x1000)
        else none) := by
  have hD : (resetStep fw p (Exec.start d)).Data = d := by simp
  obtain ⟨y, hy, -, -, -, -, y5, -, -, -, -, -, y11, y12, y13, -⟩ :=
    regionStep_first_run fw p (MemRegionSize d) m (resetStep fw p (Exec.start d)) hm
      (by simp [Exec.start]) (by simpa [Exec.start] using hPool) (by simpa using hmN)
      hok (by simpa using hfail)
  rw [hD] at y11 y12 y13
  rw [hAT, Nat.zero_add] at y11
  have y5' : y.PoolCalls = 1 := by rw [y5]; simp [Exec.start]
  have y13' : y.Requests = [AllocRequest.pool (d.NumberOfProcessors * SIZEOF_UINTN_PTR)] ++
      List.replicate (if m < d.NumberOfProcessors then m + 1 else m)
        (AllocRequest.pages (EFI_SIZE_TO_PAGES (MemRegionSize d)) (MemRegionSize d)) := by
    rw [y13]; simp [Exec.start]
  have hx : regionStep fw p d.ThreadMemRegionTable.isNone (MemRegionSize d)
      (resetStep fw p (Exec.start d)) =
      Step.next (pageAddr fw 0 (EFI_SIZE_TO_PAGES (MemRegionSize d)) (MemRegionSize d)) y := by
    rw [hTable]; exact hy
  have hiso : (true : Bool) = d.ThreadMemRegionTable.isNone := by rw [hTable]; rfl
  refine ⟨by decide, ?_⟩
  by_cases h0 : j = 0
  · subst h0
    obtain ⟨z, hz, zr⟩ := topaStep_first_fail fw p y (by rw [y11]; exact hm)
      (by rw [y5', y11]; exact hPool2) (by rw [y12]; exact htfail hm)
    rw [hiso] at hz
    rw [ProcTraceInitialize_topa_ret fw p d State _ y z _ hx hcap hsch hz]
    refine ⟨?_, fun _ => rfl, fun h => absurd h (by decide)⟩
    show z.Requests = _
    rw [zr, y13', y11, if_pos hm]
    rfl
  · have hj : 0 < j := Nat.pos_of_ne_zero h0
    obtain ⟨z, hz, z1, z2, z3⟩ := topaStep_first_run_to fw p m j y hj hjm y11
      (by rw [y5']; exact hPool2) (by rw [y12]; exact htok) (by rw [y12]; exact htfail)
    rw [hiso] at hz
    rw [ProcTraceInitialize_topa_next fw p d State _ _ y z hx hcap hsch hz]
    refine ⟨?_, fun h => absurd h h0, fun _ => ⟨rfl, z1, ?_⟩⟩
    · rw [armStep_Requests, topaProgram_Requests, z2, y13']
    · intro i
      rw [armStep_Data, topaProgram_Data, z3 i, y12]

/-- C14, at a concrete input: four processors, the four region requests and the
ToPA requests for indices 0 and 1 succeed, the ToPA request for index 2 fails: `m = 4`,
`j = 2`. -/
theorem ProcTraceInitialize_topa_pass_witness :
    (fourCpuConfig.ThreadMemRegionTable = none ∧ fourCpuConfig.AllocatedThreads = 0 ∧
      fourCpuConfig.NumberOfProcessors = 4) ∧
    ((ProcTraceInitialize (demoFirmwareFailAt 0 6) 0 fourCpuConfig true).Status =
        RETURN_STATUS.RETURN_SUCCESS ∧
      (ProcTraceInitialize (demoFirmwareFailAt 0 6) 0 fourCpuConfig
        true).Final.Data.AllocatedThreads = 2) :=
  ⟨⟨by decide, by decide, by decide⟩,
    ((ProcTraceInitialize_topa_pass (demoFirmwareFailAt 0 6) 0 fourCpuConfig true 4 2
      (by decide) (by decide) (by decide) (by decide) (by decide) (by decide) (by decide)
      (by decide) (by decide) (by decide) (by decide) (by decide) (by decide)).2.2.2
        (by decide)).1,
    ((ProcTraceInitialize_topa_pass (demoFirmwareFailAt 0 6) 0 fourCpuConfig true 4 2
      (by decide) (by decide) (by decide) (by decide) (by decide) (by decide) (by decide)
      (by decide) (by decide) (by decide) (by decide) (by decide) (by decide)).2.2.2
        (by decide)).2.1⟩

/-- C15. Reset block. With `c` the value returned by the first read of
`IA32_RTIT_CTL`, the writes of every call split as follows. If bit 0 of `c` is set, the first two
writes are `IA32_RTIT_CTL := c &&& ~BIT0`, which is `c` with bit 0 cleared, and
`IA32_RTIT_STATUS := 0`, followed by the list `rest`. If bit 0 of `c` is clear, the writes are
`rest` alone. In both cases every write of `rest` is to `IA32_RTIT_CTL`,
`IA32_RTIT_OUTPUT_BASE` or `IA32_RTIT_OUTPUT_MASK_PTRS`, none to `IA32_RTIT_STATUS`. -/
theorem ProcTraceInitialize_reset_prestep (fw : Firmware) (p : Nat) (d : PROC_TRACE_DATA)
    (State : Bool) :
    ∃ rest,
      (∀ w ∈ rest, (w.Index = MSR_IA32_RTIT_CTL ∨ w.Index = MSR_IA32_RTIT_OUTPUT_BASE ∨
        w.Index = MSR_IA32_RTIT_OUTPUT_MASK_PTRS) ∧ w.Index ≠ MSR_IA32_RTIT_STATUS) ∧
      ((msrRead fw 0 MSR_IA32_RTIT_CTL).testBit 0 = true →
        (ProcTraceInitialize fw p d State).Final.Writes =
          ⟨p, MSR_IA32_RTIT_CTL, msrRead fw 0 MSR_IA32_RTIT_CTL &&& NOT64 BIT0⟩ ::
          ⟨p, MSR_IA32_RTIT_STATUS, 0⟩ :: rest ∧
        ∀ i, (msrRead fw 0 MSR_IA32_RTIT_CTL &&& NOT64 BIT0).testBit i =
          (decide (i ≠ 0) && (msrRead fw 0 MSR_IA32_RTIT_CTL).testBit i)) ∧
      ((msrRead fw 0 MSR_IA32_RTIT_CTL).testBit 0 = false →
        (ProcTraceInitialize fw p d State).Final.Writes = rest) := by
  have key : ∀ rest, (ProcTraceInitialize fw p d State).Final.Writes =
      resetWrites fw p ++ rest →
      ((msrRead fw 0 MSR_IA32_RTIT_CTL).testBit 0 = true →
        (ProcTraceInitialize fw p d State).Final.Writes =
          ⟨p, MSR_IA32_RTIT_CTL, msrRead fw 0 MSR_IA32_RTIT_CTL &&& NOT64 BIT0⟩ ::
          ⟨p, MSR_IA32_RTIT_STATUS, 0⟩ :: rest ∧
        ∀ i, (msrRead fw 0 MSR_IA32_RTIT_CTL &&& NOT64 BIT0).testBit i =
          (decide (i ≠ 0) && (msrRead fw 0 MSR_IA32_RTIT_CTL).testBit i)) ∧
      ((msrRead fw 0 MSR_IA32_RTIT_CTL).testBit 0 = false →
        (ProcTraceInitialize fw p d State).Final.Writes = rest) := by
    intro rest h
    refine ⟨fun hb => ⟨?_, ?_⟩, fun hb => ?_⟩
    · rw [h, resetWrites, if_pos ((testBit_zero_and_BIT0 _).mpr hb)]
      rfl
    · intro i
      rw [testBit_and_NOT64 _ BIT0 i (msrRead_lt fw _ _) (by decide), testBit_BIT0,
        Bool.and_comm]
      by_cases hi : i = 0 <;> simp [hi]
    · have hn : ¬ (msrRead fw 0 MSR_IA32_RTIT_CTL &&& BIT0 ≠ 0) := by
        rw [testBit_zero_and_BIT0, hb]; simp
      rw [h, resetWrites, if_neg hn]
      rfl
  have hd : MSR_IA32_RTIT_CTL ≠ MSR_IA32_RTIT_STATUS ∧
      MSR_IA32_RTIT_OUTPUT_BASE ≠ MSR_IA32_RTIT_STATUS ∧
      MSR_IA32_RTIT_OUTPUT_MASK_PTRS ≠ MSR_IA32_RTIT_STATUS := by decide
  rcases ProcTraceInitialize_writes fw p d State with
    ⟨w, _, _⟩ | ⟨R, _, _, _, w⟩ | ⟨R, T, _, _, _, _, w⟩ | ⟨R, _, _, _, _, w⟩
  · refine ⟨[], ?_, key [] (by rw [w, List.append_nil])⟩
    intro w hw; cases hw
  · refine ⟨_, ?_, key _ w⟩
    intro e he
    simp only [List.mem_cons, List.mem_singleton, List.not_mem_nil, or_false] at he
    rcases he with h | h | h | h <;> subst h <;> simp [hd.1, hd.2.1, hd.2.2]
  · refine ⟨_, ?_, key _ w⟩
    intro e he
    simp only [List.mem_cons, List.mem_singleton, List.not_mem_nil, or_false] at he
    rcases he with h | h | h | h <;> subst h <;> simp [hd.1, hd.2.1, hd.2.2]
  · refine ⟨_, ?_, key _ w⟩
    intro e he
    simp only [List.mem_cons, List.mem_singleton, List.not_mem_nil, or_false] at he
    subst he
    simp [hd.1, hd.2.1, hd.2.2]

/-- C16. Scheme mismatch. A call that goes on with a region and for which neither
(`SingleRangeSupported` and scheme single-range) nor (`TopaSupported` and scheme ToPA) holds
returns `RETURN_SUCCESS`, builds no routing table, and its writes are those of the reset block
followed by the single final write to `IA32_RTIT_CTL`: none of them is to
`IA32_RTIT_OUTPUT_BASE` or `IA32_RTIT_OUTPUT_MASK_PTRS`. Moreover every call, whatever it is,
submits at most one write to `IA32_RTIT_OUTPUT_BASE`: the two scheme blocks never both run. -/
theorem ProcTraceInitialize_scheme_mismatch (fw : Firmware) (p : Nat) (d : PROC_TRACE_DATA) (State : Bool) :
    (∀ R, regionOf fw p d = some R →
      ¬ ((d.ProcessorData p).SingleRangeSupported = true ∧
        d.ProcTraceOutputScheme = OutputSchemeSingleRange) →
      ¬ ((d.ProcessorData p).TopaSupported = true ∧
        d.ProcTraceOutputScheme = OutputSchemeToPA) →
      (ProcTraceInitialize fw p d State).Status = RETURN_STATUS.RETURN_SUCCESS ∧
      (ProcTraceInitialize fw p d State).Final.TopaTable = none ∧
      (ProcTraceInitialize fw p d State).Final.Writes = resetWrites fw p ++
        [⟨p, MSR_IA32_RTIT_CTL,
          armValue (msrRead fw (resetReads fw) MSR_IA32_RTIT_CTL) State⟩] ∧
      ∀ w ∈ (ProcTraceInitialize fw p d State).Final.Writes,
        w.Index ≠ MSR_IA32_RTIT_OUTPUT_BASE ∧ w.Index ≠ MSR_IA32_RTIT_OUTPUT_MASK_PTRS) ∧
    (ProcTraceInitialize fw p d State).Final.Writes.countP
      (fun w => decide (w.Index = MSR_IA32_RTIT_OUTPUT_BASE)) ≤ 1 := by
  have hd := msr_index_distinct
  refine ⟨?_, ?_⟩
  · intro R hR h1 h2
    obtain ⟨x, hq, _⟩ := regionOf_next fw p d R hR
    have e := ProcTraceInitialize_neither fw p d State R x hq h1 h2
    obtain ⟨b1, b2, b3, _⟩ := regionStep_next_frame fw p _ R _ _ _ hq
    rw [resetStep_start_Writes] at b1
    rw [resetStep_start_MsrReads] at b2
    rw [resetStep_TopaTable] at b3
    have hw : (ProcTraceInitialize fw p d State).Final.Writes = resetWrites fw p ++
        [⟨p, MSR_IA32_RTIT_CTL,
          armValue (msrRead fw (resetReads fw) MSR_IA32_RTIT_CTL) State⟩] := by
      rw [e]
      show (armStep fw p State x).Writes = _
      rw [armStep_Writes, b1, b2]
      rfl
    refine ⟨by rw [e], by rw [e]; exact b3, hw, ?_⟩
    intro w hm
    rw [hw, List.mem_append] at hm
    rcases hm with hm | hm
    · rcases resetWrites_index fw p w hm with h | h <;> rw [h]
      · exact ⟨hd.2.1, hd.2.2.1⟩
      · exact ⟨hd.2.2.2.1, hd.2.2.2.2.1⟩
    · rw [List.mem_singleton] at hm
      rw [hm]
      exact ⟨hd.2.1, hd.2.2.1⟩
  · rcases ProcTraceInitialize_writes fw p d State with
      ⟨w, _, _⟩ | ⟨R, _, _, _, w⟩ | ⟨R, T, _, _, _, _, w⟩ | ⟨R, _, _, _, _, w⟩
    · rw [w, countP_resetWrites]
      exact Nat.zero_le _
    · rw [w, List.countP_append, countP_resetWrites]
      simp [List.countP_cons, MSR_IA32_RTIT_CTL, MSR_IA32_RTIT_OUTPUT_BASE,
        MSR_IA32_RTIT_OUTPUT_MASK_PTRS]
    · rw [w, List.countP_append, countP_resetWrites]
      simp [List.countP_cons, MSR_IA32_RTIT_CTL, MSR_IA32_RTIT_OUTPUT_BASE,
        MSR_IA32_RTIT_OUTPUT_MASK_PTRS]
    · rw [w, List.countP_append, countP_resetWrites]
      simp [List.countP_cons, MSR_IA32_RTIT_CTL, MSR_IA32_RTIT_OUTPUT_BASE]

/-- C16, at a concrete input: scheme ToPA and a first caller that supports
single-range output only. -/
theorem ProcTraceInitialize_scheme_mismatch_witness :
    regionOf (demoFirmware 0 8) 0 mixedConfig = some 0x10000000 ∧
    (ProcTraceInitialize (demoFirmware 0 8) 0 mixedConfig true).Status =
      RETURN_STATUS.RETURN_SUCCESS ∧
    (ProcTraceInitialize (demoFirmware 0 8) 0 mixedConfig true).Final.Writes =
      [⟨0, MSR_IA32_RTIT_CTL, 0x200D⟩] :=
  ⟨by decide,
   ((ProcTraceInitialize_scheme_mismatch (demoFirmware 0 8) 0 mixedConfig true).1 0x10000000
      (by decide) (by decide) (by decide)).1,
   by decide⟩

/-- C17 (the code departs from the claim). When every read of `IA32_RTIT_CTL` made
during the call returns the same pre-call value `c`, a call that reaches the final block submits
`IA32_RTIT_CTL := armValue c State` as its last write, and bit 8 of that value is bit 8 of `c`,
whichever scheme block ran: the final write is computed from `c` again and does not carry the
scheme-select bit that the scheme block has submitted. -/
theorem ProcTraceInitialize_last_write_bit8 (fw : Firmware) (p : Nat) (d : PROC_TRACE_DATA) (State : Bool) (c : Nat)
    (hc : ∀ k, msrRead fw k MSR_IA32_RTIT_CTL = c)
    (hs : (ProcTraceInitialize fw p d State).Status = RETURN_STATUS.RETURN_SUCCESS)
    (hin : d.ThreadMemRegionTable = none ∨ p < d.AllocatedThreads) :
    (ProcTraceInitialize fw p d State).Final.Writes.getLast? =
      some ⟨p, MSR_IA32_RTIT_CTL, armValue c State⟩ ∧
    (armValue c State).testBit 8 = c.testBit 8 := by
  obtain ⟨x, e⟩ := ProcTraceInitialize_reaches_arm fw p d State hs hin
  have hlt : c < 2 ^ 64 := by rw [← hc 0]; exact msrRead_lt fw _ _
  refine ⟨?_, ?_⟩
  · rw [e]
    show (armStep fw p State x).Writes.getLast? = _
    rw [armStep_Writes, List.getLast?_append, hc]
    rfl
  · rw [armValue_testBit c State 8 hlt]
    simp

/-- C17, at a concrete input: processor 1 of the four-processor ToPA platform,
`IA32_RTIT_CTL` reading 0. The ToPA block runs (a routing table is built), and the last write is
`IA32_RTIT_CTL := 0x200D`, with bit 8 clear. -/
theorem ProcTraceInitialize_last_write_bit8_witness :
    (∀ k, msrRead (demoFirmware 0 8) k MSR_IA32_RTIT_CTL = 0) ∧
    (ProcTraceInitialize (demoFirmware 0 8) 1 fourCpuAfterFirst true).Status =
      RETURN_STATUS.RETURN_SUCCESS ∧
    (ProcTraceInitialize (demoFirmware 0 8) 1 fourCpuAfterFirst true).Final.TopaTable.isSome =
      true ∧
    ((ProcTraceInitialize (demoFirmware 0 8) 1 fourCpuAfterFirst true).Final.Writes.getLast? =
      some ⟨1, MSR_IA32_RTIT_CTL, armValue 0 true⟩ ∧
     (armValue 0 true).testBit 8 = Nat.testBit 0 8) ∧
    armValue 0 true = 0x200D ∧ Nat.testBit 0x200D 8 = false :=
  ⟨fun _ => rfl, by decide, by decide,
    ProcTraceInitialize_last_write_bit8 (demoFirmware 0 8) 1 fourCpuAfterFirst true 0 (fun _ => rfl) (by decide)
      (Or.inr (by decide)),
    by decide, by decide⟩

/-- C18 (the code departs from the claim). Two processors, scheme ToPA, processor 0
capable of single-range output only, processor 1 fully capable, every allocation succeeding.
The first invocation, made by processor 0, reads no missing entry and returns
`RETURN_SUCCESS` with the region table set and `AllocatedThreads = 2`, but it skips the ToPA
block, so `TopaMemArray` is still NULL. The call of processor 1 then enters the ToPA block and
reads `TopaMemArray[1]` through the NULL pointer: the read finds no entry, and the call still
builds a routing table and returns `RETURN_SUCCESS`. -/
theorem ProcTraceInitialize_topa_lookup_through_null :
    (ProcTraceInitialize (demoFirmware 0 8) 0 mixedConfig true).Status =
      RETURN_STATUS.RETURN_SUCCESS ∧
    (ProcTraceInitialize (demoFirmware 0 8) 0 mixedConfig true).Final.InvalidRead = false ∧
    mixedAfterFirst.NumberOfProcessors = 2 ∧
    mixedAfterFirst.AllocatedThreads = 2 ∧
    mixedAfterFirst.ThreadMemRegionTable.isSome = true ∧
    mixedAfterFirst.TopaMemArray.isNone = true ∧
    ((mixedAfterFirst.ProcessorData 1).TopaSupported = true ∧
      mixedAfterFirst.ProcTraceOutputScheme = OutputSchemeToPA) ∧
    PoolArray.read mixedAfterFirst.TopaMemArray 1 = none ∧
    (ProcTraceInitialize (demoFirmware 0 8) 1 mixedAfterFirst true).Status =
      RETURN_STATUS.RETURN_SUCCESS ∧
    (ProcTraceInitialize (demoFirmware 0 8) 1 mixedAfterFirst true).Final.InvalidRead = true ∧
    (ProcTraceInitialize (demoFirmware 0 8) 1 mixedAfterFirst true).Final.TopaTable.isSome =
      true := by
  decide

end ProcTrace
